import Mathlib

/-!
# Typed-cell tables with range aggregation

A shallow embedding of the two programs of the repository, `laba_1.cpp`
(namespace `Laba1`) and `laba_1_reload.cpp` (namespace `Reload`), and the
properties of their cells, tables and range aggregates.

Modelling conventions.

* `double` is an arbitrary type `F` carrying `0`, `1`, `+`, `*`, `/` and the
  comparison `==`; no algebraic law is assumed unless a theorem names it, so
  the results hold for every arithmetic with those laws (IEEE-754 included
  where the named law holds of it) and are evaluated on `ℚ` in the examples.
* `int` is `Int`, `size_t` is `Nat`.
* A C++ exception is a value of `Exn`; a method that can throw returns
  `Except Exn _`, and a method that can throw *and* mutates its object returns
  the outcome together with the object's state after the call, so that
  "unchanged on failure" is a statement about the code and not about the
  encoding.
* `v[i]` on a `std::vector` past its end is undefined behaviour; it is made
  explicit as the outcome `Exn.vector_subscript`.
* A `Table` of laba_1.cpp is a value (`Laba1.Table`) wherever one object is
  concerned; where two objects are (the copy constructor), the cells live in a
  memory and an object holds their addresses (`Laba1.TableObj`), so that
  sharing is expressible.
-/

/-- C++ exceptions of the two programs, by class and `what()` text.
`vector_subscript` and `null_dereference` are not exceptions of the source:
they mark an `operator[]` access past the end of a `std::vector` and the use of
a shared pointer that points to no cell. -/
inductive Exn where
  | invalid_argument (what : String)
  | runtime_error (what : String)
  | out_of_range (what : String)
  | logic_error (what : String)
  | length_error (what : String)
  | vector_subscript
  | null_dereference
  deriving DecidableEq, Repr

/-- The expression `v[i]` for a `std::vector` `v` and an `int` index `i`
(a negative `i` converts to a huge `size_t`, hence is past the end). -/
def subscript {α : Type} (v : List α) (i : Int) : Except Exn α :=
  if i < 0 then .error .vector_subscript
  else
    match v.get? i.toNat with
    | some x => .ok x
    | none => .error .vector_subscript

/-- The values taken by `i` in `for (int i = a; i <= b; ++i)`, in order. -/
def intRange (a b : Int) : List Int :=
  (List.range (b + 1 - a).toNat).map (fun (k : Nat) => a + (k : Int))

/-- The loop `for (int i = a; i <= b; ++i) body` acting on a state `σ`; an
exception thrown by the body leaves the loop. -/
def forLoop {σ : Type} (a b : Int) (body : σ → Int → Except Exn σ) (init : σ) :
    Except Exn σ :=
  (intRange a b).foldlM body init

namespace Laba1

/-- The enumeration `Cell::TypeCell` of laba_1.cpp. -/
inductive TypeCell where
  | EMPTY
  | NUMBER
  | TEXT
  deriving DecidableEq, Repr

/-- The class `Cell` of laba_1.cpp: the tag and both payload fields. -/
structure Cell (F : Type) where
  type : TypeCell
  textValue : String
  numberValue : F
  deriving DecidableEq, Repr

/-- The class `Table` of laba_1.cpp. -/
structure Table (F : Type) where
  cells : List (List (Cell F))
  rows : Int
  columns : Int
  deriving DecidableEq, Repr

section
variable {F : Type}

/-- The constructor `Cell() : type(EMPTY), numberValue(0.0)`. -/
def Cell.new [Zero F] : Cell F :=
  { type := .EMPTY, textValue := "", numberValue := 0 }

/-- The method `Cell::setText`: outcome and the cell after the call. -/
def Cell.setText (c : Cell F) (value : String) : Except Exn Unit × Cell F :=
  if value = "" then
    (.error (.invalid_argument "Text cannot be empty"), c)
  else
    (.ok (), { c with textValue := value, type := .TEXT })

/-- The method `Cell::setNumber`. -/
def Cell.setNumber (c : Cell F) (value : F) : Cell F :=
  { c with numberValue := value, type := .NUMBER }

/-- The method `Cell::getType`. -/
def Cell.getType (c : Cell F) : TypeCell := c.type

/-- The method `Cell::getText`. -/
def Cell.getText (c : Cell F) : Except Exn String :=
  if c.type = .TEXT then .ok c.textValue
  else .error (.runtime_error "Cell does not contain text")

/-- The method `Cell::getNumber`. -/
def Cell.getNumber (c : Cell F) : Except Exn F :=
  if c.type = .NUMBER then .ok c.numberValue
  else .error (.runtime_error "Cell does not contain a number")

/-- The method `Cell::clear`. -/
def Cell.clear [Zero F] (_c : Cell F) : Cell F :=
  { type := .EMPTY, textValue := "", numberValue := 0 }

/-- The class invariant of `Table`: `cells` has `rows` rows of `columns`
cells each. Every constructor establishes it and no method changes the shape. -/
def Table.WF (t : Table F) : Prop :=
  (t.cells.length : Int) = t.rows ∧ ∀ r ∈ t.cells, (r.length : Int) = t.columns

instance (t : Table F) : Decidable t.WF := by
  unfold Table.WF
  exact inferInstance

/-- The constructor `Table()`. -/
def Table.new [Zero F] : Table F :=
  { cells := [[Cell.new]], rows := 1, columns := 1 }

/-- The constructor `Table(int rows, int columns)`; a negative size converts
to a `size_t` above `max_size()` and the vector constructor throws
`std::length_error` (with the text libstdc++ gives it). -/
def Table.init [Zero F] (rows columns : Int) : Except Exn (Table F) :=
  if columns < 0 ∨ rows < 0 then
    .error (.length_error "cannot create std::vector larger than max_size()")
  else
    .ok { cells := List.replicate rows.toNat (List.replicate columns.toNat Cell.new),
          rows := rows, columns := columns }

/-- The copy constructor `Table(const Table&)`: the vectors are copied by value. -/
def Table.copy (other : Table F) : Table F :=
  { cells := other.cells, rows := other.rows, columns := other.columns }

/-- The method `Table::validateCoordinates`. -/
def Table.validateCoordinates (t : Table F) (row column : Int) : Except Exn Unit :=
  if row < 0 ∨ row ≥ t.rows ∨ column < 0 ∨ column ≥ t.columns then
    .error (.out_of_range "Invalid cell coordinates")
  else .ok ()

/-- The method `Table::validateRange`. -/
def Table.validateRange (t : Table F) (start end_ : Int × Int) : Except Exn Unit :=
  if start.1 < 0 ∨ start.2 < 0 ∨ end_.1 ≥ t.rows ∨ end_.2 ≥ t.columns ∨
      start.1 > end_.1 ∨ start.2 > end_.2 then
    .error (.invalid_argument "Invalid cell range")
  else .ok ()

/-- The method `Table::validateOperation`. -/
def Table.validateOperation (_t : Table F) (operation : String) : Except Exn Unit :=
  if ¬ (operation = "Sum" ∨ operation = "Mean" ∨ operation = "Prod") then
    .error (.invalid_argument "Invalid operation")
  else .ok ()

/-- The expression `cells[i][j]` read inside the methods of `Table`. -/
def Table.at (t : Table F) (i j : Int) : Except Exn (Cell F) := do
  let r ← subscript t.cells i
  subscript r j

/-- The method `Table::getCell` (both overloads), as a read. -/
def Table.getCell (t : Table F) (row column : Int) : Except Exn (Cell F) := do
  t.validateCoordinates row column
  t.at row column

/-- The method `Table::setText`: outcome and the table after the call. -/
def Table.setText (t : Table F) (row column : Int) (text : String) :
    Except Exn Unit × Table F :=
  match t.validateCoordinates row column with
  | .error e => (.error e, t)
  | .ok () =>
    match subscript t.cells row with
    | .error e => (.error e, t)
    | .ok r =>
      match subscript r column with
      | .error e => (.error e, t)
      | .ok c =>
        let out := c.setText text
        (out.1, { t with cells := t.cells.set row.toNat (r.set column.toNat out.2) })

/-- The method `Table::setNumber`: outcome and the table after the call. -/
def Table.setNumber (t : Table F) (row column : Int) (number : F) :
    Except Exn Unit × Table F :=
  match t.validateCoordinates row column with
  | .error e => (.error e, t)
  | .ok () =>
    match subscript t.cells row with
    | .error e => (.error e, t)
    | .ok r =>
      match subscript r column with
      | .error e => (.error e, t)
      | .ok c =>
        (.ok (), { t with cells := t.cells.set row.toNat (r.set column.toNat (c.setNumber number)) })

/-- The body shared by the loops of the aggregates,
`if (cells[i][j].getType() == Cell::NUMBER) { ... cells[i][j].getNumber() ... }`,
where `g` is the update the braces apply to the local variables. -/
def Table.onNumber {σ : Type} (t : Table F) (i j : Int) (g : σ → F → σ) (acc : σ) :
    Except Exn σ := do
  if (← t.at i j).getType = .NUMBER then
    let v ← (← t.at i j).getNumber
    pure (g acc v)
  else
    pure acc

/-- The method `Table::calculateSum`; the state of the loops is `(sum, count)`
with `count` an `int` (its overflow would take 2^31 Number cells in one range
and is not modelled). -/
def Table.calculateSum [Zero F] [Add F] (t : Table F) (start end_ : Int × Int) :
    Except Exn F := do
  t.validateRange start end_
  let acc ← forLoop start.1 end_.1 (fun acc i =>
    forLoop start.2 end_.2 (fun acc j =>
      t.onNumber i j (fun (a : F × Int) v => (a.1 + v, a.2 + 1)) acc) acc) ((0 : F), (0 : Int))
  if acc.2 = 0 then
    throw (.runtime_error "No numbers in range to calculate sum")
  else
    pure acc.1

/-- The method `Table::calculateProd`; the state of the loops is `(prod, count)`,
both `double`. -/
def Table.calculateProd [Zero F] [One F] [Add F] [Mul F] [BEq F] (t : Table F)
    (start end_ : Int × Int) : Except Exn F := do
  t.validateRange start end_
  let acc ← forLoop start.1 end_.1 (fun acc i =>
    forLoop start.2 end_.2 (fun acc j =>
      t.onNumber i j (fun (a : F × F) v => (a.1 * v, a.2 + 1)) acc) acc) ((1 : F), (0 : F))
  if acc.2 == 0 then
    throw (.runtime_error "No numbers in range to calculate prod")
  else
    pure acc.1

/-- The method `Table::calculateMean`; the state of the loops is `(sum, count)`,
both `double`. -/
def Table.calculateMean [Zero F] [One F] [Add F] [Div F] [BEq F] (t : Table F)
    (start end_ : Int × Int) : Except Exn F := do
  t.validateRange start end_
  let acc ← forLoop start.1 end_.1 (fun acc i =>
    forLoop start.2 end_.2 (fun acc j =>
      t.onNumber i j (fun (a : F × F) v => (a.1 + v, a.2 + 1)) acc) acc) ((0 : F), (0 : F))
  if acc.2 == 0 then
    throw (.runtime_error "No numbers in range to calculate mean")
  else
    pure (acc.1 / acc.2)

/-- The update of `(sum, prod, count)` made by `calculateOperation` on a
Number cell holding `v`. -/
def operationStep [Add F] [Mul F] [One F] (operation : String) (a : F × F × F) (v : F) :
    F × F × F :=
  if operation = "Sum" ∨ operation = "Mean" then
    (a.1 + v, a.2.1, if operation = "Mean" then a.2.2 + 1 else a.2.2)
  else if operation = "Prod" then
    (a.1, a.2.1 * v, a.2.2)
  else a

/-- The method `Table::calculateOperation`; the state of the loops is
`(sum, prod, count)`. -/
def Table.calculateOperation [Zero F] [One F] [Add F] [Mul F] [Div F] [BEq F] (t : Table F)
    (operation : String) (start end_ : Int × Int) : Except Exn F := do
  t.validateRange start end_
  t.validateOperation operation
  let acc ← forLoop start.1 end_.1 (fun acc i =>
    forLoop start.2 end_.2 (fun acc j =>
      t.onNumber i j (operationStep operation) acc) acc) ((0 : F), (1 : F), (0 : F))
  if operation = "Mean" ∨ operation = "Sum" then
    if operation = "Sum" then
      pure acc.1
    else if acc.2.2 == 0 then
      throw (.runtime_error "No members in range to calculate mean")
    else
      pure (acc.1 / acc.2.2)
  else
    pure acc.2.1

/-- The cells of the rectangle from `start` to `end_`, both corners included,
enumerated row by row (rows `start.1` to `end_.1`) and left to right within a
row (columns `start.2` to `end_.2`). -/
def Table.cellsInRange (t : Table F) (start end_ : Int × Int) : List (Cell F) :=
  (intRange start.1 end_.1).flatMap (fun i =>
    (intRange start.2 end_.2).filterMap (fun j => (t.at i j).toOption))

/-- The values of the Number cells of the rectangle, in the order of
`cellsInRange`; cells that are not Number are left out. -/
def Table.numbersInRange (t : Table F) (start end_ : Int × Int) : List F :=
  ((t.cellsInRange start end_).filter (fun c => c.type = .NUMBER)).map (fun c => c.numberValue)

end

/-- The assignment `getCell(row, column) = x` through the reference that the
non-const `getCell` returns: outcome and the table after it. -/
def Table.assignCell {F : Type} (t : Table F) (row column : Int) (x : Cell F) :
    Except Exn Unit × Table F :=
  match t.validateCoordinates row column with
  | .error e => (.error e, t)
  | .ok () =>
    match subscript t.cells row with
    | .error e => (.error e, t)
    | .ok r =>
      match subscript r column with
      | .error e => (.error e, t)
      | .ok _ => (.ok (), { t with cells := t.cells.set row.toNat (r.set column.toNat x) })

/-- A call of one of the two setters of `Table`, with its arguments. -/
inductive Call (F : Type) where
  | setNumber (row column : Int) (number : F)
  | setText (row column : Int) (text : String)

/-- The table `table` of `runTests` when it is copied: 2x2 with 10.5 at (0,0)
and the text "Hello" at (0,1). -/
def testTableOriginal : Table ℚ :=
  let table : Table ℚ :=
    { cells := List.replicate 2 (List.replicate 2 Cell.new), rows := 2, columns := 2 }
  let table := (table.setNumber 0 0 10.5).2
  (table.setText 0 1 "Hello").2

/-- The table `tableCopy` of `runTests` at the point where `calculateSum` and
`calculateProd` are asserted: a copy of the 2x2 `table` with 20.5 at (0,0) and
the text "Hello" at (0,1). -/
def testTableCopy : Table ℚ :=
  let table : Table ℚ :=
    { cells := List.replicate 2 (List.replicate 2 Cell.new), rows := 2, columns := 2 }
  let table := (table.setNumber 0 0 10.5).2
  let table := (table.setText 0 1 "Hello").2
  let tableCopy := Table.copy table
  (tableCopy.setNumber 0 0 20.5).2

/-- The table `tableCopy` of `runTests` at the point where `calculateMean` is
asserted: 20.5 at (0,0) and 30.5 at (0,1), the second row Empty. -/
def testTableMean : Table ℚ :=
  (testTableCopy.setNumber 0 1 30.5).2

end Laba1

/-- The value of a `double` counter started at `0.0` after `n` increments by `1`. -/
def doubleOfCount {F : Type} [Zero F] [One F] [Add F] (n : Nat) : F :=
  (fun c : F => c + 1)^[n] 0

/-- The two facts about a `double` counter that the guards `count == 0` rely
on: `0.0 == 0` holds, and a counter started at `0.0` and incremented by `1` at
least once does not compare equal to `0`. -/
class CountLaw (F : Type) [Zero F] [One F] [Add F] [BEq F] : Prop where
  zero_beq_zero : ((0 : F) == 0) = true
  count_ne_zero : ∀ n : Nat, ((doubleOfCount (n + 1) : F) == 0) = false

deriving instance DecidableEq for Except

instance : CountLaw ℚ where
  zero_beq_zero := by simp
  count_ne_zero := by
    intro n
    have h : ∀ m : Nat, (doubleOfCount m : ℚ) = m := by
      intro m
      induction m with
      | zero => simp [doubleOfCount]
      | succ k ih =>
        unfold doubleOfCount at ih ⊢
        rw [Function.iterate_succ_apply', ih]
        push_cast
        ring
    rw [h]
    simp
    exact_mod_cast Nat.succ_ne_zero n

/-- The expression `v[i]` for a `std::vector` `v` and a `size_t` index `i`. -/
def subscriptN {α : Type} (v : List α) (i : Nat) : Except Exn α :=
  match v.get? i with
  | some x => .ok x
  | none => .error .vector_subscript

/-- The loop `for (size_t i = 0; i < n; i++) body` acting on a state `σ`; an
exception thrown by the body leaves the loop. -/
def forLoopN {σ : Type} (n : Nat) (body : σ → Nat → Except Exn σ) (init : σ) :
    Except Exn σ :=
  (List.range n).foldlM body init

/-- What a pass of a loop body ends with: the loop goes on with the next
index (`next`), or the body executed `break` (`brk`); both carry the state. -/
inductive LoopStep (σ : Type) where
  | next (s : σ)
  | brk (s : σ)

/-- A `for` loop over the index values `l`, in order, whose body may `break`. -/
def forBreak {σ : Type} (l : List Nat) (body : σ → Nat → Except Exn (LoopStep σ)) (init : σ) :
    Except Exn σ :=
  match l with
  | [] => .ok init
  | i :: rest =>
    match body init i with
    | .error e => .error e
    | .ok (.next s) => forBreak rest body s
    | .ok (.brk s) => .ok s

/-- The call `v.resize(n, x)` on a `std::vector`. -/
def resize {α : Type} (v : List α) (n : Nat) (x : α) : List α :=
  v.take n ++ List.replicate (n - v.length) x

namespace Reload

/-- The enumeration `Cell::TypeCell` of laba_1_reload.cpp. -/
inductive TypeCell where
  | EMPTY
  | TEXT
  | NUMBER
  deriving DecidableEq, Repr

/-- The class `Cell` of laba_1_reload.cpp: the tag and both payload fields. -/
structure Cell (F : Type) where
  type : TypeCell
  text : String
  number : F
  deriving DecidableEq, Repr

/-- A `std::shared_ptr<Cell>`: the address of a cell in the store. -/
abbrev Ptr := Nat

/-- The cells allocated by `std::make_shared<Cell>`, by address. -/
abbrev Heap (F : Type) := List (Cell F)

/-- The class `Table` of laba_1_reload.cpp: a matrix of shared pointers. -/
structure Table where
  cells : List (List Ptr)
  row : Nat
  column : Nat
  deriving DecidableEq, Repr

section
variable {F : Type}

/-- The constructor `Cell() : type(EMPTY), number(0.0)`. -/
def Cell.new [Zero F] : Cell F :=
  { type := .EMPTY, text := "", number := 0 }

/-- The constructor `Cell(double num) : type(NUMBER), number(num)`. -/
def Cell.ofNumber (num : F) : Cell F :=
  { type := .NUMBER, text := "", number := num }

/-- The constructor `Cell(const std::string& txt) : type(TEXT), text(txt)`. It
does not initialise the member `number`; the value that member happens to hold
is the parameter `number`. -/
def Cell.ofText (txt : String) (number : F) : Cell F :=
  { type := .TEXT, text := txt, number := number }

/-- The method `Cell::getType`. -/
def Cell.getType (c : Cell F) : TypeCell := c.type

/-- The method `Cell::getNumber`. -/
def Cell.getNumber (c : Cell F) : Except Exn F :=
  if c.type = .EMPTY ∨ c.type = .TEXT then
    .error (.runtime_error "Попытка взятия числа не из числовой ячейки!")
  else .ok c.number

/-- The method `Cell::getText`. -/
def Cell.getText (c : Cell F) : Except Exn String :=
  if c.type = .EMPTY ∨ c.type = .NUMBER then
    .error (.runtime_error "Попытка взятия текста не из текстовой ячейки")
  else .ok c.text

/-- The method `Cell::setNumber`. -/
def Cell.setNumber (c : Cell F) (num : F) : Cell F :=
  { c with number := num, type := .NUMBER }

/-- The method `Cell::setText`. -/
def Cell.setText (c : Cell F) (txt : String) : Cell F :=
  { c with text := txt, type := .TEXT }

/-- The method `Cell::clearCell`. -/
def Cell.clearCell [Zero F] (c : Cell F) : Cell F :=
  { c with number := 0, text := "", type := .EMPTY }

/-- The call `std::make_shared<Cell>(...)`: the new cell is stored at a fresh
address, which is returned with the extended store. -/
def make_shared (h : Heap F) (c : Cell F) : Ptr × Heap F :=
  (h.length, h ++ [c])

/-- The cell a shared pointer points to. -/
def deref (h : Heap F) (p : Ptr) : Option (Cell F) := h.get? p

/-- The shape condition on a table: `cells` has `row` rows of `column`
pointers each. The two-argument constructors establish it; the constructor that
takes a matrix and `readFromFile` do not check it. -/
def Table.WF (t : Table) : Prop :=
  t.cells.length = t.row ∧ ∀ r ∈ t.cells, r.length = t.column

instance (t : Table) : Decidable t.WF := by
  unfold Table.WF
  exact inferInstance

/-- The constructor `Table()`. -/
def Table.new [Zero F] (h : Heap F) : Table × Heap F :=
  let a := make_shared h Cell.new
  ({ cells := List.replicate 1 (List.replicate 1 a.1), row := 1, column := 1 }, a.2)

/-- The constructor `Table(size_t rows, size_t cols)`: `std::make_shared<Cell>()`
is evaluated once and the pointer it returns fills the whole matrix. -/
def Table.init [Zero F] (h : Heap F) (rows cols : Nat) : Table × Heap F :=
  let a := make_shared h Cell.new
  ({ cells := List.replicate rows (List.replicate cols a.1), row := rows, column := cols }, a.2)

/-- The method `Table::setCell(size_t, size_t, double)`: outcome, and the table
and store after the call. -/
def Table.setCellNumber (t : Table) (h : Heap F) (rows col : Nat) (value : F) :
    Except Exn Unit × Table × Heap F :=
  if rows ≥ t.row ∨ col ≥ t.column then
    (.error (.out_of_range "Индекс ячейки вне диапазона."), t, h)
  else
    let a := make_shared h (Cell.ofNumber value)
    match subscriptN t.cells rows with
    | .error e => (.error e, t, a.2)
    | .ok r =>
      match subscriptN r col with
      | .error e => (.error e, t, a.2)
      | .ok _ => (.ok (), { t with cells := t.cells.set rows (r.set col a.1) }, a.2)

/-- The method `Table::setCell(size_t, size_t, const std::string&)`: outcome,
and the table and store after the call; `number` is the value left in the
uninitialised member of the new cell. -/
def Table.setCellText (t : Table) (h : Heap F) (rows col : Nat) (text : String) (number : F) :
    Except Exn Unit × Table × Heap F :=
  if rows ≥ t.row ∨ col ≥ t.column then
    (.error (.out_of_range "Индекс ячейки вне диапазона."), t, h)
  else
    let a := make_shared h (Cell.ofText text number)
    match subscriptN t.cells rows with
    | .error e => (.error e, t, a.2)
    | .ok r =>
      match subscriptN r col with
      | .error e => (.error e, t, a.2)
      | .ok _ => (.ok (), { t with cells := t.cells.set rows (r.set col a.1) }, a.2)

/-- The method `Table::getCell`: the shared pointer stored at the coordinates. -/
def Table.getCell (t : Table) (rows col : Nat) : Except Exn Ptr :=
  if rows ≥ t.row ∨ col ≥ t.column then
    .error (.out_of_range "Индекс ячейки вне диапазона.")
  else do
    let r ← subscriptN t.cells rows
    subscriptN r col

/-- The method `Table::getSize`. -/
def Table.getSize (t : Table) : Nat × Nat := (t.row, t.column)

/-- The expression `p->...` for a shared pointer `p`. -/
def derefE (h : Heap F) (p : Ptr) : Except Exn (Cell F) :=
  match deref h p with
  | some c => .ok c
  | none => .error .null_dereference

/-- The cell reached by the expression `cells[i][j]->...`. -/
def Table.cellAt (t : Table) (h : Heap F) (i j : Nat) : Except Exn (Cell F) := do
  let r ← subscriptN t.cells i
  let p ← subscriptN r j
  derefE h p

/-- Every shared pointer of the matrix points to a cell of the store (none is
null). -/
def Table.PtrsValid (t : Table) (h : Heap F) : Prop :=
  ∀ r ∈ t.cells, ∀ p ∈ r, p < h.length

instance (t : Table) (h : Heap F) : Decidable (t.PtrsValid h) := by
  unfold Table.PtrsValid
  exact inferInstance

/-- The method `Table::operator+`: the new table (or the exception) and the
store after the call. The operands are `const` and are not written. -/
def Table.operatorAdd [Zero F] (t : Table) (h : Heap F) (other : Table) :
    Except Exn Table × Heap F :=
  if t.row ≠ other.row then
    (.error (.invalid_argument "Конкатенация невозможна в силу разного кол-во объектов"), h)
  else
    let a := make_shared h Cell.new
    let result_matrix := resize [] t.row (List.replicate (t.column + other.column) a.1)
    let filled := forLoopN t.row (fun m i =>
      forLoopN (t.column + other.column) (fun m j => do
        let p ← (if j < t.column then t.getCell i j else other.getCell i (j - t.column))
        let r ← subscriptN m i
        let _ ← subscriptN r j
        pure (m.set i (r.set j p))) m) result_matrix
    match filled with
    | .error e => (.error e, a.2)
    | .ok m => (.ok { cells := m, row := t.row, column := t.column + other.column }, a.2)

/-- The method `Table::operator+=`: outcome, and the left operand and the
store after the call. The right operand `other` is `none` when it is the left
operand itself (`this == &other`) and `some b` when it is another object `b`.
After a vector access past the end the left operand is left as `resize` made
it. -/
def Table.operatorAddAssign [Zero F] (t : Table) (h : Heap F) (other : Option Table) :
    Except Exn Unit × Table × Heap F :=
  if t.row ≠ (other.getD t).row then
    (.error (.invalid_argument "Конкатенация невозможна в силу разного кол-во объектов"), t, h)
  else
    match other with
    | none => (.ok (), t, h)
    | some b =>
      let a := make_shared h Cell.new
      let cells := resize t.cells t.row (List.replicate (t.column + b.column) a.1)
      let filled := forLoopN t.row (fun m i => do
        let r ← subscriptN m i
        let o ← subscriptN b.cells i
        pure (m.set i (r ++ o))) cells
      match filled with
      | .error e => (.error e, { t with cells := cells }, a.2)
      | .ok m => (.ok (), { cells := m, row := t.row, column := t.column + b.column }, a.2)

/-- The body of the inner loop of `Table::operator==`, acting on `flag`. The
two cells `cells[i][j]` and `other.cells[i][j]` are read once (the source reads
them again in every test, with nothing written in between). -/
def Table.compareAt [BEq F] (t : Table) (h : Heap F) (other : Table) (i j : Nat)
    (flag : Bool) : Except Exn (LoopStep Bool) :=
  if !flag then .ok (.brk flag)
  else do
    let a ← t.cellAt h i j
    let b ← other.cellAt h i j
    if a.getType = b.getType then
      if a.getType = .TEXT then
        pure (.next ((← a.getText) == (← b.getText)))
      else if a.getType = .NUMBER then
        pure (.next ((← a.getNumber) == (← b.getNumber)))
      else pure (.next flag)
    else pure (.next false)

/-- The method `Table::operator==`; the state of the loops is `flag`. -/
def Table.operatorEq [BEq F] (t : Table) (h : Heap F) (other : Table) : Except Exn Bool :=
  if t.getSize ≠ other.getSize then .ok false
  else
    forLoopN t.row (fun flag i =>
      forBreak (List.range t.column) (fun flag j => t.compareAt h other i j flag) flag) true

/-- Two cells have the same kind and, when that kind is Text, equal texts and,
when it is Number, numbers that compare equal with `==`. -/
def cellsAgree [BEq F] (a b : Cell F) : Bool :=
  decide (a.type = b.type) &&
    (if a.type = .TEXT then a.text == b.text
     else if a.type = .NUMBER then a.number == b.number
     else true)

/-- The cells at row `i`, column `j` of two tables can both be read and agree
(`cellsAgree`). -/
def Table.agreeAt [BEq F] (t : Table) (h : Heap F) (other : Table) (i j : Nat) : Bool :=
  match t.cellAt h i j, other.cellAt h i j with
  | .ok a, .ok b => cellsAgree a b
  | _, _ => false

/-- The test of `testTable` on concatenation, `a += b; a == (a_before + b)`,
where `a_before` is a copy of `a` made before the call: the outcome of the
comparison. The right operand `other` is `none` when it is `a` itself. -/
def Table.concatTest [Zero F] [BEq F] (a : Table) (h : Heap F) (other : Option Table) :
    Except Exn Bool :=
  let a_before := a
  let r1 := a.operatorAddAssign h other
  match r1.1 with
  | .error e => .error e
  | .ok () =>
    let r2 := a_before.operatorAdd r1.2.2 (other.getD r1.2.1)
    match r2.1 with
    | .error e => .error e
    | .ok t => r1.2.1.operatorEq r2.2 t

end

/-- The table `tableLast` of `testTable` and the store it lives in: 3x2 with
the texts "A", "B" in the first row and the numbers 2.5, 3.5, 15, 10 below. -/
def testTableLast : Table × Heap ℚ :=
  let s := Table.init ([] : Heap ℚ) 3 2
  let s := (s.1.setCellText s.2 0 0 "A" 0).2
  let s := (s.1.setCellText s.2 0 1 "B" 0).2
  let s := (s.1.setCellNumber s.2 1 0 2.5).2
  let s := (s.1.setCellNumber s.2 1 1 3.5).2
  let s := (s.1.setCellNumber s.2 2 0 15).2
  (s.1.setCellNumber s.2 2 1 10).2

/-- The table `tableLast` after `setCell(0, 0, "Z")`, and the store after that
call (in which the cells of `testTableLast` are still what they were). -/
def testTableLastChanged : Table × Heap ℚ :=
  (testTableLast.1.setCellText testTableLast.2 0 0 "Z" 0).2

end Reload

/-- A `double` that is NaN or an exact number: what is needed of IEEE-754 to
evaluate `==` when NaN is involved. -/
inductive Dbl where
  | nan
  | num (q : ℚ)
  deriving DecidableEq

/-- The comparison `==` of two `double`s: false as soon as one side is NaN. -/
instance : BEq Dbl where
  beq x y :=
    match x, y with
    | .num a, .num b => a == b
    | _, _ => false

instance : Zero Dbl where
  zero := .num 0

/-- A `double` that is NaN, the negative zero, or an exact number, `num 0`
being the positive zero: what is needed of IEEE-754 to evaluate `0.0 + v`,
`1.0 * v` and `==` at a signed zero and at NaN. Rounding and the infinities are
not modelled. -/
inductive SignedDbl where
  | nan
  | negZero
  | num (q : ℚ)
  deriving DecidableEq

instance : Zero SignedDbl where
  zero := .num 0

instance : One SignedDbl where
  one := .num 1

/-- The sum of two `double`s: NaN is absorbing, `-0.0 + -0.0` is `-0.0`, and
every other sum that is zero is `+0.0` (rounding to nearest). -/
instance : Add SignedDbl where
  add x y :=
    match x, y with
    | .nan, _ => .nan
    | _, .nan => .nan
    | .negZero, .negZero => .negZero
    | .negZero, .num b => .num b
    | .num a, .negZero => .num a
    | .num a, .num b => .num (a + b)

/-- The product of two `double`s: NaN is absorbing, and a product that is zero
has the product of the signs of its factors. -/
instance : Mul SignedDbl where
  mul x y :=
    match x, y with
    | .nan, _ => .nan
    | _, .nan => .nan
    | .negZero, .negZero => .num 0
    | .negZero, .num b => if b < 0 then .num 0 else .negZero
    | .num a, .negZero => if a < 0 then .num 0 else .negZero
    | .num a, .num b => if (a = 0 ∧ b < 0) ∨ (a < 0 ∧ b = 0) then .negZero else .num (a * b)

/-- The comparison `==` of two `double`s: false as soon as one side is NaN, and
the two zeros compare equal. -/
instance : BEq SignedDbl where
  beq x y :=
    match x, y with
    | .nan, _ => false
    | _, .nan => false
    | .negZero, .negZero => true
    | .negZero, .num b => b == 0
    | .num a, .negZero => a == 0
    | .num a, .num b => a == b

namespace Reload

/-- A 1x1 table whose cell was set to NaN with `setCell(0, 0, NaN)`, and the
store it lives in. -/
def nanTable : Table × Heap Dbl :=
  let s := Table.init ([] : Heap Dbl) 1 1
  (s.1.setCellNumber s.2 0 0 Dbl.nan).2

end Reload

/-- The largest value of `size_t` (64 bits). -/
def SIZE_MAX : Nat := 2 ^ 64 - 1

/-- The values taken by `i` in `for (size_t i = a; i <= b; ++i)`, in order. -/
def natRange (a b : Nat) : List Nat :=
  (List.range (b + 1 - a)).map (fun k => a + k)

/-- The loop `for (size_t i = a; i <= b; ++i) body` acting on a state `σ`; an
exception thrown by the body leaves the loop. For `b = SIZE_MAX` the test
`i <= b` never fails and `++i` wraps around, so the C++ loop is left by an
exception only: the definition is exact for `b < SIZE_MAX`, and for
`b = SIZE_MAX` when a pass throws. -/
def forLoopTo {σ : Type} (a b : Nat) (body : σ → Nat → Except Exn σ) (init : σ) :
    Except Exn σ :=
  (natRange a b).foldlM body init

namespace Reload

/-- The enumeration `FormulaCell::Operation`. -/
inductive Operation where
  | SUM
  | PRODUCT
  | AVERAGE
  deriving DecidableEq, Repr

/-- The class `FormulaCell`: the base `Cell`, the range and the operation. -/
structure FormulaCell (F : Type) where
  toCell : Cell F
  range : List Ptr
  operationType : Operation

section
variable {F : Type}

/-- The copy constructor `Table(Table& copyTable)`: the matrix of shared
pointers is copied, the cells they point to are shared with the original. -/
def Table.copy (copyTable : Table) : Table :=
  { cells := copyTable.cells, row := copyTable.row, column := copyTable.column }

/-- The statement `getCell(rows, col)->setNumber(num)`: outcome and the store
after it (the table itself is not written). -/
def Table.setNumberThrough (t : Table) (h : Heap F) (rows col : Nat) (num : F) :
    Except Exn Unit × Heap F :=
  match t.getCell rows col with
  | .error e => (.error e, h)
  | .ok p =>
    match deref h p with
    | none => (.error .null_dereference, h)
    | some cell => (.ok (), h.set p (cell.setNumber num))

/-- The conversion of the `int` counter to `double` in `total / count`: the
`double` reached from `0.0` by that many increments (exact below 2^53). -/
def intToDouble [Zero F] [One F] [Add F] (count : Int) : F :=
  doubleOfCount count.toNat

/-- The constructor `FormulaCell() : Cell(), operationType(SUM)`. -/
def FormulaCell.new [Zero F] : FormulaCell F :=
  { toCell := Cell.new, range := [], operationType := .SUM }

/-- The constructor `FormulaCell(cells, op) : Cell(), range(cells),
operationType(op)`, whose body sets `type = NUMBER`. -/
def FormulaCell.ofRange [Zero F] (cells : List Ptr) (op : Operation) : FormulaCell F :=
  { toCell := { (Cell.new : Cell F) with type := .NUMBER }, range := cells,
    operationType := op }

/-- The body of the three loops of `FormulaCell::compute`,
`if (cell->getType() == Cell::NUMBER) { ... cell->getNumber() ... } else throw
std::runtime_error(what)`, where `g` is the update the braces apply to the
local variables. -/
def FormulaCell.onCell {σ : Type} (h : Heap F) (g : σ → F → σ) (what : String) (acc : σ)
    (cell : Ptr) : Except Exn σ := do
  if (← derefE h cell).getType = .NUMBER then
    let v ← (← derefE h cell).getNumber
    pure (g acc v)
  else
    throw (.runtime_error what)

/-- The method `FormulaCell::compute`; the `logic_error` after the `switch` is
reached by no enumerator. -/
def FormulaCell.compute [Zero F] [One F] [Add F] [Mul F] [Div F] (f : FormulaCell F)
    (h : Heap F) : Except Exn F :=
  match f.operationType with
  | .SUM =>
    f.range.foldlM (FormulaCell.onCell h (fun (total : F) v => total + v)
      "Все ячейки должны быть числовыми для операции суммы.") 0
  | .PRODUCT =>
    f.range.foldlM (FormulaCell.onCell h (fun (result : F) v => result * v)
      "Все ячейки должны быть числовыми для операции произведения.") 1
  | .AVERAGE => do
    let acc ← f.range.foldlM (FormulaCell.onCell h (fun (a : F × Int) v => (a.1 + v, a.2 + 1))
      "Все ячейки должны быть числовыми для операции среднего.") ((0 : F), (0 : Int))
    if acc.2 = 0 then
      throw (.runtime_error "Не найдено числовых ячеек для операции среднего.")
    else
      pure (acc.1 / intToDouble acc.2)

/-- The statement `range.push_back(getCell(i, j))`. -/
def Table.pushCell (t : Table) (i : Nat) (range : List Ptr) (j : Nat) :
    Except Exn (List Ptr) := do
  let p ← t.getCell i j
  pure (range ++ [p])

/-- The method `Table::calculateFormula`. -/
def Table.calculateFormula [Zero F] [One F] [Add F] [Mul F] [Div F] (t : Table) (h : Heap F)
    (rowFrom colFrom rowTo colTo : Nat) (op : Operation) : Except Exn F := do
  let range ← forLoopTo rowFrom rowTo (fun range i =>
    forLoopTo colFrom colTo (fun range j => t.pushCell i range j) range) []
  (FormulaCell.ofRange range op : FormulaCell F).compute h

/-- The cells of the rectangle from `(rowFrom, colFrom)` to `(rowTo, colTo)`,
both corners included, enumerated row by row and left to right in a row. -/
def Table.cellsInRange (t : Table) (h : Heap F) (rowFrom colFrom rowTo colTo : Nat) :
    List (Cell F) :=
  (natRange rowFrom rowTo).flatMap (fun i =>
    (natRange colFrom colTo).filterMap (fun j => (t.cellAt h i j).toOption))

end

/-- The three cells of `testFormulaCell`, holding 2.0, 2.0 and 3.0, in the
store `make_shared` put them in. -/
def testFormulaHeap : Heap ℚ :=
  let a := make_shared ([] : Heap ℚ) (Cell.ofNumber 2.0)
  let b := make_shared a.2 (Cell.ofNumber 2.0)
  (make_shared b.2 (Cell.ofNumber 3.0)).2

end Reload

namespace Reload

/-- The vector `range` that the loops of `Table::calculateFormula` build when
every `getCell` returns: the pointers of the rectangle, row by row and left to
right in a row. -/
def Table.ptrsInRange (t : Table) (rowFrom colFrom rowTo colTo : Nat) : List Ptr :=
  (natRange rowFrom rowTo).flatMap (fun i =>
    (natRange colFrom colTo).filterMap (fun j => (t.getCell i j).toOption))

end Reload

namespace Laba1

/-- The index pairs `(i, j)` taken by the nested loops
`for (int i = start.first; i <= end.first; ++i)
for (int j = start.second; j <= end.second; ++j)`, in the order of the passes. -/
def visitsInRange (start end_ : Int × Int) : List (Int × Int) :=
  (intRange start.1 end_.1).flatMap (fun i => (intRange start.2 end_.2).map (fun j => (i, j)))

/-- One pass of the inner loop of an aggregate, `Table.onNumber`, with a ghost
list to which the pass appends its index pair. -/
def Table.onNumberTraced {F σ : Type} (t : Table F) (i j : Int) (g : σ → F → σ)
    (acc : σ × List (Int × Int)) : Except Exn (σ × List (Int × Int)) := do
  let s ← t.onNumber i j g acc.1
  pure (s, acc.2 ++ [(i, j)])

/-- The two nested loops shared by `calculateSum`, `calculateProd`,
`calculateMean` and `calculateOperation`, with the ghost list of the passes. -/
def Table.loopsTraced {F σ : Type} (t : Table F) (start end_ : Int × Int) (g : σ → F → σ)
    (init : σ) : Except Exn (σ × List (Int × Int)) :=
  forLoop start.1 end_.1 (fun acc i =>
    forLoop start.2 end_.2 (fun acc j => t.onNumberTraced i j g acc) acc) (init, [])

end Laba1

/-! ### Table objects of laba_1.cpp in memory

The value model above cannot tell a copy from an alias. For the copy
constructor the `Cell` elements of the vectors are placed in a memory and a
`Table` object holds their addresses. -/

namespace Laba1

/-- The memory that holds the `Cell` elements of the vectors of the `Table`
objects of a program, by address. -/
abbrev Mem (F : Type) := List (Cell F)

/-- A `Table` object in memory: the members `rows` and `columns` and, for the
member `cells`, the addresses of the `Cell` elements of its row vectors. Two
objects that hold a common address share that cell. -/
structure TableObj where
  cells : List (List Nat)
  rows : Int
  columns : Int
  deriving DecidableEq, Repr

section
variable {F : Type}

/-- The cell stored at an address; an address past the end of the memory is a
dangling reference. -/
def readCell (m : Mem F) (a : Nat) : Except Exn (Cell F) :=
  match m.get? a with
  | some c => .ok c
  | none => .error .null_dereference

/-- The address `a2` is at least `lo` and holds, in the memory `m1`, the cell
that the address `a` holds in the memory `m0`. -/
def IsCopyAt (m0 : Mem F) (lo : Nat) (m1 : Mem F) (a2 a : Nat) : Prop :=
  lo ≤ a2 ∧ a2 < m1.length ∧ m1.get? a2 = m0.get? a

/-- Every address held by the object is the address of a cell of the memory. -/
def TableObj.Valid (t : TableObj) (m : Mem F) : Prop :=
  ∀ row ∈ t.cells, ∀ a ∈ row, a < m.length

instance (t : TableObj) (m : Mem F) : Decidable (t.Valid m) := by
  unfold TableObj.Valid
  exact inferInstance

/-- The constructor `Table(int rows, int columns)` for an object in memory:
every row vector gets a buffer of `columns` default-constructed cells of its
own. -/
def TableObj.init [Zero F] (rows columns : Int) (m : Mem F) : Except Exn (TableObj × Mem F) :=
  if columns < 0 ∨ rows < 0 then
    .error (.length_error "cannot create std::vector larger than max_size()")
  else
    .ok ({ cells := (List.range rows.toNat).map (fun (i : Nat) =>
             (List.range columns.toNat).map (fun (j : Nat) => m.length + i * columns.toNat + j)),
           rows := rows, columns := columns },
         m ++ List.replicate (rows.toNat * columns.toNat) Cell.new)

/-- One element of the copy of a row vector: the (implicit) copy constructor of
`Cell` builds, at a new address, a cell with the members of the cell at `a`. -/
def copyCell (acc : List Nat × Mem F) (a : Nat) : Except Exn (List Nat × Mem F) := do
  let c ← readCell acc.2 a
  pure (acc.1 ++ [acc.2.length], acc.2 ++ [c])

/-- One row of the copy of `cells`: the copy constructor of `std::vector<Cell>`
allocates a buffer and copy-constructs the elements of `row` into it. -/
def copyRow (acc : List (List Nat) × Mem F) (row : List Nat) :
    Except Exn (List (List Nat) × Mem F) := do
  let x ← row.foldlM copyCell (([] : List Nat), acc.2)
  pure (acc.1 ++ [x.1], x.2)

/-- The copy constructor `Table(const Table& other) : rows(other.rows),
columns(other.columns), cells(other.cells)`: the new object and the memory
after the call. -/
def TableObj.copy (other : TableObj) (m : Mem F) : Except Exn (TableObj × Mem F) := do
  let x ← other.cells.foldlM copyRow (([] : List (List Nat)), m)
  pure ({ cells := x.1, rows := other.rows, columns := other.columns }, x.2)

/-- An alias of a `Table` object (a reference, or a shallow copy): another
object holding the same addresses. No method of laba_1.cpp builds one; it is
what the copy constructor is compared with. -/
def TableObj.alias (other : TableObj) : TableObj :=
  { cells := other.cells, rows := other.rows, columns := other.columns }

/-- The method `Table::validateCoordinates` of an object in memory. -/
def TableObj.validateCoordinates (t : TableObj) (row column : Int) : Except Exn Unit :=
  if row < 0 ∨ row ≥ t.rows ∨ column < 0 ∨ column ≥ t.columns then
    .error (.out_of_range "Invalid cell coordinates")
  else .ok ()

/-- The method `Table::validateRange` of an object in memory. -/
def TableObj.validateRange (t : TableObj) (start end_ : Int × Int) : Except Exn Unit :=
  if start.1 < 0 ∨ start.2 < 0 ∨ end_.1 ≥ t.rows ∨ end_.2 ≥ t.columns ∨
      start.1 > end_.1 ∨ start.2 > end_.2 then
    .error (.invalid_argument "Invalid cell range")
  else .ok ()

/-- The expression `cells[i][j]` read inside the methods of an object in
memory. -/
def TableObj.at (t : TableObj) (m : Mem F) (i j : Int) : Except Exn (Cell F) := do
  let r ← subscript t.cells i
  let a ← subscript r j
  readCell m a

/-- The method `Table::getCell` of an object in memory, as a read. -/
def TableObj.getCell (t : TableObj) (m : Mem F) (row column : Int) : Except Exn (Cell F) := do
  t.validateCoordinates row column
  t.at m row column

/-- The method `Table::setNumber` of an object in memory: outcome and the
memory after the call. -/
def TableObj.setNumber (t : TableObj) (m : Mem F) (row column : Int) (number : F) :
    Except Exn Unit × Mem F :=
  match t.validateCoordinates row column with
  | .error e => (.error e, m)
  | .ok () =>
    match subscript t.cells row with
    | .error e => (.error e, m)
    | .ok r =>
      match subscript r column with
      | .error e => (.error e, m)
      | .ok a =>
        match readCell m a with
        | .error e => (.error e, m)
        | .ok c => (.ok (), m.set a (c.setNumber number))

/-- The method `Table::setText` of an object in memory: outcome and the memory
after the call. -/
def TableObj.setText (t : TableObj) (m : Mem F) (row column : Int) (text : String) :
    Except Exn Unit × Mem F :=
  match t.validateCoordinates row column with
  | .error e => (.error e, m)
  | .ok () =>
    match subscript t.cells row with
    | .error e => (.error e, m)
    | .ok r =>
      match subscript r column with
      | .error e => (.error e, m)
      | .ok a =>
        match readCell m a with
        | .error e => (.error e, m)
        | .ok c => ((c.setText text).1, m.set a (c.setText text).2)

/-- The memory after the call `k` is made on the object `t` (an exception
thrown by the call is caught by the caller). -/
def Call.runOn (k : Call F) (t : TableObj) (m : Mem F) : Mem F :=
  match k with
  | .setNumber row column number => (t.setNumber m row column number).2
  | .setText row column text => (t.setText m row column text).2

/-- The memory after the calls `calls` are made, in order, on the object `t`. -/
def callsOn (calls : List (Call F)) (t : TableObj) (m : Mem F) : Mem F :=
  calls.foldl (fun m k => k.runOn t m) m

/-- The body of the loops of the aggregates, for an object in memory. -/
def TableObj.onNumber {σ : Type} (t : TableObj) (m : Mem F) (i j : Int) (g : σ → F → σ)
    (acc : σ) : Except Exn σ := do
  if (← t.at m i j).getType = .NUMBER then
    let v ← (← t.at m i j).getNumber
    pure (g acc v)
  else
    pure acc

/-- The method `Table::calculateSum` of an object in memory. -/
def TableObj.calculateSum [Zero F] [Add F] (t : TableObj) (m : Mem F) (start end_ : Int × Int) :
    Except Exn F := do
  t.validateRange start end_
  let acc ← forLoop start.1 end_.1 (fun acc i =>
    forLoop start.2 end_.2 (fun acc j =>
      t.onNumber m i j (fun (a : F × Int) v => (a.1 + v, a.2 + 1)) acc) acc) ((0 : F), (0 : Int))
  if acc.2 = 0 then
    throw (.runtime_error "No numbers in range to calculate sum")
  else
    pure acc.1

/-- The method `Table::calculateProd` of an object in memory. -/
def TableObj.calculateProd [Zero F] [One F] [Add F] [Mul F] [BEq F] (t : TableObj) (m : Mem F)
    (start end_ : Int × Int) : Except Exn F := do
  t.validateRange start end_
  let acc ← forLoop start.1 end_.1 (fun acc i =>
    forLoop start.2 end_.2 (fun acc j =>
      t.onNumber m i j (fun (a : F × F) v => (a.1 * v, a.2 + 1)) acc) acc) ((1 : F), (0 : F))
  if acc.2 == 0 then
    throw (.runtime_error "No numbers in range to calculate prod")
  else
    pure acc.1

/-- The method `Table::calculateMean` of an object in memory. -/
def TableObj.calculateMean [Zero F] [One F] [Add F] [Div F] [BEq F] (t : TableObj) (m : Mem F)
    (start end_ : Int × Int) : Except Exn F := do
  t.validateRange start end_
  let acc ← forLoop start.1 end_.1 (fun acc i =>
    forLoop start.2 end_.2 (fun acc j =>
      t.onNumber m i j (fun (a : F × F) v => (a.1 + v, a.2 + 1)) acc) acc) ((0 : F), (0 : F))
  if acc.2 == 0 then
    throw (.runtime_error "No numbers in range to calculate mean")
  else
    pure (acc.1 / acc.2)

end

/-- The object `table` of `runTests` when it is copied, and the memory it
lives in: `Table table(2, 2); table.setNumber(0, 0, 10.5);
table.setText(0, 1, "Hello");`. -/
def testObjOriginal : TableObj × Mem ℚ :=
  match TableObj.init 2 2 ([] : Mem ℚ) with
  | .error _ => ({ cells := [], rows := 0, columns := 0 }, [])
  | .ok s =>
    let m := (s.1.setNumber s.2 0 0 10.5).2
    (s.1, (s.1.setText m 0 1 "Hello").2)

end Laba1

/-! ## Loops and vector access -/

theorem mem_intRange (a b i : Int) : i ∈ intRange a b ↔ a ≤ i ∧ i ≤ b := by
  unfold intRange
  simp only [List.mem_map, List.mem_range]
  constructor
  · rintro ⟨k, hk, rfl⟩
    omega
  · rintro ⟨h1, h2⟩
    exact ⟨(i - a).toNat, by omega, by omega⟩

theorem length_intRange (a b : Int) : (intRange a b).length = (b + 1 - a).toNat := by
  simp [intRange]

theorem subscript_of_lt {α : Type} (v : List α) (i : Int) (h0 : 0 ≤ i)
    (h1 : i < (v.length : Int)) :
    ∃ x, subscript v i = .ok x ∧ v.get? i.toNat = some x ∧ x ∈ v := by
  have hlt : i.toNat < v.length := by omega
  refine ⟨v.get ⟨i.toNat, hlt⟩, ?_, List.get?_eq_get hlt, List.get_mem _ _ _⟩
  unfold subscript
  rw [if_neg (by omega), List.get?_eq_get hlt]

theorem subscript_eq_ok {α : Type} (v : List α) (i : Int) (x : α) :
    subscript v i = .ok x ↔ 0 ≤ i ∧ v.get? i.toNat = some x := by
  unfold subscript
  by_cases h : i < 0
  · simp [h]
  · rw [if_neg h]
    cases hg : v.get? i.toNat with
    | none => simp
    | some y =>
      simp
      intro _
      omega

theorem set_of_get? {α : Type} (v : List α) (i : Nat) (x : α) (h : v.get? i = some x) :
    v.set i x = v := by
  induction v generalizing i with
  | nil => rfl
  | cons y v ih =>
    cases i with
    | zero =>
      simp only [List.get?_cons_zero, Option.some.injEq] at h
      rw [List.set_cons_zero, h]
    | succ k =>
      simp only [List.get?_cons_succ] at h
      rw [List.set_cons_succ, ih k h]

theorem subscript_set_self {α : Type} (v : List α) (i : Int) (x y : α)
    (h : subscript v i = .ok y) : subscript (v.set i.toNat x) i = .ok x := by
  rw [subscript_eq_ok] at h ⊢
  refine ⟨h.1, ?_⟩
  have hlt : i.toNat < v.length := by
    have h2 := h.2
    rw [List.get?_eq_getElem?, List.getElem?_eq_some] at h2
    exact h2.1
  rw [List.get?_eq_getElem?, List.getElem?_set_self hlt]

theorem subscriptN_eq_ok {α : Type} (v : List α) (i : Nat) (x : α) :
    subscriptN v i = .ok x ↔ v.get? i = some x := by
  unfold subscriptN
  cases hg : v.get? i with
  | none => simp
  | some y => simp

theorem subscriptN_of_lt {α : Type} (v : List α) (i : Nat) (h : i < v.length) :
    ∃ x, subscriptN v i = .ok x ∧ x ∈ v := by
  refine ⟨v.get ⟨i, h⟩, ?_, List.get_mem _ _ _⟩
  rw [subscriptN_eq_ok, List.get?_eq_get h]

theorem subscriptN_set_self {α : Type} (v : List α) (i : Nat) (x : α) (h : i < v.length) :
    subscriptN (v.set i x) i = .ok x := by
  rw [subscriptN_eq_ok, List.get?_eq_getElem?, List.getElem?_set_self h]

theorem subscript_eq_error {α : Type} (v : List α) (i : Int) (x : Exn)
    (h : subscript v i = .error x) : x = .vector_subscript := by
  unfold subscript at h
  split at h
  · injection h with h; exact h.symm
  · split at h
    · exact absurd h (by simp)
    · injection h with h; exact h.symm

theorem subscriptN_eq_error {α : Type} (v : List α) (i : Nat) (x : Exn)
    (h : subscriptN v i = .error x) : x = .vector_subscript := by
  unfold subscriptN at h
  split at h
  · exact absurd h (by simp)
  · injection h with h; exact h.symm

theorem subscript_mem {α : Type} (v : List α) (i : Int) (x : α)
    (h : subscript v i = .ok x) : x ∈ v :=
  List.get?_mem ((subscript_eq_ok v i x).1 h).2

theorem length_filterMap_of_isSome {α β : Type} (f : α → Option β) (l : List α)
    (h : ∀ x ∈ l, (f x).isSome = true) : (l.filterMap f).length = l.length := by
  induction l with
  | nil => rfl
  | cons a l ih =>
    have ha := h a (List.mem_cons_self _ _)
    obtain ⟨b, hb⟩ := Option.isSome_iff_exists.1 ha
    rw [List.filterMap_cons_some hb, List.length_cons, List.length_cons,
      ih (fun x hx => h x (List.mem_cons_of_mem _ hx))]

theorem length_flatMap_of_length {α β : Type} (f : α → List β) (l : List α) (n : Nat)
    (h : ∀ x ∈ l, (f x).length = n) : (l.flatMap f).length = l.length * n := by
  induction l with
  | nil => simp
  | cons a l ih =>
    rw [List.flatMap_cons, List.length_append, h a (List.mem_cons_self _ _),
      ih (fun x hx => h x (List.mem_cons_of_mem _ hx)), List.length_cons]
    ring

theorem foldl_pair {α β γ : Type} (f : α → γ → α) (h : β → β) (l : List γ) (x : α) (y : β) :
    l.foldl (fun (a : α × β) v => (f a.1 v, h a.2)) (x, y) = (l.foldl f x, h^[l.length] y) := by
  induction l generalizing x y with
  | nil => rfl
  | cons v l ih => simp [List.foldl_cons, ih]

namespace Laba1

section
variable {F : Type}

theorem Table.validateRange_eq_ok (t : Table F) (s e : Int × Int) :
    t.validateRange s e = .ok () ↔
      (0 ≤ s.1 ∧ s.1 ≤ e.1 ∧ e.1 < t.rows) ∧ (0 ≤ s.2 ∧ s.2 ≤ e.2 ∧ e.2 < t.columns) := by
  unfold Table.validateRange
  split
  · simp only [reduceCtorEq, false_iff]
    omega
  · simp only [true_iff]
    omega

theorem Table.at_of_lt (t : Table F) (hwf : t.WF) (i j : Int) (hi0 : 0 ≤ i) (hi : i < t.rows)
    (hj0 : 0 ≤ j) (hj : j < t.columns) : ∃ c, t.at i j = .ok c := by
  obtain ⟨r, hr, -, hmem⟩ := subscript_of_lt t.cells i hi0 (by rw [hwf.1]; exact hi)
  obtain ⟨c, hc, -, -⟩ := subscript_of_lt r j hj0 (by rw [hwf.2 r hmem]; exact hj)
  exact ⟨c, by simp [Table.at, hr, hc, bind, Except.bind]⟩

theorem Table.onNumber_of_at {σ : Type} (t : Table F) (i j : Int) (g : σ → F → σ) (acc : σ)
    (c : Cell F) (h : t.at i j = .ok c) :
    t.onNumber i j g acc = .ok (if c.type = .NUMBER then g acc c.numberValue else acc) := by
  unfold Table.onNumber
  by_cases hc : c.type = .NUMBER
  · simp [h, hc, bind, Except.bind, Cell.getType, Cell.getNumber, pure, Except.pure]
  · simp [h, hc, bind, Except.bind, Cell.getType, pure, Except.pure]

theorem Table.inner_loop {σ : Type} (t : Table F) (i : Int) (g : σ → F → σ) (l : List Int)
    (h : ∀ j ∈ l, ∃ c, t.at i j = .ok c) (init : σ) :
    l.foldlM (fun acc j => t.onNumber i j g acc) init
      = .ok ((((l.filterMap (fun j => (t.at i j).toOption)).filter
          (fun c => c.type = .NUMBER)).map (fun c => c.numberValue)).foldl g init) := by
  induction l generalizing init with
  | nil => rfl
  | cons j l ih =>
    obtain ⟨c, hc⟩ := h j (List.mem_cons_self _ _)
    have ih2 := fun x => ih (fun k hk => h k (List.mem_cons_of_mem _ hk)) x
    rw [List.foldlM_cons, Table.onNumber_of_at t i j g init c hc]
    show List.foldlM _ _ l = _
    rw [ih2]
    by_cases hn : c.type = .NUMBER
    · simp [List.filterMap_cons, Except.toOption, hc, hn]
    · simp [List.filterMap_cons, Except.toOption, hc, hn]

theorem Table.outer_loop {σ : Type} (t : Table F) (g : σ → F → σ) (rs cs : List Int)
    (h : ∀ i ∈ rs, ∀ j ∈ cs, ∃ c, t.at i j = .ok c) (init : σ) :
    rs.foldlM (fun acc i => cs.foldlM (fun acc j => t.onNumber i j g acc) acc) init
      = .ok ((((rs.flatMap (fun i => cs.filterMap (fun j => (t.at i j).toOption))).filter
          (fun c => c.type = .NUMBER)).map (fun c => c.numberValue)).foldl g init) := by
  induction rs generalizing init with
  | nil => rfl
  | cons i rs ih =>
    have ih2 := fun x => ih (fun k hk => h k (List.mem_cons_of_mem _ hk)) x
    rw [List.foldlM_cons, Table.inner_loop t i g cs (h i (List.mem_cons_self _ _))]
    show List.foldlM _ _ rs = _
    rw [ih2, List.flatMap_cons, List.filter_append, List.map_append, List.foldl_append]

/-- On a well-formed table and a range accepted by `validateRange`, the two
nested loops of an aggregate never leave the grid and fold the update `g`
over the Number values of the range in row-major order. -/
theorem Table.loops_eq {σ : Type} (t : Table F) (hwf : t.WF) (s e : Int × Int)
    (hv : t.validateRange s e = .ok ()) (g : σ → F → σ) (init : σ) :
    forLoop s.1 e.1 (fun acc i => forLoop s.2 e.2 (fun acc j => t.onNumber i j g acc) acc) init
      = .ok ((t.numbersInRange s e).foldl g init) := by
  rw [Table.validateRange_eq_ok] at hv
  unfold forLoop Table.numbersInRange Table.cellsInRange
  apply Table.outer_loop
  intro i hi j hj
  rw [mem_intRange] at hi hj
  exact Table.at_of_lt t hwf i j (by omega) (by omega) (by omega) (by omega)

/-- On a well-formed table and a valid range the enumeration `cellsInRange`
has one cell for every coordinate of the rectangle. -/
theorem Table.length_cellsInRange (t : Table F) (hwf : t.WF) (s e : Int × Int)
    (hv : t.validateRange s e = .ok ()) :
    (t.cellsInRange s e).length = (e.1 + 1 - s.1).toNat * (e.2 + 1 - s.2).toNat := by
  rw [Table.validateRange_eq_ok] at hv
  unfold Table.cellsInRange
  rw [length_flatMap_of_length _ _ (e.2 + 1 - s.2).toNat, length_intRange]
  intro i hi
  rw [length_filterMap_of_isSome, length_intRange]
  intro j hj
  rw [mem_intRange] at hi hj
  obtain ⟨c, hc⟩ := Table.at_of_lt t hwf i j (by omega) (by omega) (by omega) (by omega)
  rw [hc]
  rfl

/-- The default constructor establishes the class invariant. -/
theorem Table.new_WF [Zero F] : (Table.new : Table F).WF := by
  simp [Table.WF, Table.new]

/-- The constructor `Table(rows, columns)` establishes the class invariant. -/
theorem Table.init_WF [Zero F] (rows columns : Int) (t : Table F)
    (h : Table.init rows columns = .ok t) : t.WF := by
  unfold Table.init at h
  split at h
  · exact absurd h (by simp)
  · rename_i hneg
    injection h with h
    subst h
    have hc : 0 ≤ columns := by omega
    have hr : 0 ≤ rows := by omega
    constructor
    · show ((List.replicate rows.toNat _).length : Int) = rows
      rw [List.length_replicate]
      exact Int.toNat_of_nonneg hr
    · intro r hmem
      show (r.length : Int) = columns
      rw [List.eq_of_mem_replicate hmem, List.length_replicate]
      exact Int.toNat_of_nonneg hc

/-- The copy constructor preserves the class invariant. -/
theorem Table.copy_WF (t : Table F) (hwf : t.WF) : t.copy.WF := hwf

/-- The write `cells[r][c] = x` preserves the class invariant. -/
theorem Table.set_WF (t : Table F) (hwf : t.WF) (i j : Nat) (row : List (Cell F)) (x : Cell F)
    (hrow : row ∈ t.cells) :
    Table.WF { t with cells := t.cells.set i (row.set j x) } := by
  constructor
  · show (((t.cells.set i (row.set j x)).length : Nat) : Int) = t.rows
    rw [List.length_set]
    exact hwf.1
  · intro r hr
    rcases List.mem_or_eq_of_mem_set hr with h | h
    · exact hwf.2 r h
    · rw [h, List.length_set]
      exact hwf.2 row hrow

/-- The method `setNumber` preserves the class invariant. -/
theorem Table.setNumber_WF (t : Table F) (hwf : t.WF) (r c : Int) (v : F) :
    (t.setNumber r c v).2.WF := by
  unfold Table.setNumber
  split
  · exact hwf
  · split
    · exact hwf
    · split
      · exact hwf
      · rename_i row hrow _ _ _
        exact Table.set_WF t hwf _ _ row _ (subscript_mem _ _ _ hrow)

/-- The method `setText` preserves the class invariant. -/
theorem Table.setText_WF (t : Table F) (hwf : t.WF) (r c : Int) (s : String) :
    (t.setText r c s).2.WF := by
  unfold Table.setText
  split
  · exact hwf
  · split
    · exact hwf
    · split
      · exact hwf
      · rename_i row hrow _ _ _
        exact Table.set_WF t hwf _ _ row _ (subscript_mem _ _ _ hrow)

theorem Table.exists_number_iff (t : Table F) (s e : Int × Int) :
    (∃ c ∈ t.cellsInRange s e, c.type = .NUMBER) ↔ (t.numbersInRange s e).length ≠ 0 := by
  unfold Table.numbersInRange
  rw [List.length_map, Ne, List.length_eq_zero, List.filter_eq_nil_iff]
  simp

theorem iterate_succ_int (n : Nat) : (fun c : Int => c + 1)^[n] 0 = (n : Int) := by
  induction n with
  | zero => rfl
  | succ k ih =>
    rw [Function.iterate_succ_apply', ih]
    push_cast
    rfl

theorem doubleOfCount_beq_zero [Zero F] [One F] [Add F] [BEq F] [CountLaw F] (n : Nat) :
    ((doubleOfCount n : F) == 0) = decide (n = 0) := by
  cases n with
  | zero => simpa [doubleOfCount] using (CountLaw.zero_beq_zero : ((0 : F) == 0) = true)
  | succ k => simpa using (CountLaw.count_ne_zero k : ((doubleOfCount (k + 1) : F) == 0) = false)

/-- The outcome of `calculateSum` on a well-formed table and a valid range. -/
theorem Table.calculateSum_eq [Zero F] [Add F] (t : Table F) (hwf : t.WF) (s e : Int × Int)
    (hv : t.validateRange s e = .ok ()) :
    t.calculateSum s e =
      if (t.numbersInRange s e).length = 0 then
        .error (.runtime_error "No numbers in range to calculate sum")
      else .ok ((t.numbersInRange s e).foldl (fun x v => x + v) 0) := by
  unfold Table.calculateSum
  rw [hv, Table.loops_eq t hwf s e hv, foldl_pair (fun (x : F) v => x + v) (fun c : Int => c + 1),
    iterate_succ_int]
  by_cases h : (t.numbersInRange s e).length = 0
  · simp [h, bind, Except.bind, throw, throwThe, MonadExceptOf.throw]
  · simp [h, bind, Except.bind, pure, Except.pure]

/-- The outcome of `calculateProd` on a well-formed table and a valid range. -/
theorem Table.calculateProd_eq [Zero F] [One F] [Add F] [Mul F] [BEq F] [CountLaw F]
    (t : Table F) (hwf : t.WF) (s e : Int × Int) (hv : t.validateRange s e = .ok ()) :
    t.calculateProd s e =
      if (t.numbersInRange s e).length = 0 then
        .error (.runtime_error "No numbers in range to calculate prod")
      else .ok ((t.numbersInRange s e).foldl (fun x v => x * v) 1) := by
  unfold Table.calculateProd
  rw [hv, Table.loops_eq t hwf s e hv, foldl_pair (fun (x : F) v => x * v) (fun c : F => c + 1)]
  have hc := doubleOfCount_beq_zero (F := F) (t.numbersInRange s e).length
  unfold doubleOfCount at hc
  simp only [bind, Except.bind, hc]
  by_cases h : (t.numbersInRange s e).length = 0
  · simp [h, bind, Except.bind, throw, throwThe, MonadExceptOf.throw]
  · simp [h, bind, Except.bind, pure, Except.pure]

/-- The outcome of `calculateMean` on a well-formed table and a valid range. -/
theorem Table.calculateMean_eq [Zero F] [One F] [Add F] [Div F] [BEq F] [CountLaw F]
    (t : Table F) (hwf : t.WF) (s e : Int × Int) (hv : t.validateRange s e = .ok ()) :
    t.calculateMean s e =
      if (t.numbersInRange s e).length = 0 then
        .error (.runtime_error "No numbers in range to calculate mean")
      else .ok ((t.numbersInRange s e).foldl (fun x v => x + v) 0
                  / doubleOfCount (t.numbersInRange s e).length) := by
  unfold Table.calculateMean
  rw [hv, Table.loops_eq t hwf s e hv, foldl_pair (fun (x : F) v => x + v) (fun c : F => c + 1)]
  have hc := doubleOfCount_beq_zero (F := F) (t.numbersInRange s e).length
  unfold doubleOfCount at hc ⊢
  simp only [bind, Except.bind, hc]
  by_cases h : (t.numbersInRange s e).length = 0
  · simp [h, bind, Except.bind, throw, throwThe, MonadExceptOf.throw]
  · simp [h, bind, Except.bind, pure, Except.pure]

theorem intRange_self (a : Int) : intRange a a = [a] := by
  have h : (a + 1 - a).toNat = 1 := by omega
  simp [intRange, h, List.range_succ]

theorem intRange_succ (a : Int) : intRange a (a + 1) = [a, a + 1] := by
  have h : (a + 1 + 1 - a).toNat = 2 := by omega
  simp [intRange, h, List.range_succ]

theorem doubleOfCount_rat (n : Nat) : (doubleOfCount n : ℚ) = (n : ℚ) := by
  induction n with
  | zero => simp [doubleOfCount]
  | succ k ih =>
    unfold doubleOfCount at ih ⊢
    rw [Function.iterate_succ_apply', ih]
    push_cast
    ring

/-! ## Aggregates of laba_1.cpp -/

/-- C1: on every table of laba_1.cpp and every range accepted by
`validateRange` that holds at least one Number cell, `calculateSum` returns the
left-to-right fold of `+` from `0.0`, and `calculateProd` the left-to-right
fold of `*` from `1.0`, over the values of exactly the Number cells of the
rectangle taken in row-major order; Empty and Text cells contribute nothing. -/
theorem calculateSum_calculateProd_fold [Zero F] [One F] [Add F] [Mul F] [BEq F] [CountLaw F]
    (t : Table F) (hwf : t.WF) (s e : Int × Int) (hv : t.validateRange s e = .ok ())
    (hn : ∃ c ∈ t.cellsInRange s e, c.type = .NUMBER) :
    t.calculateSum s e
        = .ok ((((t.cellsInRange s e).filter (fun c => c.type = .NUMBER)).map
            (fun c => c.numberValue)).foldl (fun x v => x + v) 0)
      ∧ t.calculateProd s e
        = .ok ((((t.cellsInRange s e).filter (fun c => c.type = .NUMBER)).map
            (fun c => c.numberValue)).foldl (fun x v => x * v) 1) := by
  rw [Table.exists_number_iff] at hn
  rw [Table.calculateSum_eq t hwf s e hv, Table.calculateProd_eq t hwf s e hv, if_neg hn,
    if_neg hn]
  exact ⟨rfl, rfl⟩

theorem calculateSum_calculateProd_fold_witness :
    testTableMean.WF ∧ testTableMean.calculateSum (0, 0) (1, 1) = .ok (0 + 20.5 + 30.5)
      ∧ testTableMean.calculateProd (0, 0) (1, 1) = .ok (1 * 20.5 * 30.5) :=
  ⟨by decide,
    calculateSum_calculateProd_fold testTableMean (by decide) (0, 0) (1, 1) (by decide)
      ⟨⟨.NUMBER, "", 20.5⟩, by decide!, rfl⟩⟩

/-- The Number values of a range of one row and two columns whose two cells
are Number cells. -/
theorem Table.numbersInRange_pair (t : Table F) (r c : Int) (ca cb : Cell F) (a b : F)
    (ha : t.at r c = .ok ca) (hna : ca.getNumber = .ok a)
    (hb : t.at r (c + 1) = .ok cb) (hnb : cb.getNumber = .ok b) :
    t.numbersInRange (r, c) (r, c + 1) = [a, b] := by
  have hta : ca.type = .NUMBER ∧ ca.numberValue = a := by
    unfold Cell.getNumber at hna
    split at hna
    · exact ⟨by assumption, by injection hna⟩
    · exact absurd hna (by simp)
  have htb : cb.type = .NUMBER ∧ cb.numberValue = b := by
    unfold Cell.getNumber at hnb
    split at hnb
    · exact ⟨by assumption, by injection hnb⟩
    · exact absurd hnb (by simp)
  simp [Table.numbersInRange, Table.cellsInRange, intRange_self, intRange_succ, ha, hb,
    Except.toOption, hta, htb]

/-- C2: on every table of laba_1.cpp and every valid range holding `n ≥ 1`
Number cells, `calculateMean` returns `calculateSum` of the same range divided
by `n` as a `double` counter, `n` counting the Number cells only; with exact
numbers the divisor is `n` itself, a range of one row and two columns holding
the numbers `a` and `b` gives `(a + b) / 2`, and 20.5 and 30.5 give 25.5. -/
theorem calculateMean_eq_sum_div_count :
    (∀ (F : Type) [Zero F] [One F] [Add F] [Div F] [BEq F] [CountLaw F] (t : Table F)
        (s e : Int × Int), t.WF → t.validateRange s e = .ok () →
        (∃ c ∈ t.cellsInRange s e, c.type = .NUMBER) →
        ∃ sum, t.calculateSum s e = .ok sum ∧
          t.calculateMean s e = .ok (sum /
            doubleOfCount ((t.cellsInRange s e).filter (fun c => c.type = .NUMBER)).length))
    ∧ (∀ (t : Table ℚ) (s e : Int × Int), t.WF → t.validateRange s e = .ok () →
        (∃ c ∈ t.cellsInRange s e, c.type = .NUMBER) →
        ∃ sum, t.calculateSum s e = .ok sum ∧
          t.calculateMean s e = .ok (sum /
            (((t.cellsInRange s e).filter (fun c => c.type = .NUMBER)).length : ℚ)))
    ∧ (∀ (t : Table ℚ) (r c : Int) (ca cb : Cell ℚ) (a b : ℚ), t.WF →
        t.validateRange (r, c) (r, c + 1) = .ok () →
        t.at r c = .ok ca → ca.getNumber = .ok a →
        t.at r (c + 1) = .ok cb → cb.getNumber = .ok b →
        t.calculateMean (r, c) (r, c + 1) = .ok ((a + b) / 2))
    ∧ testTableMean.calculateMean (0, 0) (0, 1) = .ok 25.5 := by
  have gen : ∀ (F : Type) [Zero F] [One F] [Add F] [Div F] [BEq F] [CountLaw F] (t : Table F)
        (s e : Int × Int), t.WF → t.validateRange s e = .ok () →
        (∃ c ∈ t.cellsInRange s e, c.type = .NUMBER) →
        ∃ sum, t.calculateSum s e = .ok sum ∧
          t.calculateMean s e = .ok (sum /
            doubleOfCount ((t.cellsInRange s e).filter (fun c => c.type = .NUMBER)).length) := by
    intro F _ _ _ _ _ _ t s e hwf hv hn
    rw [Table.exists_number_iff] at hn
    refine ⟨(t.numbersInRange s e).foldl (fun x v => x + v) 0, ?_, ?_⟩
    · rw [Table.calculateSum_eq t hwf s e hv, if_neg hn]
    · rw [Table.calculateMean_eq t hwf s e hv, if_neg hn]
      simp [Table.numbersInRange]
  have pair : ∀ (t : Table ℚ) (r c : Int) (ca cb : Cell ℚ) (a b : ℚ), t.WF →
        t.validateRange (r, c) (r, c + 1) = .ok () →
        t.at r c = .ok ca → ca.getNumber = .ok a →
        t.at r (c + 1) = .ok cb → cb.getNumber = .ok b →
        t.calculateMean (r, c) (r, c + 1) = .ok ((a + b) / 2) := by
    intro t r c ca cb a b hwf hv ha hna hb hnb
    have hl := Table.numbersInRange_pair t r c ca cb a b ha hna hb hnb
    rw [Table.calculateMean_eq t hwf _ _ hv, hl]
    simp [doubleOfCount]
    norm_num
  refine ⟨gen, ?_, pair, ?_⟩
  · intro t s e hwf hv hn
    obtain ⟨sum, h1, h2⟩ := gen ℚ t s e hwf hv hn
    exact ⟨sum, h1, by rw [h2, doubleOfCount_rat]⟩
  · have h : testTableMean.calculateMean (0, 0) (0, 1) = .ok ((20.5 + 30.5) / 2) :=
      pair testTableMean 0 0 ⟨.NUMBER, "", 20.5⟩ ⟨.NUMBER, "Hello", 30.5⟩ 20.5 30.5
        (by decide) (by decide) (by decide!) (by decide!) (by decide!) (by decide!)
    rw [h]
    norm_num

theorem calculateMean_eq_sum_div_count_witness :
    testTableMean.WF ∧ testTableMean.validateRange (0, 0) (1, 1) = .ok () ∧
      ∃ sum, testTableMean.calculateSum (0, 0) (1, 1) = .ok sum ∧
          testTableMean.calculateMean (0, 0) (1, 1) = .ok (sum / ((2 : Nat) : ℚ)) :=
  ⟨by decide, by decide,
    calculateMean_eq_sum_div_count.2.1 testTableMean (0, 0) (1, 1) (by decide) (by decide)
      ⟨⟨.NUMBER, "", 20.5⟩, by decide!, rfl⟩⟩

/-- C3: on every table of laba_1.cpp and every valid range, if no cell of the
range is a Number then `calculateSum`, `calculateMean` and `calculateProd` each
throw their empty-aggregate `runtime_error`, and if at least one cell of the
range is a Number then each of the three returns a value. -/
theorem aggregates_fail_iff_no_number [Zero F] [One F] [Add F] [Mul F] [Div F] [BEq F]
    [CountLaw F] (t : Table F) (hwf : t.WF) (s e : Int × Int)
    (hv : t.validateRange s e = .ok ()) :
    ((∀ c ∈ t.cellsInRange s e, c.type = .EMPTY ∨ c.type = .TEXT) →
        t.calculateSum s e = .error (.runtime_error "No numbers in range to calculate sum") ∧
        t.calculateMean s e = .error (.runtime_error "No numbers in range to calculate mean") ∧
        t.calculateProd s e = .error (.runtime_error "No numbers in range to calculate prod"))
    ∧ ((∃ c ∈ t.cellsInRange s e, c.type = .NUMBER) →
        (∃ x, t.calculateSum s e = .ok x) ∧ (∃ x, t.calculateMean s e = .ok x) ∧
        (∃ x, t.calculateProd s e = .ok x)) := by
  rw [Table.calculateSum_eq t hwf s e hv, Table.calculateProd_eq t hwf s e hv,
    Table.calculateMean_eq t hwf s e hv]
  constructor
  · intro hall
    have h0 : (t.numbersInRange s e).length = 0 := by
      by_contra hne
      obtain ⟨c, hc, hnum⟩ := (Table.exists_number_iff t s e).2 hne
      rcases hall c hc with h | h <;> rw [hnum] at h <;> exact absurd h (by decide)
    rw [if_pos h0, if_pos h0, if_pos h0]
    exact ⟨rfl, rfl, rfl⟩
  · intro hex
    have hn := (Table.exists_number_iff t s e).1 hex
    rw [if_neg hn, if_neg hn, if_neg hn]
    exact ⟨⟨_, rfl⟩, ⟨_, rfl⟩, ⟨_, rfl⟩⟩

theorem aggregates_fail_iff_no_number_witness :
    testTableMean.WF ∧ testTableMean.validateRange (1, 0) (1, 1) = .ok () ∧
      (∀ c ∈ testTableMean.cellsInRange (1, 0) (1, 1), c.type = .EMPTY ∨ c.type = .TEXT) ∧
      testTableMean.calculateSum (1, 0) (1, 1)
        = .error (.runtime_error "No numbers in range to calculate sum") ∧
      testTableMean.calculateMean (1, 0) (1, 1)
        = .error (.runtime_error "No numbers in range to calculate mean") ∧
      testTableMean.calculateProd (1, 0) (1, 1)
        = .error (.runtime_error "No numbers in range to calculate prod") :=
  ⟨by decide, by decide, by decide!,
    (aggregates_fail_iff_no_number testTableMean (by decide) (1, 0) (1, 1) (by decide)).1
      (by decide!)⟩

/-- One pass of a loop whose bounds coincide runs the body once. -/
theorem forLoop_self {σ : Type} (a : Int) (body : σ → Int → Except Exn σ) (init : σ) :
    forLoop a a body init = body init a := by
  unfold forLoop
  rw [intRange_self, List.foldlM_cons]
  cases body init a <;> rfl

/-- C4 (as the code has it): on every table of laba_1.cpp, if `getCell(r,c)`
succeeds (so the coordinate is valid) and the cell is a Number holding `v`,
then over the single-cell range from (r,c) to (r,c) `calculateSum` returns
`0.0 + v` and `calculateProd` returns `1.0 * v`; so `calculateSum` returns `v`
whenever `0.0 + v` is `v`, and `calculateProd` returns `v` whenever `1.0 * v`
is `v`. -/
theorem single_cell_sum_prod [Zero F] [One F] [Add F] [Mul F] [BEq F] [CountLaw F]
    (t : Table F) (r c : Int) (cell : Cell F) (v : F)
    (hcell : t.getCell r c = .ok cell) (hnum : cell.getNumber = .ok v) :
    (t.calculateSum (r, c) (r, c) = .ok (0 + v) ∧ t.calculateProd (r, c) (r, c) = .ok (1 * v))
    ∧ ((0 : F) + v = v → t.calculateSum (r, c) (r, c) = .ok v)
    ∧ ((1 : F) * v = v → t.calculateProd (r, c) (r, c) = .ok v) := by
  have hcoord : t.validateCoordinates r c = .ok () ∧ t.at r c = .ok cell := by
    unfold Table.getCell at hcell
    cases hvc : t.validateCoordinates r c with
    | error x => rw [hvc] at hcell; exact absurd hcell (by simp [bind, Except.bind])
    | ok u => rw [hvc] at hcell; exact ⟨rfl, hcell⟩
  have hv : t.validateRange (r, c) (r, c) = .ok () := by
    have h := hcoord.1
    unfold Table.validateCoordinates at h
    split at h
    · exact absurd h (by simp)
    · rw [Table.validateRange_eq_ok]
      dsimp only
      omega
  have hty : cell.type = .NUMBER ∧ cell.numberValue = v := by
    unfold Cell.getNumber at hnum
    split at hnum
    · exact ⟨by assumption, by injection hnum⟩
    · exact absurd hnum (by simp)
  have hone := doubleOfCount_beq_zero (F := F) 1
  simp only [doubleOfCount, Function.iterate_one] at hone
  have hsum : t.calculateSum (r, c) (r, c) = .ok (0 + v) := by
    unfold Table.calculateSum
    rw [hv]
    dsimp only
    rw [forLoop_self, forLoop_self, Table.onNumber_of_at t r c _ _ cell hcoord.2]
    simp [hty, bind, Except.bind, pure, Except.pure]
  have hprod : t.calculateProd (r, c) (r, c) = .ok (1 * v) := by
    unfold Table.calculateProd
    rw [hv]
    dsimp only
    rw [forLoop_self, forLoop_self, Table.onNumber_of_at t r c _ _ cell hcoord.2]
    simp [hty, hone, bind, Except.bind, pure, Except.pure]
  refine ⟨⟨hsum, hprod⟩, ?_, ?_⟩
  · intro hadd
    rw [hsum, hadd]
  · intro hmul
    rw [hprod, hmul]

theorem single_cell_sum_prod_witness :
    testTableCopy.getCell 0 0 = .ok ⟨.NUMBER, "", 20.5⟩ ∧
      testTableCopy.calculateSum (0, 0) (0, 0) = .ok 20.5 ∧
      testTableCopy.calculateProd (0, 0) (0, 0) = .ok 20.5 :=
  ⟨by decide!,
    (single_cell_sum_prod testTableCopy 0 0 ⟨.NUMBER, "", 20.5⟩ 20.5 (by decide!)
      (by decide!)).2.1 (zero_add _),
    (single_cell_sum_prod testTableCopy 0 0 ⟨.NUMBER, "", 20.5⟩ 20.5 (by decide!)
      (by decide!)).2.2 (one_mul _)⟩

/-- The single-cell sum is not always the value held: on the 1x1 table whose
cell was set to the negative zero `calculateSum` returns the positive zero, and
on the one whose cell was set to NaN both `calculateSum` and `calculateProd`
return NaN, which does not compare equal to the value held. -/
theorem single_cell_counterexample :
    ((Table.new : Table SignedDbl).setNumber 0 0 .negZero).2.getCell 0 0
        = .ok ⟨.NUMBER, "", .negZero⟩
    ∧ ((Table.new : Table SignedDbl).setNumber 0 0 .negZero).2.calculateSum (0, 0) (0, 0)
        = .ok (.num 0)
    ∧ ((Table.new : Table SignedDbl).setNumber 0 0 .negZero).2.calculateSum (0, 0) (0, 0)
        ≠ .ok .negZero
    ∧ ((Table.new : Table SignedDbl).setNumber 0 0 .nan).2.getCell 0 0
        = .ok ⟨.NUMBER, "", .nan⟩
    ∧ ((Table.new : Table SignedDbl).setNumber 0 0 .nan).2.calculateSum (0, 0) (0, 0)
        = .ok .nan
    ∧ ((Table.new : Table SignedDbl).setNumber 0 0 .nan).2.calculateProd (0, 0) (0, 0)
        = .ok .nan
    ∧ ((SignedDbl.nan == SignedDbl.nan) = false) := by
  refine ⟨by decide!, by decide!, by decide!, by decide!, by decide!, by decide!, rfl⟩

/-- C5: in laba_1.cpp `validateRange(start, end)` succeeds exactly when
`0 <= start.first <= end.first < rows` and `0 <= start.second <= end.second <
columns`, and otherwise throws `invalid_argument("Invalid cell range")`; on
every range it rejects, `calculateSum`, `calculateProd`, `calculateMean` and
`calculateOperation` (for every operation name) throw that same exception,
whatever the cells hold. -/
theorem validateRange_spec [Zero F] [One F] [Add F] [Mul F] [Div F] [BEq F]
    (t : Table F) (s e : Int × Int) :
    (t.validateRange s e = .ok () ↔
        (0 ≤ s.1 ∧ s.1 ≤ e.1 ∧ e.1 < t.rows) ∧ (0 ≤ s.2 ∧ s.2 ≤ e.2 ∧ e.2 < t.columns))
    ∧ (t.validateRange s e ≠ .ok () →
        t.validateRange s e = .error (.invalid_argument "Invalid cell range") ∧
        t.calculateSum s e = .error (.invalid_argument "Invalid cell range") ∧
        t.calculateProd s e = .error (.invalid_argument "Invalid cell range") ∧
        t.calculateMean s e = .error (.invalid_argument "Invalid cell range") ∧
        ∀ operation : String,
          t.calculateOperation operation s e = .error (.invalid_argument "Invalid cell range")) := by
  refine ⟨Table.validateRange_eq_ok t s e, ?_⟩
  intro hne
  have herr : t.validateRange s e = .error (.invalid_argument "Invalid cell range") := by
    unfold Table.validateRange at hne ⊢
    split
    · rfl
    · rename_i h
      rw [if_neg h] at hne
      exact absurd rfl hne
  refine ⟨herr, ?_, ?_, ?_, ?_⟩
  · unfold Table.calculateSum
    rw [herr]
    rfl
  · unfold Table.calculateProd
    rw [herr]
    rfl
  · unfold Table.calculateMean
    rw [herr]
    rfl
  · intro operation
    unfold Table.calculateOperation
    rw [herr]
    rfl

theorem validateRange_spec_witness :
    testTableMean.validateRange (0, 1) (0, 0) ≠ .ok () ∧
      testTableMean.calculateSum (0, 1) (0, 0) = .error (.invalid_argument "Invalid cell range") ∧
      testTableMean.calculateOperation "sum" (0, 0) (2, 0)
        = .error (.invalid_argument "Invalid cell range") :=
  ⟨by decide,
    ((validateRange_spec testTableMean (0, 1) (0, 0)).2 (by decide)).2.1,
    ((validateRange_spec testTableMean (0, 0) (2, 0)).2 (by decide)).2.2.2.2 "sum"⟩

/-! ## Cells and coordinates of laba_1.cpp -/

theorem Table.validateCoordinates_eq_ok (t : Table F) (r c : Int) :
    t.validateCoordinates r c = .ok () ↔ (0 ≤ r ∧ r < t.rows) ∧ (0 ≤ c ∧ c < t.columns) := by
  unfold Table.validateCoordinates
  split
  · simp only [reduceCtorEq, false_iff]
    omega
  · simp only [true_iff]
    omega

theorem Table.validateCoordinates_eq_error (t : Table F) (r c : Int) (x : Exn) :
    t.validateCoordinates r c = .error x ↔
      (r < 0 ∨ r ≥ t.rows ∨ c < 0 ∨ c ≥ t.columns) ∧
        x = .out_of_range "Invalid cell coordinates" := by
  unfold Table.validateCoordinates
  split
  · rename_i h
    simp only [Except.error.injEq, h, true_and]
    exact eq_comm
  · rename_i h
    simp [h]

/-- The two vector accesses `cells[row][column]` of a setter on a well-formed
table at valid coordinates. -/
theorem Table.subscripts_of_valid (t : Table F) (hwf : t.WF) (r c : Int)
    (hr : 0 ≤ r ∧ r < t.rows) (hc : 0 ≤ c ∧ c < t.columns) :
    ∃ row cell, subscript t.cells r = .ok row ∧ subscript row c = .ok cell := by
  obtain ⟨row, hrow, -, hmem⟩ := subscript_of_lt t.cells r hr.1 (by rw [hwf.1]; exact hr.2)
  obtain ⟨cell, hcell, -, -⟩ := subscript_of_lt row c hc.1 (by rw [hwf.2 row hmem]; exact hc.2)
  exact ⟨row, cell, hrow, hcell⟩

/-- Reading `cells[r][c]` after the write `cells[r][c] = x`. -/
theorem Table.at_set (t : Table F) (r c : Int) (row : List (Cell F)) (cell x : Cell F)
    (hrow : subscript t.cells r = .ok row) (hcell : subscript row c = .ok cell) :
    Table.at { t with cells := t.cells.set r.toNat (row.set c.toNat x) } r c = .ok x := by
  unfold Table.at
  dsimp only
  rw [subscript_set_self t.cells r _ row hrow]
  exact subscript_set_self row c x cell hcell

/-- The write `cells[r][c] = cells[r][c]` changes nothing. -/
theorem Table.set_same (t : Table F) (r c : Int) (row : List (Cell F)) (cell : Cell F)
    (hrow : subscript t.cells r = .ok row) (hcell : subscript row c = .ok cell) :
    ({ t with cells := t.cells.set r.toNat (row.set c.toNat cell) } : Table F) = t := by
  rw [subscript_eq_ok] at hrow hcell
  rw [set_of_get? row _ cell hcell.2, set_of_get? t.cells _ row hrow.2]

/-- The outcome of `setNumber` on a well-formed table at valid coordinates:
the cell there is replaced by its state after `Cell::setNumber`. -/
theorem Table.setNumber_valid (t : Table F) (hwf : t.WF) (r c : Int) (v : F)
    (hr : 0 ≤ r ∧ r < t.rows) (hc : 0 ≤ c ∧ c < t.columns) :
    ∃ row cell, subscript t.cells r = .ok row ∧ subscript row c = .ok cell ∧
      t.setNumber r c v = (.ok (),
        { t with cells := t.cells.set r.toNat (row.set c.toNat (cell.setNumber v)) }) := by
  obtain ⟨row, cell, hrow, hcell⟩ := Table.subscripts_of_valid t hwf r c hr hc
  have hvc := (Table.validateCoordinates_eq_ok t r c).2 ⟨hr, hc⟩
  refine ⟨row, cell, hrow, hcell, ?_⟩
  unfold Table.setNumber
  rw [hvc]
  dsimp only
  rw [hrow]
  dsimp only
  rw [hcell]

/-- Reading through `getCell` after the write `cells[r][c] = x` at valid
coordinates. -/
theorem Table.getCell_set (t : Table F) (r c : Int) (row : List (Cell F)) (cell x : Cell F)
    (hvc : t.validateCoordinates r c = .ok ())
    (hrow : subscript t.cells r = .ok row) (hcell : subscript row c = .ok cell) :
    Table.getCell { t with cells := t.cells.set r.toNat (row.set c.toNat x) } r c = .ok x := by
  unfold Table.getCell
  have hvc2 :
      Table.validateCoordinates
        { t with cells := t.cells.set r.toNat (row.set c.toNat x) } r c = .ok () := hvc
  rw [hvc2]
  exact Table.at_set t r c row cell x hrow hcell

/-- The outcome of `setText` on a well-formed table at valid coordinates: the
outcome of `Cell::setText` on the cell there, which is written back. -/
theorem Table.setText_valid (t : Table F) (hwf : t.WF) (r c : Int) (s : String)
    (hr : 0 ≤ r ∧ r < t.rows) (hc : 0 ≤ c ∧ c < t.columns) :
    ∃ row cell, subscript t.cells r = .ok row ∧ subscript row c = .ok cell ∧
      t.setText r c s = ((cell.setText s).1,
        { t with cells := t.cells.set r.toNat (row.set c.toNat (cell.setText s).2) }) := by
  obtain ⟨row, cell, hrow, hcell⟩ := Table.subscripts_of_valid t hwf r c hr hc
  have hvc := (Table.validateCoordinates_eq_ok t r c).2 ⟨hr, hc⟩
  refine ⟨row, cell, hrow, hcell, ?_⟩
  unfold Table.setText
  rw [hvc]
  dsimp only
  rw [hrow]
  dsimp only
  rw [hcell]

/-- C7: on every table of laba_1.cpp and every valid coordinate (r,c),
`setText(r,c,"")` throws `invalid_argument("Text cannot be empty")` and the
table after the call is the table before it, cell (r,c) and all others
included; for every non-empty `s`, `setText(r,c,s)` returns and the cell read
at (r,c) afterwards has kind Text and `getText` equal to `s`. -/
theorem setText_empty_fails_nonempty_succeeds (t : Table F) (hwf : t.WF) (r c : Int)
    (hr : 0 ≤ r ∧ r < t.rows) (hc : 0 ≤ c ∧ c < t.columns) :
    t.setText r c "" = (.error (.invalid_argument "Text cannot be empty"), t)
    ∧ ∀ s : String, s ≠ "" →
        (t.setText r c s).1 = .ok () ∧
        ∃ cell, (t.setText r c s).2.getCell r c = .ok cell ∧ cell.getType = .TEXT ∧
          cell.getText = .ok s := by
  have hvc := (Table.validateCoordinates_eq_ok t r c).2 ⟨hr, hc⟩
  constructor
  · obtain ⟨row, cell, hrow, hcell, hset⟩ := Table.setText_valid t hwf r c "" hr hc
    rw [hset]
    have hc0 : cell.setText "" = (.error (.invalid_argument "Text cannot be empty"), cell) := by
      unfold Cell.setText
      rw [if_pos rfl]
    rw [hc0]
    dsimp only
    rw [Table.set_same t r c row cell hrow hcell]
  · intro s hs
    obtain ⟨row, cell, hrow, hcell, hset⟩ := Table.setText_valid t hwf r c s hr hc
    have hc1 : cell.setText s = (.ok (), { cell with textValue := s, type := .TEXT }) := by
      unfold Cell.setText
      rw [if_neg hs]
    rw [hset, hc1]
    refine ⟨rfl, { cell with textValue := s, type := .TEXT }, ?_, rfl, ?_⟩
    · exact Table.getCell_set t r c row cell _ hvc hrow hcell
    · simp [Cell.getText]

theorem setText_empty_fails_nonempty_succeeds_witness :
    testTableCopy.setText 0 0 "" = (.error (.invalid_argument "Text cannot be empty"), testTableCopy)
    ∧ (testTableCopy.setText 0 0 "Hello").1 = .ok () :=
  ⟨(setText_empty_fails_nonempty_succeeds testTableCopy (by decide) 0 0 (by decide)
      (by decide)).1,
    ((setText_empty_fails_nonempty_succeeds testTableCopy (by decide) 0 0 (by decide)
      (by decide)).2 "Hello" (by decide)).1⟩

end

end Laba1

namespace Reload

section
variable {F : Type}

/-- The outcome of `setCell(rows, col, value)` on a table of the right shape
at valid coordinates: the slot holds the address of a new Number cell. -/
theorem Table.setCellNumber_valid (t : Table) (h : Heap F) (hwf : t.WF) (r c : Nat) (v : F)
    (hr : r < t.row) (hc : c < t.column) :
    ∃ row, subscriptN t.cells r = .ok row ∧ c < row.length ∧
      t.setCellNumber h r c v = (.ok (),
        { t with cells := t.cells.set r (row.set c h.length) }, h ++ [Cell.ofNumber v]) := by
  obtain ⟨row, hrow, hmem⟩ := subscriptN_of_lt t.cells r (by rw [hwf.1]; exact hr)
  have hlen : c < row.length := by rw [hwf.2 row hmem]; exact hc
  obtain ⟨p, hp, -⟩ := subscriptN_of_lt row c hlen
  refine ⟨row, hrow, hlen, ?_⟩
  unfold Table.setCellNumber
  rw [if_neg (by omega)]
  dsimp only [make_shared]
  rw [hrow]
  dsimp only
  rw [hp]

/-- A freshly allocated cell is found at the address `make_shared` returned. -/
theorem deref_append_length (h : Heap F) (c : Cell F) : deref (h ++ [c]) h.length = some c := by
  unfold deref
  rw [List.get?_eq_getElem?, List.getElem?_append_right (Nat.le_refl _)]
  simp

end

end Reload

/-! ## Cells, setters and coordinates in both programs -/

section
variable {F : Type}

/-- C6: for every table, every valid coordinate (r,c) and every number `v`,
setting a number at (r,c) succeeds and the cell read at (r,c) right afterwards
has kind Number and `getNumber` returns `v`, whatever the cell held before:
`setNumber` then `getCell` in laba_1.cpp, `setCell(size_t, size_t, double)` then
`getCell` (and the cell its pointer refers to) in laba_1_reload.cpp. -/
theorem number_read_after_set :
    (∀ (t : Laba1.Table F) (r c : Int) (v : F), t.WF → (0 ≤ r ∧ r < t.rows) →
        (0 ≤ c ∧ c < t.columns) →
        (t.setNumber r c v).1 = .ok () ∧
        ∃ cell, (t.setNumber r c v).2.getCell r c = .ok cell ∧ cell.getType = .NUMBER ∧
          cell.getNumber = .ok v)
    ∧ (∀ (t : Reload.Table) (h : Reload.Heap F) (r c : Nat) (v : F), t.WF → r < t.row →
        c < t.column →
        (t.setCellNumber h r c v).1 = .ok () ∧
        ∃ p cell, (t.setCellNumber h r c v).2.1.getCell r c = .ok p ∧
          Reload.deref (t.setCellNumber h r c v).2.2 p = some cell ∧
          cell.getType = .NUMBER ∧ cell.getNumber = .ok v) := by
  constructor
  · intro t r c v hwf hr hc
    obtain ⟨row, cell, hrow, hcell, hset⟩ := Laba1.Table.setNumber_valid t hwf r c v hr hc
    have hvc := (Laba1.Table.validateCoordinates_eq_ok t r c).2 ⟨hr, hc⟩
    rw [hset]
    refine ⟨rfl, cell.setNumber v, ?_, rfl, ?_⟩
    · exact Laba1.Table.getCell_set t r c row cell _ hvc hrow hcell
    · simp [Laba1.Cell.getNumber, Laba1.Cell.setNumber]
  · intro t h r c v hwf hr hc
    obtain ⟨row, hrow, hlen, hset⟩ := Reload.Table.setCellNumber_valid t h hwf r c v hr hc
    have hrlt : r < t.cells.length := by rw [hwf.1]; exact hr
    rw [hset]
    refine ⟨rfl, h.length, Reload.Cell.ofNumber v, ?_, Reload.deref_append_length h _, rfl, ?_⟩
    · unfold Reload.Table.getCell
      dsimp only
      rw [if_neg (by omega), subscriptN_set_self t.cells r _ hrlt]
      exact subscriptN_set_self row c _ hlen
    · simp [Reload.Cell.getNumber, Reload.Cell.ofNumber]

theorem number_read_after_set_witness :
    (Laba1.testTableCopy.setNumber 0 1 30.5).1 = .ok ()
    ∧ (∃ cell, (Laba1.testTableCopy.setNumber 0 1 30.5).2.getCell 0 1 = .ok cell ∧
        cell.getType = .NUMBER ∧ cell.getNumber = .ok 30.5)
    ∧ ((Reload.Table.init ([] : Reload.Heap ℚ) 2 2).1.setCellNumber
        (Reload.Table.init ([] : Reload.Heap ℚ) 2 2).2 0 0 1.5).1 = .ok () :=
  ⟨(number_read_after_set.1 Laba1.testTableCopy 0 1 30.5 (by decide) (by decide) (by decide)).1,
    (number_read_after_set.1 Laba1.testTableCopy 0 1 30.5 (by decide) (by decide) (by decide)).2,
    (number_read_after_set.2 (Reload.Table.init ([] : Reload.Heap ℚ) 2 2).1
      (Reload.Table.init ([] : Reload.Heap ℚ) 2 2).2 0 0 1.5 (by decide) (by decide)
      (by decide)).1⟩

/-- C8: for every cell of either program, `getNumber` returns (the stored
number) exactly when the kind is Number and `getText` returns (the stored text)
exactly when the kind is Text; in every other case the accessor throws its
type-mismatch `runtime_error`. So `getNumber` throws after `setNumber` followed
by `setText`, and both accessors throw on an Empty cell. -/
theorem accessors_match_kind [Zero F] :
    (∀ c : Laba1.Cell F,
        ((∃ v, c.getNumber = .ok v) ↔ c.getType = .NUMBER) ∧
        (c.getType = .NUMBER → c.getNumber = .ok c.numberValue) ∧
        (c.getType ≠ .NUMBER →
          c.getNumber = .error (.runtime_error "Cell does not contain a number")) ∧
        ((∃ s, c.getText = .ok s) ↔ c.getType = .TEXT) ∧
        (c.getType = .TEXT → c.getText = .ok c.textValue) ∧
        (c.getType ≠ .TEXT → c.getText = .error (.runtime_error "Cell does not contain text")))
    ∧ (∀ c : Reload.Cell F,
        ((∃ v, c.getNumber = .ok v) ↔ c.getType = .NUMBER) ∧
        (c.getType = .NUMBER → c.getNumber = .ok c.number) ∧
        (c.getType ≠ .NUMBER →
          c.getNumber = .error (.runtime_error "Попытка взятия числа не из числовой ячейки!")) ∧
        ((∃ s, c.getText = .ok s) ↔ c.getType = .TEXT) ∧
        (c.getType = .TEXT → c.getText = .ok c.text) ∧
        (c.getType ≠ .TEXT →
          c.getText = .error (.runtime_error "Попытка взятия текста не из текстовой ячейки")))
    ∧ (∀ (c : Laba1.Cell F) (v : F),
        ((c.setNumber v).setText "x").2.getNumber
          = .error (.runtime_error "Cell does not contain a number"))
    ∧ (∀ (c : Reload.Cell F) (v : F),
        ((c.setNumber v).setText "x").getNumber
          = .error (.runtime_error "Попытка взятия числа не из числовой ячейки!"))
    ∧ ((Laba1.Cell.new : Laba1.Cell F).getNumber
          = .error (.runtime_error "Cell does not contain a number") ∧
       (Laba1.Cell.new : Laba1.Cell F).getText
          = .error (.runtime_error "Cell does not contain text"))
    ∧ ((Reload.Cell.new : Reload.Cell F).getNumber
          = .error (.runtime_error "Попытка взятия числа не из числовой ячейки!") ∧
       (Reload.Cell.new : Reload.Cell F).getText
          = .error (.runtime_error "Попытка взятия текста не из текстовой ячейки")) := by
  refine ⟨?_, ?_, ?_, ?_, ⟨rfl, rfl⟩, ⟨rfl, rfl⟩⟩
  · intro c
    rcases c with ⟨ty, tx, nv⟩
    cases ty <;> simp [Laba1.Cell.getNumber, Laba1.Cell.getText, Laba1.Cell.getType]
  · intro c
    rcases c with ⟨ty, tx, nv⟩
    cases ty <;> simp [Reload.Cell.getNumber, Reload.Cell.getText, Reload.Cell.getType]
  · intro c v
    simp [Laba1.Cell.setNumber, Laba1.Cell.setText, Laba1.Cell.getNumber]
  · intro c v
    simp [Reload.Cell.setNumber, Reload.Cell.setText, Reload.Cell.getNumber]

theorem accessors_match_kind_witness :
    (⟨.NUMBER, "stale", 5⟩ : Laba1.Cell ℚ).getNumber = .ok 5
    ∧ (⟨.NUMBER, "stale", 5⟩ : Laba1.Cell ℚ).getText
        = .error (.runtime_error "Cell does not contain text")
    ∧ (⟨.TEXT, "x", 5⟩ : Reload.Cell ℚ).getNumber
        = .error (.runtime_error "Попытка взятия числа не из числовой ячейки!") :=
  ⟨(accessors_match_kind.1 (⟨.NUMBER, "stale", 5⟩ : Laba1.Cell ℚ)).2.1 rfl,
    (accessors_match_kind.1 (⟨.NUMBER, "stale", 5⟩ : Laba1.Cell ℚ)).2.2.2.2.2 (by decide),
    (accessors_match_kind.2.1 (⟨.TEXT, "x", 5⟩ : Reload.Cell ℚ)).2.2.1 (by decide)⟩

/-- C9: for every cell in any state, `clear` (laba_1.cpp) and `clearCell`
(laba_1_reload.cpp) leave the kind Empty and both payload fields reset (empty
text, number 0.0), so both accessors throw afterwards; clearing twice gives the
same cell as clearing once. -/
theorem clear_resets_and_is_idempotent [Zero F] :
    (∀ c : Laba1.Cell F,
        c.clear.getType = .EMPTY ∧ c.clear.textValue = "" ∧ c.clear.numberValue = 0 ∧
        c.clear.getNumber = .error (.runtime_error "Cell does not contain a number") ∧
        c.clear.getText = .error (.runtime_error "Cell does not contain text") ∧
        c.clear.clear = c.clear)
    ∧ (∀ c : Reload.Cell F,
        c.clearCell.getType = .EMPTY ∧ c.clearCell.text = "" ∧ c.clearCell.number = 0 ∧
        c.clearCell.getNumber
          = .error (.runtime_error "Попытка взятия числа не из числовой ячейки!") ∧
        c.clearCell.getText
          = .error (.runtime_error "Попытка взятия текста не из текстовой ячейки") ∧
        c.clearCell.clearCell = c.clearCell) :=
  ⟨fun _ => ⟨rfl, rfl, rfl, rfl, rfl, rfl⟩, fun _ => ⟨rfl, rfl, rfl, rfl, rfl, rfl⟩⟩

end

section
variable {F : Type}

theorem Laba1.Table.at_eq_error (t : Laba1.Table F) (i j : Int) (x : Exn)
    (h : t.at i j = .error x) : x = .vector_subscript := by
  unfold Laba1.Table.at at h
  cases hr : subscript t.cells i with
  | error y =>
    rw [hr] at h
    have hxy : y = x := by injection h
    rw [← hxy]
    exact subscript_eq_error _ _ _ hr
  | ok r =>
    rw [hr] at h
    exact subscript_eq_error r j x h

/-- C10: in laba_1.cpp `getCell(r,c)`, `setNumber(r,c,v)` and `setText(r,c,s)`
throw `out_of_range("Invalid cell coordinates")` exactly when `r < 0` or
`r >= rows` or `c < 0` or `c >= columns`; the check comes first, so this holds
for `setText` with the empty string too, and in that case the table after the
call is the table before it; with valid coordinates on a well-formed table
`getCell` and `setNumber` return. In laba_1_reload.cpp `getCell(r,c)` throws
its `out_of_range` exactly when `r >= row` or `c >= column`. -/
theorem out_of_range_iff_bad_coordinates :
    (∀ (t : Laba1.Table F) (r c : Int) (v : F) (s : String),
        (t.getCell r c = .error (.out_of_range "Invalid cell coordinates") ↔
          (r < 0 ∨ r ≥ t.rows ∨ c < 0 ∨ c ≥ t.columns)) ∧
        ((t.setNumber r c v).1 = .error (.out_of_range "Invalid cell coordinates") ↔
          (r < 0 ∨ r ≥ t.rows ∨ c < 0 ∨ c ≥ t.columns)) ∧
        ((t.setText r c s).1 = .error (.out_of_range "Invalid cell coordinates") ↔
          (r < 0 ∨ r ≥ t.rows ∨ c < 0 ∨ c ≥ t.columns)) ∧
        ((r < 0 ∨ r ≥ t.rows ∨ c < 0 ∨ c ≥ t.columns) →
          (t.setNumber r c v).2 = t ∧ (t.setText r c s).2 = t) ∧
        (t.WF → ¬ (r < 0 ∨ r ≥ t.rows ∨ c < 0 ∨ c ≥ t.columns) →
          (∃ cell, t.getCell r c = .ok cell) ∧ (t.setNumber r c v).1 = .ok ()))
    ∧ (∀ (t : Reload.Table) (r c : Nat),
        t.getCell r c = .error (.out_of_range "Индекс ячейки вне диапазона.") ↔
          (r ≥ t.row ∨ c ≥ t.column)) := by
  constructor
  · intro t r c v s
    by_cases hbad : r < 0 ∨ r ≥ t.rows ∨ c < 0 ∨ c ≥ t.columns
    · have hvc : t.validateCoordinates r c = .error (.out_of_range "Invalid cell coordinates") :=
        (Laba1.Table.validateCoordinates_eq_error t r c _).2 ⟨hbad, rfl⟩
      have h1 : t.getCell r c = .error (.out_of_range "Invalid cell coordinates") := by
        unfold Laba1.Table.getCell
        rw [hvc]
        rfl
      have h2 : t.setNumber r c v = (.error (.out_of_range "Invalid cell coordinates"), t) := by
        unfold Laba1.Table.setNumber
        rw [hvc]
      have h3 : t.setText r c s = (.error (.out_of_range "Invalid cell coordinates"), t) := by
        unfold Laba1.Table.setText
        rw [hvc]
      rw [h1, h2, h3]
      simp [hbad]
    · have hvc : t.validateCoordinates r c = .ok () := by
        rw [Laba1.Table.validateCoordinates_eq_ok]
        omega
      have hne : Exn.vector_subscript ≠ .out_of_range "Invalid cell coordinates" := by
        intro h
        cases h
      refine ⟨?_, ?_, ?_, fun h => absurd h hbad, ?_⟩
      · simp only [hbad, iff_false]
        intro h
        unfold Laba1.Table.getCell at h
        rw [hvc] at h
        exact hne (Laba1.Table.at_eq_error t r c _ h).symm
      · simp only [hbad, iff_false]
        intro h
        unfold Laba1.Table.setNumber at h
        rw [hvc] at h
        dsimp only at h
        split at h
        · rename_i e hr
          exact hne ((subscript_eq_error _ _ _ hr).symm.trans (by injection h))
        · split at h
          · rename_i e hr
            exact hne ((subscript_eq_error _ _ _ hr).symm.trans (by injection h))
          · exact absurd h (by simp)
      · simp only [hbad, iff_false]
        intro h
        unfold Laba1.Table.setText at h
        rw [hvc] at h
        dsimp only at h
        split at h
        · rename_i e hr
          exact hne ((subscript_eq_error _ _ _ hr).symm.trans (by injection h))
        · split at h
          · rename_i e hr
            exact hne ((subscript_eq_error _ _ _ hr).symm.trans (by injection h))
          · dsimp only at h
            unfold Laba1.Cell.setText at h
            split at h
            · exact absurd h (by simp)
            · exact absurd h (by simp)
      · intro hwf _
        have hr : 0 ≤ r ∧ r < t.rows := by omega
        have hc : 0 ≤ c ∧ c < t.columns := by omega
        obtain ⟨row, cell, hrow, hcell, hset⟩ := Laba1.Table.setNumber_valid t hwf r c v hr hc
        refine ⟨?_, by rw [hset]⟩
        obtain ⟨x, hx⟩ := Laba1.Table.at_of_lt t hwf r c hr.1 hr.2 hc.1 hc.2
        exact ⟨x, by unfold Laba1.Table.getCell; rw [hvc]; exact hx⟩
  · intro t r c
    unfold Reload.Table.getCell
    by_cases hbad : r ≥ t.row ∨ c ≥ t.column
    · simp [hbad]
    · rw [if_neg hbad]
      simp only [hbad, iff_false]
      intro h
      have hne : Exn.vector_subscript ≠ .out_of_range "Индекс ячейки вне диапазона." := by
        intro h
        cases h
      cases hr : subscriptN t.cells r with
      | error y =>
        rw [hr] at h
        have hxy : y = .out_of_range "Индекс ячейки вне диапазона." := by injection h
        exact hne ((subscriptN_eq_error _ _ _ hr).symm.trans hxy)
      | ok row =>
        rw [hr] at h
        exact hne (subscriptN_eq_error row c _ h).symm

theorem out_of_range_iff_bad_coordinates_witness :
    (Laba1.testTableCopy.setText 0 2 "")
        = (.error (.out_of_range "Invalid cell coordinates"), Laba1.testTableCopy)
    ∧ (∃ cell, Laba1.testTableCopy.getCell 1 1 = .ok cell)
    ∧ (Reload.Table.init ([] : Reload.Heap ℚ) 2 2).1.getCell 2 0
        = .error (.out_of_range "Индекс ячейки вне диапазона.") :=
  ⟨Prod.ext
      ((out_of_range_iff_bad_coordinates.1 Laba1.testTableCopy 0 2 0 "").2.2.1.2 (by decide))
      ((out_of_range_iff_bad_coordinates.1 Laba1.testTableCopy 0 2 0 "").2.2.2.1 (by decide)).2,
    ((out_of_range_iff_bad_coordinates.1 Laba1.testTableCopy 1 1 0 "").2.2.2.2 (by decide)
      (by decide)).1,
    ((out_of_range_iff_bad_coordinates (F := ℚ)).2 (Reload.Table.init ([] : Reload.Heap ℚ) 2 2).1
      2 0).2 (by decide)⟩

end

/-! ## The combined entry point and the exclusion of non-numeric cells (laba_1.cpp) -/

namespace Laba1

section
variable {F : Type}

theorem foldl_operationStep_Sum [Add F] [Mul F] [One F] (l : List F) (x y z : F) :
    l.foldl (operationStep "Sum") (x, y, z) = (l.foldl (fun a v => a + v) x, y, z) := by
  induction l generalizing x with
  | nil => rfl
  | cons v l ih =>
    rw [List.foldl_cons, List.foldl_cons]
    have hs : operationStep "Sum" (x, y, z) v = (x + v, y, z) := by
      simp [operationStep]
    rw [hs, ih]

theorem foldl_operationStep_Mean [Add F] [Mul F] [One F] (l : List F) (x y z : F) :
    l.foldl (operationStep "Mean") (x, y, z)
      = (l.foldl (fun a v => a + v) x, y, (fun c : F => c + 1)^[l.length] z) := by
  induction l generalizing x z with
  | nil => rfl
  | cons v l ih =>
    rw [List.foldl_cons, List.foldl_cons]
    have hs : operationStep "Mean" (x, y, z) v = (x + v, y, z + 1) := by
      simp [operationStep]
    rw [hs, ih]
    rfl

theorem foldl_operationStep_Prod [Add F] [Mul F] [One F] (l : List F) (x y z : F) :
    l.foldl (operationStep "Prod") (x, y, z) = (x, l.foldl (fun a v => a * v) y, z) := by
  induction l generalizing y with
  | nil => rfl
  | cons v l ih =>
    rw [List.foldl_cons, List.foldl_cons]
    have hs : operationStep "Prod" (x, y, z) v = (x, y * v, z) := by
      simp [operationStep]
    rw [hs, ih]

theorem Table.calculateOperation_Sum [Zero F] [One F] [Add F] [Mul F] [Div F] [BEq F]
    (t : Table F) (hwf : t.WF) (s e : Int × Int) (hv : t.validateRange s e = .ok ()) :
    t.calculateOperation "Sum" s e
      = .ok ((t.numbersInRange s e).foldl (fun x v => x + v) 0) := by
  unfold Table.calculateOperation
  rw [hv, Table.loops_eq t hwf s e hv, foldl_operationStep_Sum]
  simp [Table.validateOperation, bind, Except.bind, pure, Except.pure]

theorem Table.calculateOperation_Prod [Zero F] [One F] [Add F] [Mul F] [Div F] [BEq F]
    (t : Table F) (hwf : t.WF) (s e : Int × Int) (hv : t.validateRange s e = .ok ()) :
    t.calculateOperation "Prod" s e
      = .ok ((t.numbersInRange s e).foldl (fun x v => x * v) 1) := by
  unfold Table.calculateOperation
  rw [hv, Table.loops_eq t hwf s e hv, foldl_operationStep_Prod]
  simp [Table.validateOperation, bind, Except.bind, pure, Except.pure]

theorem Table.calculateOperation_Mean [Zero F] [One F] [Add F] [Mul F] [Div F] [BEq F]
    [CountLaw F] (t : Table F) (hwf : t.WF) (s e : Int × Int)
    (hv : t.validateRange s e = .ok ()) :
    t.calculateOperation "Mean" s e =
      if (t.numbersInRange s e).length = 0 then
        .error (.runtime_error "No members in range to calculate mean")
      else .ok ((t.numbersInRange s e).foldl (fun x v => x + v) 0
                  / doubleOfCount (t.numbersInRange s e).length) := by
  unfold Table.calculateOperation
  rw [hv, Table.loops_eq t hwf s e hv, foldl_operationStep_Mean]
  have hc := doubleOfCount_beq_zero (F := F) (t.numbersInRange s e).length
  unfold doubleOfCount at hc ⊢
  simp only [bind, Except.bind, Table.validateOperation, hc]
  by_cases h : (t.numbersInRange s e).length = 0
  · simp [h, throw, throwThe, MonadExceptOf.throw]
  · simp [h, pure, Except.pure]

theorem Table.calculateOperation_invalid [Zero F] [One F] [Add F] [Mul F] [Div F] [BEq F]
    (t : Table F) (operation : String) (s e : Int × Int) (hv : t.validateRange s e = .ok ())
    (hop : ¬ (operation = "Sum" ∨ operation = "Mean" ∨ operation = "Prod")) :
    t.calculateOperation operation s e = .error (.invalid_argument "Invalid operation") := by
  unfold Table.calculateOperation
  rw [hv]
  simp [Table.validateOperation, hop, bind, Except.bind]

/-- C12: in laba_1.cpp, on every table and every valid range,
`calculateOperation(op, start, end)` throws `invalid_argument("Invalid
operation")` exactly when `op` is none of the strings "Sum", "Mean", "Prod"
(so "sum" and "" are rejected); and on a range that `validateRange` rejects
the exception is the invalid-range one, whatever the operation name. -/
theorem calculateOperation_invalid_operation_iff [Zero F] [One F] [Add F] [Mul F] [Div F]
    [BEq F] [CountLaw F] (t : Table F) (s e : Int × Int) :
    (t.WF → t.validateRange s e = .ok () →
        (∀ operation : String,
          t.calculateOperation operation s e = .error (.invalid_argument "Invalid operation") ↔
            ¬ (operation = "Sum" ∨ operation = "Mean" ∨ operation = "Prod")) ∧
        t.calculateOperation "sum" s e = .error (.invalid_argument "Invalid operation") ∧
        t.calculateOperation "" s e = .error (.invalid_argument "Invalid operation"))
    ∧ (t.validateRange s e ≠ .ok () → ∀ operation : String,
        t.calculateOperation operation s e = .error (.invalid_argument "Invalid cell range")) := by
  constructor
  · intro hwf hv
    refine ⟨?_, Table.calculateOperation_invalid t _ s e hv (by decide),
      Table.calculateOperation_invalid t _ s e hv (by decide)⟩
    intro operation
    constructor
    · intro herr hop
      rcases hop with h | h | h
      · rw [h, Table.calculateOperation_Sum t hwf s e hv] at herr
        exact absurd herr (by simp)
      · rw [h, Table.calculateOperation_Mean t hwf s e hv] at herr
        split at herr
        · exact absurd herr (by simp)
        · exact absurd herr (by simp)
      · rw [h, Table.calculateOperation_Prod t hwf s e hv] at herr
        exact absurd herr (by simp)
    · exact Table.calculateOperation_invalid t operation s e hv
  · intro hne operation
    have herr : t.validateRange s e = .error (.invalid_argument "Invalid cell range") := by
      unfold Table.validateRange at hne ⊢
      split
      · rfl
      · rename_i h
        rw [if_neg h] at hne
        exact absurd rfl hne
    unfold Table.calculateOperation
    rw [herr]
    rfl

theorem calculateOperation_invalid_operation_iff_witness :
    testTableMean.calculateOperation "mean" (0, 0) (0, 1)
        = .error (.invalid_argument "Invalid operation")
    ∧ testTableMean.calculateOperation "mean" (0, 0) (0, 2)
        = .error (.invalid_argument "Invalid cell range") :=
  ⟨(((calculateOperation_invalid_operation_iff testTableMean (0, 0) (0, 1)).1 (by decide)
      (by decide)).1 "mean").2 (by decide),
    (calculateOperation_invalid_operation_iff testTableMean (0, 0) (0, 2)).2 (by decide) "mean"⟩

/-- C13: in laba_1.cpp, on every table and every valid range without a Number
cell, `calculateOperation("Sum", ...)` returns `0.0` and
`calculateOperation("Prod", ...)` returns `1.0`, while
`calculateOperation("Mean", ...)` throws `runtime_error("No members in range to
calculate mean")`: only the Mean branch tests the count. -/
theorem calculateOperation_without_numbers [Zero F] [One F] [Add F] [Mul F] [Div F] [BEq F]
    [CountLaw F] (t : Table F) (hwf : t.WF) (s e : Int × Int)
    (hv : t.validateRange s e = .ok ())
    (hnone : ∀ c ∈ t.cellsInRange s e, c.type = .EMPTY ∨ c.type = .TEXT) :
    t.calculateOperation "Sum" s e = .ok 0
    ∧ t.calculateOperation "Prod" s e = .ok 1
    ∧ t.calculateOperation "Mean" s e
        = .error (.runtime_error "No members in range to calculate mean") := by
  have h0 : (t.numbersInRange s e).length = 0 := by
    by_contra hne
    obtain ⟨c, hc, hnum⟩ := (Table.exists_number_iff t s e).2 hne
    rcases hnone c hc with h | h <;> rw [hnum] at h <;> exact absurd h (by decide)
  have hnil : t.numbersInRange s e = [] := List.length_eq_zero.1 h0
  rw [Table.calculateOperation_Sum t hwf s e hv, Table.calculateOperation_Prod t hwf s e hv,
    Table.calculateOperation_Mean t hwf s e hv, if_pos h0, hnil]
  exact ⟨rfl, rfl, rfl⟩

theorem calculateOperation_without_numbers_witness :
    testTableMean.calculateOperation "Sum" (1, 0) (1, 1) = .ok 0
    ∧ testTableMean.calculateOperation "Prod" (1, 0) (1, 1) = .ok 1
    ∧ testTableMean.calculateOperation "Mean" (1, 0) (1, 1)
        = .error (.runtime_error "No members in range to calculate mean") :=
  calculateOperation_without_numbers testTableMean (by decide) (1, 0) (1, 1) (by decide)
    (by decide!)

/-- C14: in laba_1.cpp, on every table and every valid range with at least one
Number cell, `calculateOperation` with "Sum", "Prod" and "Mean" returns what
`calculateSum`, `calculateProd` and `calculateMean` return; on a valid range
without a Number cell `calculateOperation("Mean", ...)` and `calculateMean`
both throw a `runtime_error` (with different texts). On the `runTests` table
holding 20.5 and 30.5, "Prod" returns `30.5 * 20.5`. -/
theorem calculateOperation_agrees_with_dedicated :
    (∀ (F : Type) [Zero F] [One F] [Add F] [Mul F] [Div F] [BEq F] [CountLaw F] (t : Table F)
        (s e : Int × Int), t.WF → t.validateRange s e = .ok () →
        ((∃ c ∈ t.cellsInRange s e, c.type = .NUMBER) →
          t.calculateOperation "Sum" s e = t.calculateSum s e ∧
          t.calculateOperation "Prod" s e = t.calculateProd s e ∧
          t.calculateOperation "Mean" s e = t.calculateMean s e ∧
          ∃ x, t.calculateSum s e = .ok x) ∧
        ((∀ c ∈ t.cellsInRange s e, c.type = .EMPTY ∨ c.type = .TEXT) →
          t.calculateOperation "Mean" s e
            = .error (.runtime_error "No members in range to calculate mean") ∧
          t.calculateMean s e
            = .error (.runtime_error "No numbers in range to calculate mean")))
    ∧ testTableMean.calculateOperation "Prod" (0, 0) (0, 1) = .ok (30.5 * 20.5) := by
  constructor
  · intro F _ _ _ _ _ _ _ t s e hwf hv
    constructor
    · intro hex
      have hn := (Table.exists_number_iff t s e).1 hex
      have h1 := Table.calculateSum_eq t hwf s e hv
      have h2 := Table.calculateProd_eq t hwf s e hv
      have h3 := Table.calculateMean_eq t hwf s e hv
      have h4 := Table.calculateOperation_Mean t hwf s e hv
      rw [if_neg hn] at h1 h2 h3 h4
      rw [Table.calculateOperation_Sum t hwf s e hv, Table.calculateOperation_Prod t hwf s e hv,
        h1, h2, h3, h4]
      exact ⟨rfl, rfl, rfl, _, rfl⟩
    · intro hnone
      have h0 : (t.numbersInRange s e).length = 0 := by
        by_contra hne
        obtain ⟨c, hc, hnum⟩ := (Table.exists_number_iff t s e).2 hne
        rcases hnone c hc with h | h <;> rw [hnum] at h <;> exact absurd h (by decide)
      have h3 := Table.calculateMean_eq t hwf s e hv
      have h4 := Table.calculateOperation_Mean t hwf s e hv
      rw [if_pos h0] at h3 h4
      exact ⟨h4, h3⟩
  · decide!

theorem calculateOperation_agrees_with_dedicated_witness :
    testTableMean.calculateOperation "Sum" (0, 0) (1, 1) = testTableMean.calculateSum (0, 0) (1, 1)
    ∧ testTableMean.calculateOperation "Prod" (0, 0) (1, 1)
        = testTableMean.calculateProd (0, 0) (1, 1)
    ∧ testTableMean.calculateOperation "Mean" (0, 0) (1, 1)
        = testTableMean.calculateMean (0, 0) (1, 1)
    ∧ ∃ x, testTableMean.calculateSum (0, 0) (1, 1) = .ok x :=
  (calculateOperation_agrees_with_dedicated.1 ℚ testTableMean (0, 0) (1, 1) (by decide)
    (by decide)).1 ⟨⟨.NUMBER, "", 20.5⟩, by decide!, rfl⟩

end

end Laba1

theorem subscript_set_ne {α : Type} (v : List α) (i k : Int) (x : α) (hk : 0 ≤ k)
    (hne : i ≠ k) : subscript (v.set k.toNat x) i = subscript v i := by
  unfold subscript
  by_cases hi : i < 0
  · rw [if_pos hi, if_pos hi]
  · rw [if_neg hi, if_neg hi]
    have hnat : k.toNat ≠ i.toNat := by omega
    rw [List.get?_eq_getElem?, List.get?_eq_getElem?, List.getElem?_set_ne hnat]

theorem filterMap_filter_map {α β γ : Type} (f : α → Option β) (p : β → Bool) (g : β → γ)
    (l : List α) :
    ((l.filterMap f).filter p).map g = l.filterMap (fun a => ((f a).filter p).map g) := by
  induction l with
  | nil => rfl
  | cons a l ih =>
    cases hfa : f a with
    | none => simp [List.filterMap_cons, hfa, ih]
    | some b =>
      by_cases hp : p b = true
      · simp [List.filterMap_cons, hfa, hp, ih, Option.filter]
      · simp [List.filterMap_cons, hfa, hp, ih, Option.filter]

namespace Laba1

section
variable {F : Type}

/-- The Number values of a range, position by position. -/
theorem Table.numbersInRange_eq (t : Table F) (s e : Int × Int) :
    t.numbersInRange s e = (intRange s.1 e.1).flatMap (fun i =>
      (intRange s.2 e.2).filterMap (fun j =>
        ((t.at i j).toOption.filter (fun c => c.type = .NUMBER)).map (fun c => c.numberValue))) := by
  unfold Table.numbersInRange Table.cellsInRange
  induction intRange s.1 e.1 with
  | nil => rfl
  | cons i rs ih =>
    rw [List.flatMap_cons, List.flatMap_cons, List.filter_append, List.map_append, ih,
      filterMap_filter_map]

/-- Reading `cells[i][j]` after a write at another position `cells[r][c] = x`. -/
theorem Table.at_set_ne (t : Table F) (r c i j : Int) (row : List (Cell F)) (cell x : Cell F)
    (hrow : subscript t.cells r = .ok row) (hcell : subscript row c = .ok cell)
    (hne : ¬ (i = r ∧ j = c)) :
    Table.at { t with cells := t.cells.set r.toNat (row.set c.toNat x) } i j = t.at i j := by
  have hr0 := ((subscript_eq_ok _ _ _).1 hrow).1
  have hc0 := ((subscript_eq_ok _ _ _).1 hcell).1
  unfold Table.at
  dsimp only
  by_cases hi : i = r
  · subst hi
    have hj : j ≠ c := fun h => hne ⟨rfl, h⟩
    rw [subscript_set_self t.cells i _ row hrow, hrow]
    exact subscript_set_ne row j c x hc0 hj
  · rw [subscript_set_ne t.cells i r _ hr0 hi]

end

end Laba1

/-! ## Concatenation and equality of laba_1_reload.cpp -/

theorem set_length_append {α : Type} (l1 l2 : List α) (y x : α) :
    (l1 ++ y :: l2).set l1.length x = l1 ++ x :: l2 := by
  induction l1 with
  | nil => rfl
  | cons a l1 ih => simp [ih]

theorem getElem?_length_append {α : Type} (l1 l2 : List α) :
    (l1 ++ l2)[l1.length]? = l2[0]? := by
  induction l1 with
  | nil => rfl
  | cons a l1 ih => simpa using ih

/-- A loop whose pass `i` overwrites element `i` of its state with `L[i]`,
provided that element is still the one the loop started with, replaces the
first `n` elements of the state by `L`. -/
theorem forLoopN_fill {α : Type} (L s0 : List α) (n : Nat) (hL : L.length = n)
    (hs : n ≤ s0.length) (body : List α → Nat → Except Exn (List α))
    (hbody : ∀ s i x, L[i]? = some x → s.length = s0.length → s[i]? = s0[i]? →
      body s i = .ok (s.set i x)) :
    forLoopN n body s0 = .ok (L ++ s0.drop n) := by
  have key : ∀ k, k ≤ n → (List.range k).foldlM body s0 = .ok (L.take k ++ s0.drop k) := by
    intro k
    induction k with
    | zero => intro _; rfl
    | succ k ih =>
      intro hk
      have hkL : k < L.length := by omega
      have hks : k < s0.length := by omega
      have hlen : (L.take k).length = k := by rw [List.length_take]; omega
      rw [List.range_succ, List.foldlM_append, ih (by omega)]
      have hx : L[k]? = some L[k] := List.getElem?_eq_getElem hkL
      have hstep := hbody (L.take k ++ s0.drop k) k L[k] hx
        (by rw [List.length_append, hlen, List.length_drop]; omega)
        (by
          have h1 := getElem?_length_append (L.take k) (s0.drop k)
          rw [hlen] at h1
          rw [h1, List.getElem?_drop]
          rfl)
      show (do let s ← body (L.take k ++ s0.drop k) k; List.foldlM body s []) = _
      rw [hstep]
      show Except.ok _ = _
      congr 1
      have hd : s0.drop k = s0[k] :: s0.drop (k + 1) := List.drop_eq_getElem_cons hks
      have ht : L.take (k + 1) = L.take k ++ [L[k]] := by
        rw [List.take_succ, hx]
        rfl
      rw [hd, ht, List.append_assoc]
      have := set_length_append (L.take k) (s0.drop (k + 1)) s0[k] L[k]
      rw [hlen] at this
      exact this
  unfold forLoopN
  rw [key n (Nat.le_refl n), ← hL, List.take_length]

theorem subscriptN_of_getElem? {α : Type} (v : List α) (i : Nat) (x : α) (h : v[i]? = some x) :
    subscriptN v i = .ok x := by
  rw [subscriptN_eq_ok, List.get?_eq_getElem?]
  exact h

theorem getElem?_of_subscriptN {α : Type} (v : List α) (i : Nat) (x : α)
    (h : subscriptN v i = .ok x) : v[i]? = some x := by
  rw [subscriptN_eq_ok, List.get?_eq_getElem?] at h
  exact h

/-- A loop that writes `m[i][j]` in pass `j` acts on row `i` of the matrix `m`
alone. -/
theorem foldlM_on_row {α : Type} (i : Nat) (q : Nat → Except Exn α) (js : List Nat)
    (m : List (List α)) (r0 : List α) (hm : m[i]? = some r0) :
    js.foldlM (fun m j => do
        let p ← q j
        let r ← subscriptN m i
        let _ ← subscriptN r j
        pure (m.set i (r.set j p))) m
      = (js.foldlM (fun r j => do
          let p ← q j
          let _ ← subscriptN r j
          pure (r.set j p)) r0).map (fun r => m.set i r) := by
  induction js generalizing m r0 with
  | nil =>
    show Except.ok m = Except.ok (m.set i r0)
    rw [set_of_get? m i r0 (by rw [List.get?_eq_getElem?]; exact hm)]
  | cons j js ih =>
    rw [List.foldlM_cons, List.foldlM_cons]
    cases hq : q j with
    | error e => rfl
    | ok p =>
      have hsub : subscriptN m i = .ok r0 := subscriptN_of_getElem? m i r0 hm
      cases hj : subscriptN r0 j with
      | error e =>
        simp only [bind, Except.bind, hsub, hj, Except.map]
      | ok y =>
        have hilt : i < m.length := (List.getElem?_eq_some.1 hm).1
        have hm2 : (m.set i (r0.set j p))[i]? = some (r0.set j p) :=
          List.getElem?_set_self hilt
        have := ih (m.set i (r0.set j p)) (r0.set j p) hm2
        simp only [bind, Except.bind, hsub, hj, pure, Except.pure] at this ⊢
        rw [this]
        simp only [List.set_set]

namespace Reload

section
variable {F : Type}

/-- Row `i` of a table of the right shape. -/
theorem Table.row_of_lt (t : Table) (hwf : t.WF) (i : Nat) (hi : i < t.row) :
    ∃ ri, t.cells[i]? = some ri ∧ ri.length = t.column := by
  have hlt : i < t.cells.length := by rw [hwf.1]; exact hi
  exact ⟨t.cells[i], List.getElem?_eq_getElem hlt, hwf.2 _ (List.getElem_mem hlt)⟩

theorem Table.getCell_of_row (t : Table) (i j : Nat) (ri : List Ptr) (x : Ptr)
    (hi : i < t.row) (hj : j < t.column) (hrow : t.cells[i]? = some ri)
    (hx : ri[j]? = some x) : t.getCell i j = .ok x := by
  unfold Table.getCell
  rw [if_neg (by omega), subscriptN_of_getElem? _ _ _ hrow]
  exact subscriptN_of_getElem? _ _ _ hx

/-- The matrix built by `operator+` and by `operator+=`: row `i` is row `i` of
the left operand followed by row `i` of the right operand. -/
theorem Table.operatorAdd_eq [Zero F] (t : Table) (h : Heap F) (o : Table) (hwf : t.WF)
    (hwfo : o.WF) (hrow : t.row = o.row) :
    t.operatorAdd h o
      = (.ok { cells := List.zipWith (fun a b => a ++ b) t.cells o.cells, row := t.row,
               column := t.column + o.column }, h ++ [Cell.new]) := by
  have hfill : forLoopN t.row (fun m i =>
      forLoopN (t.column + o.column) (fun m j => do
        let p ← (if j < t.column then t.getCell i j else o.getCell i (j - t.column))
        let r ← subscriptN m i
        let _ ← subscriptN r j
        pure (m.set i (r.set j p))) m)
        (List.replicate t.row (List.replicate (t.column + o.column) h.length))
      = .ok (List.zipWith (fun a b => a ++ b) t.cells o.cells) := by
    have hL : (List.zipWith (fun a b => a ++ b) t.cells o.cells).length = t.row := by
      rw [List.length_zipWith, hwf.1, hwfo.1, ← hrow, Nat.min_self]
    refine (forLoopN_fill (List.zipWith (fun a b => a ++ b) t.cells o.cells)
      (List.replicate t.row (List.replicate (t.column + o.column) h.length)) t.row hL
      (by rw [List.length_replicate]) _ ?_).trans ?_
    swap
    · have hd : List.drop t.row
          (List.replicate t.row (List.replicate (t.column + o.column) h.length)) = [] := by
        apply List.drop_of_length_le
        rw [List.length_replicate]
      rw [hd, List.append_nil]
    · intro m i x hx hlen hmi
      obtain ⟨ti, oi, hti, hoi, hxe⟩ := List.getElem?_zipWith_eq_some.1 hx
      have hi : i < t.row := by
        have := (List.getElem?_eq_some.1 hti).1
        rw [hwf.1] at this
        exact this
      have htl : ti.length = t.column := hwf.2 ti (List.getElem?_mem hti)
      have hol : oi.length = o.column := hwfo.2 oi (List.getElem?_mem hoi)
      rw [List.getElem?_replicate_of_lt hi] at hmi
      unfold forLoopN
      rw [foldlM_on_row i _ _ m _ hmi]
      have hrowfill := forLoopN_fill x (List.replicate (t.column + o.column) h.length)
        (t.column + o.column) (by rw [← hxe, List.length_append, htl, hol])
        (by rw [List.length_replicate])
        (fun r j => do
          let p ← (if j < t.column then t.getCell i j else o.getCell i (j - t.column))
          let _ ← subscriptN r j
          pure (r.set j p)) ?_
      · unfold forLoopN at hrowfill
        rw [hrowfill]
        have hd : List.drop (t.column + o.column)
            (List.replicate (t.column + o.column) h.length) = [] := by
          apply List.drop_of_length_le
          rw [List.length_replicate]
        rw [hd, List.append_nil]
        rfl
      · intro r j y hy hrlen _
        have hjlt : j < t.column + o.column := by
          have := (List.getElem?_eq_some.1 hy).1
          rw [← hxe, List.length_append, htl, hol] at this
          exact this
        have hq : (if j < t.column then t.getCell i j else o.getCell i (j - t.column))
            = .ok y := by
          rw [← hxe, List.getElem?_append, htl] at hy
          by_cases hj : j < t.column
          · rw [if_pos hj] at hy ⊢
            exact Table.getCell_of_row t i j ti y hi hj hti hy
          · rw [if_neg hj] at hy ⊢
            exact Table.getCell_of_row o i (j - t.column) oi y (by omega) (by omega) hoi hy
        obtain ⟨z, hz, -⟩ := subscriptN_of_lt r j
          (by rw [hrlen, List.length_replicate]; exact hjlt)
        simp only [hq, hz, bind, Except.bind, pure, Except.pure]
  unfold Table.operatorAdd
  rw [if_neg (by omega)]
  have hres : resize ([] : List (List Ptr)) t.row
      (List.replicate (t.column + o.column) (make_shared h (Cell.new : Cell F)).1)
      = List.replicate t.row (List.replicate (t.column + o.column) h.length) := by
    simp [resize, make_shared]
  simp only [hres, hfill]
  rfl

theorem Table.operatorAddAssign_eq [Zero F] (t : Table) (h : Heap F) (o : Table) (hwf : t.WF)
    (hwfo : o.WF) (hrow : t.row = o.row) :
    t.operatorAddAssign h (some o)
      = (.ok (), { cells := List.zipWith (fun a b => a ++ b) t.cells o.cells, row := t.row,
                   column := t.column + o.column }, h ++ [Cell.new]) := by
  have hres : resize t.cells t.row
      (List.replicate (t.column + o.column) (make_shared h (Cell.new : Cell F)).1) = t.cells := by
    unfold resize
    rw [← hwf.1, List.take_length, Nat.sub_self]
    simp
  have hfill : forLoopN t.row (fun m i => do
        let r ← subscriptN m i
        let x ← subscriptN o.cells i
        pure (m.set i (r ++ x))) t.cells
      = .ok (List.zipWith (fun a b => a ++ b) t.cells o.cells) := by
    have hL : (List.zipWith (fun a b => a ++ b) t.cells o.cells).length = t.row := by
      rw [List.length_zipWith, hwf.1, hwfo.1, ← hrow, Nat.min_self]
    refine (forLoopN_fill (List.zipWith (fun a b => a ++ b) t.cells o.cells) t.cells t.row hL
      (by rw [hwf.1]) _ ?_).trans ?_
    swap
    · have hd : List.drop t.row t.cells = [] := by
        apply List.drop_of_length_le
        rw [hwf.1]
      rw [hd, List.append_nil]
    · intro m i x hx _ hmi
      obtain ⟨ti, oi, hti, hoi, hxe⟩ := List.getElem?_zipWith_eq_some.1 hx
      rw [hti] at hmi
      simp only [subscriptN_of_getElem? _ _ _ hmi, subscriptN_of_getElem? _ _ _ hoi, bind,
        Except.bind, pure, Except.pure, hxe]
  unfold Table.operatorAddAssign
  rw [if_neg (by simpa using hrow)]
  simp only [hres, hfill]
  rfl

end

end Reload

namespace Reload

section
variable {F : Type}

theorem Table.cellAt_of_lt (t : Table) (h : Heap F) (hwf : t.WF) (hp : t.PtrsValid h)
    (i j : Nat) (hi : i < t.row) (hj : j < t.column) : ∃ c, t.cellAt h i j = .ok c := by
  obtain ⟨ri, hri, hlen⟩ := Table.row_of_lt t hwf i hi
  have hjlt : j < ri.length := by rw [hlen]; exact hj
  have hmem : ri ∈ t.cells := List.getElem?_mem hri
  have hplt : ri[j] < h.length := hp ri hmem _ (List.getElem_mem hjlt)
  refine ⟨h[ri[j]], ?_⟩
  unfold Table.cellAt
  rw [subscriptN_of_getElem? _ _ _ hri]
  show (do let p ← subscriptN ri j; derefE h p) = _
  rw [subscriptN_of_getElem? _ _ _ (List.getElem?_eq_getElem hjlt)]
  show derefE h ri[j] = _
  simp only [derefE, deref, List.get?_eq_getElem?, List.getElem?_eq_getElem hplt]

/-- One pass of the inner loop of `operator==` with `flag` still true. -/
theorem Table.compareAt_true [BEq F] (t o : Table) (h : Heap F) (i j : Nat) (a b : Cell F)
    (ha : t.cellAt h i j = .ok a) (hb : o.cellAt h i j = .ok b) :
    t.compareAt h o i j true = .ok (.next (cellsAgree a b)) := by
  unfold Table.compareAt
  rw [ha, hb]
  rcases a with ⟨ta, xa, na⟩
  rcases b with ⟨tb, xb, nb⟩
  cases ta <;> cases tb <;>
    simp [Cell.getType, Cell.getText, Cell.getNumber, cellsAgree, bind, Except.bind, pure,
      Except.pure]

theorem Table.operatorEq_inner [BEq F] (t o : Table) (h : Heap F) (i : Nat) (js : List Nat)
    (hcells : ∀ j ∈ js, ∃ a b, t.cellAt h i j = .ok a ∧ o.cellAt h i j = .ok b) (flag : Bool) :
    forBreak js (fun flag j => t.compareAt h o i j flag) flag
      = .ok (flag && js.all (fun j => t.agreeAt h o i j)) := by
  induction js generalizing flag with
  | nil => cases flag <;> rfl
  | cons j js ih =>
    cases flag with
    | false => rfl
    | true =>
      obtain ⟨a, b, ha, hb⟩ := hcells j (List.mem_cons_self _ _)
      unfold forBreak
      simp only [Table.compareAt_true t o h i j a b ha hb]
      rw [ih (fun k hk => hcells k (List.mem_cons_of_mem _ hk))]
      simp [Table.agreeAt, ha, hb]

theorem Table.operatorEq_outer [BEq F] (t o : Table) (h : Heap F) (is js : List Nat)
    (hcells : ∀ i ∈ is, ∀ j ∈ js, ∃ a b, t.cellAt h i j = .ok a ∧ o.cellAt h i j = .ok b)
    (flag : Bool) :
    is.foldlM (fun flag i => forBreak js (fun flag j => t.compareAt h o i j flag) flag) flag
      = .ok (flag && is.all (fun i => js.all (fun j => t.agreeAt h o i j))) := by
  induction is generalizing flag with
  | nil => cases flag <;> rfl
  | cons i is ih =>
    rw [List.foldlM_cons, Table.operatorEq_inner t o h i js (hcells i (List.mem_cons_self _ _))]
    show List.foldlM _ _ is = _
    rw [ih (fun k hk => hcells k (List.mem_cons_of_mem _ hk))]
    simp [Bool.and_assoc]

/-- The outcome of `operator==` on two tables of the right shape whose pointers
all point to cells. -/
theorem Table.operatorEq_eq [BEq F] (t o : Table) (h : Heap F) (hwf : t.WF) (hwfo : o.WF)
    (hp : t.PtrsValid h) (hpo : o.PtrsValid h) :
    t.operatorEq h o = .ok (decide (t.getSize = o.getSize) &&
      (List.range t.row).all (fun i => (List.range t.column).all (fun j => t.agreeAt h o i j))) := by
  unfold Table.operatorEq
  by_cases hsize : t.getSize = o.getSize
  · rw [if_neg (not_not.2 hsize)]
    unfold forLoopN
    have hrc : t.row = o.row ∧ t.column = o.column := by
      unfold Table.getSize at hsize
      exact Prod.mk.inj hsize
    rw [Table.operatorEq_outer]
    · simp [hsize]
    · intro i hi j hj
      rw [List.mem_range] at hi hj
      obtain ⟨a, ha⟩ := Table.cellAt_of_lt t h hwf hp i j hi hj
      obtain ⟨b, hb⟩ := Table.cellAt_of_lt o h hwfo hpo i j (by omega) (by omega)
      exact ⟨a, b, ha, hb⟩
  · rw [if_pos hsize]
    simp [hsize]

end

end Reload

namespace Laba1

section
variable {F : Type}

/-- The two vector accesses behind a successful read of `cells[r][c]`. -/
theorem Table.subscripts_of_at (t : Table F) (r c : Int) (cell : Cell F)
    (h : t.at r c = .ok cell) :
    ∃ row, subscript t.cells r = .ok row ∧ subscript row c = .ok cell := by
  unfold Table.at at h
  cases hr : subscript t.cells r with
  | error x => rw [hr] at h; exact absurd h (by simp [bind, Except.bind])
  | ok row => rw [hr] at h; exact ⟨row, rfl, h⟩

/-- A successful `getCell` passed the coordinate check and read `cells[r][c]`. -/
theorem Table.of_getCell (t : Table F) (r c : Int) (cell : Cell F)
    (h : t.getCell r c = .ok cell) :
    t.validateCoordinates r c = .ok () ∧ t.at r c = .ok cell := by
  unfold Table.getCell at h
  cases hvc : t.validateCoordinates r c with
  | error x => rw [hvc] at h; exact absurd h (by simp [bind, Except.bind])
  | ok u => rw [hvc] at h; exact ⟨rfl, h⟩

/-- Overwriting a cell that is not a Number by a cell that is not a Number
leaves the Number values of every range as they were. -/
theorem Table.numbersInRange_set (t : Table F) (r c : Int) (row : List (Cell F))
    (cell x : Cell F) (hrow : subscript t.cells r = .ok row) (hcell : subscript row c = .ok cell)
    (hold : cell.type ≠ .NUMBER) (hnew : x.type ≠ .NUMBER) (s e : Int × Int) :
    Table.numbersInRange { t with cells := t.cells.set r.toNat (row.set c.toNat x) } s e
      = t.numbersInRange s e := by
  have hat : t.at r c = .ok cell := by
    unfold Table.at
    rw [hrow]
    exact hcell
  rw [Table.numbersInRange_eq, Table.numbersInRange_eq]
  congr 1
  funext i
  congr 1
  funext j
  by_cases h : i = r ∧ j = c
  · obtain ⟨hi, hj⟩ := h
    subst hi
    subst hj
    rw [Table.at_set t i j row cell x hrow hcell, hat]
    simp [Except.toOption, Option.filter, hold, hnew]
  · rw [Table.at_set_ne t r c i j row cell x hrow hcell h]

/-- C11: in laba_1.cpp a cell that is not a Number takes no part in the
aggregates. On every table and every valid range, overwriting a cell that is
Empty or Text by any cell that is Empty or Text leaves the outcome (value or
exception) of `calculateSum`, `calculateProd` and `calculateMean` unchanged;
two valid ranges with the same Number values in the same order give the same
outcomes, however many Empty or Text cells each has; and on the `runTests`
table the Mean of 20.5, 30.5 and two Empty cells is 25.5, the Mean of the two
Number cells alone, not `(20.5 + 30.5 + 0 + 0) / 4`. -/
theorem non_numeric_cells_are_excluded :
    (∀ (F : Type) [Zero F] [One F] [Add F] [Mul F] [Div F] [BEq F] [CountLaw F] (t : Table F)
        (s e : Int × Int) (r c : Int) (old x : Cell F), t.WF → t.validateRange s e = .ok () →
        t.getCell r c = .ok old → (old.type = .EMPTY ∨ old.type = .TEXT) →
        (x.type = .EMPTY ∨ x.type = .TEXT) →
        (t.assignCell r c x).1 = .ok () ∧
        (t.assignCell r c x).2.getCell r c = .ok x ∧
        (t.assignCell r c x).2.calculateSum s e = t.calculateSum s e ∧
        (t.assignCell r c x).2.calculateProd s e = t.calculateProd s e ∧
        (t.assignCell r c x).2.calculateMean s e = t.calculateMean s e)
    ∧ (∀ (F : Type) [Zero F] [One F] [Add F] [Mul F] [Div F] [BEq F] [CountLaw F]
        (t₁ t₂ : Table F) (s₁ e₁ s₂ e₂ : Int × Int), t₁.WF → t₂.WF →
        t₁.validateRange s₁ e₁ = .ok () → t₂.validateRange s₂ e₂ = .ok () →
        ((t₁.cellsInRange s₁ e₁).filter (fun c => c.type = .NUMBER)).map (fun c => c.numberValue)
          = ((t₂.cellsInRange s₂ e₂).filter (fun c => c.type = .NUMBER)).map
              (fun c => c.numberValue) →
        t₁.calculateSum s₁ e₁ = t₂.calculateSum s₂ e₂ ∧
        t₁.calculateProd s₁ e₁ = t₂.calculateProd s₂ e₂ ∧
        t₁.calculateMean s₁ e₁ = t₂.calculateMean s₂ e₂)
    ∧ (testTableMean.calculateMean (0, 0) (1, 1) = .ok 25.5 ∧
       testTableMean.calculateMean (0, 0) (0, 1) = .ok 25.5 ∧
       (25.5 : ℚ) ≠ (20.5 + 30.5 + 0 + 0) / 4) := by
  refine ⟨?_, ?_, by decide!, by decide!, by norm_num⟩
  · intro F _ _ _ _ _ _ _ t s e r c old x hwf hv hget hold hnew
    obtain ⟨hvc, hat⟩ := Table.of_getCell t r c old hget
    obtain ⟨row, hrow, hcell⟩ := Table.subscripts_of_at t r c old hat
    have hassign : t.assignCell r c x
        = (.ok (), { t with cells := t.cells.set r.toNat (row.set c.toNat x) }) := by
      unfold Table.assignCell
      rw [hvc]
      dsimp only
      rw [hrow]
      dsimp only
      rw [hcell]
    have hold' : old.type ≠ .NUMBER := by
      rcases hold with h | h <;> rw [h] <;> decide
    have hnew' : x.type ≠ .NUMBER := by
      rcases hnew with h | h <;> rw [h] <;> decide
    have hwf' : Table.WF { t with cells := t.cells.set r.toNat (row.set c.toNat x) } :=
      Table.set_WF t hwf _ _ row x (subscript_mem _ _ _ hrow)
    have hv' : Table.validateRange
        { t with cells := t.cells.set r.toNat (row.set c.toNat x) } s e = .ok () := hv
    have hnum := Table.numbersInRange_set t r c row old x hrow hcell hold' hnew' s e
    rw [hassign]
    refine ⟨rfl, Table.getCell_set t r c row old x hvc hrow hcell, ?_, ?_, ?_⟩
    · rw [Table.calculateSum_eq _ hwf' s e hv', Table.calculateSum_eq t hwf s e hv, hnum]
    · rw [Table.calculateProd_eq _ hwf' s e hv', Table.calculateProd_eq t hwf s e hv, hnum]
    · rw [Table.calculateMean_eq _ hwf' s e hv', Table.calculateMean_eq t hwf s e hv, hnum]
  · intro F _ _ _ _ _ _ _ t₁ t₂ s₁ e₁ s₂ e₂ hwf₁ hwf₂ hv₁ hv₂ hsame
    have hnum : t₁.numbersInRange s₁ e₁ = t₂.numbersInRange s₂ e₂ := hsame
    rw [Table.calculateSum_eq t₁ hwf₁ s₁ e₁ hv₁, Table.calculateSum_eq t₂ hwf₂ s₂ e₂ hv₂,
      Table.calculateProd_eq t₁ hwf₁ s₁ e₁ hv₁, Table.calculateProd_eq t₂ hwf₂ s₂ e₂ hv₂,
      Table.calculateMean_eq t₁ hwf₁ s₁ e₁ hv₁, Table.calculateMean_eq t₂ hwf₂ s₂ e₂ hv₂, hnum]
    exact ⟨rfl, rfl, rfl⟩

theorem non_numeric_cells_are_excluded_witness :
    (testTableMean.assignCell 1 0 ⟨.TEXT, "t", 0⟩).2.calculateMean (0, 0) (1, 1)
        = testTableMean.calculateMean (0, 0) (1, 1)
    ∧ testTableMean.calculateMean (0, 0) (1, 1) = testTableMean.calculateMean (0, 0) (0, 1) :=
  ⟨(non_numeric_cells_are_excluded.1 ℚ testTableMean (0, 0) (1, 1) 1 0 Cell.new ⟨.TEXT, "t", 0⟩
      (by decide) (by decide) (by decide!) (Or.inl rfl) (Or.inr rfl)).2.2.2.2,
    (non_numeric_cells_are_excluded.2.1 ℚ testTableMean testTableMean (0, 0) (1, 1) (0, 0) (0, 1)
      (by decide) (by decide) (by decide) (by decide) (by decide!)).2.2⟩

end

end Laba1

theorem subscript_replicate {α : Type} (n : Nat) (x : α) (i : Int) (h0 : 0 ≤ i)
    (h1 : i < (n : Int)) : subscript (List.replicate n x) i = .ok x := by
  obtain ⟨y, hy, -, hmem⟩ := subscript_of_lt (List.replicate n x) i h0
    (by rw [List.length_replicate]; exact h1)
  rw [hy, List.eq_of_mem_replicate hmem]

namespace Laba1

section
variable {F : Type}

/-- The copy constructor yields a table with the same fields. -/
theorem Table.copy_eq (t : Table F) : t.copy = t := rfl


end

end Laba1

/-! ## Construction, concatenation and equality: the claims -/

section
variable {F : Type}

/-- C16: in both programs a default-constructed table is 1x1 and its cell is
Empty, and a table constructed with `(rows, columns)`, both at least 1, has
those dimensions (`getSize` returns them in laba_1_reload.cpp) and at every
coordinate `(r,c)` with `r < rows` and `c < columns` `getCell` succeeds and
yields an Empty cell. -/
theorem constructed_table_is_empty_grid [Zero F] :
    ((Laba1.Table.new : Laba1.Table F).rows = 1 ∧ (Laba1.Table.new : Laba1.Table F).columns = 1 ∧
      ∃ cell, (Laba1.Table.new : Laba1.Table F).getCell 0 0 = .ok cell ∧ cell.getType = .EMPTY)
    ∧ (∀ rows columns : Int, 1 ≤ rows → 1 ≤ columns →
        ∃ t : Laba1.Table F, Laba1.Table.init rows columns = .ok t ∧
          t.rows = rows ∧ t.columns = columns ∧
          ∀ r c : Int, 0 ≤ r → r < rows → 0 ≤ c → c < columns →
            ∃ cell, t.getCell r c = .ok cell ∧ cell.getType = .EMPTY)
    ∧ (∀ h : Reload.Heap F,
        (Reload.Table.new h).1.getSize = (1, 1) ∧
        ∃ p cell, (Reload.Table.new h).1.getCell 0 0 = .ok p ∧
          Reload.deref (Reload.Table.new h).2 p = some cell ∧ cell.getType = .EMPTY)
    ∧ (∀ (h : Reload.Heap F) (rows cols : Nat), 1 ≤ rows → 1 ≤ cols →
        (Reload.Table.init h rows cols).1.getSize = (rows, cols) ∧
        ∀ r c : Nat, r < rows → c < cols →
          ∃ p cell, (Reload.Table.init h rows cols).1.getCell r c = .ok p ∧
            Reload.deref (Reload.Table.init h rows cols).2 p = some cell ∧
            cell.getType = .EMPTY) := by
  refine ⟨⟨rfl, rfl, Laba1.Cell.new, rfl, rfl⟩, ?_, ?_, ?_⟩
  · intro rows columns hr hc
    refine ⟨{ cells := List.replicate rows.toNat (List.replicate columns.toNat Laba1.Cell.new),
              rows := rows, columns := columns }, ?_, rfl, rfl, ?_⟩
    · unfold Laba1.Table.init
      rw [if_neg (by omega)]
    · intro r c hr0 hr1 hc0 hc1
      refine ⟨Laba1.Cell.new, ?_, rfl⟩
      unfold Laba1.Table.getCell
      have hvc : Laba1.Table.validateCoordinates
          ({ cells := List.replicate rows.toNat (List.replicate columns.toNat Laba1.Cell.new),
             rows := rows, columns := columns } : Laba1.Table F) r c = .ok () := by
        rw [Laba1.Table.validateCoordinates_eq_ok]
        exact ⟨⟨hr0, hr1⟩, ⟨hc0, hc1⟩⟩
      rw [hvc]
      show Laba1.Table.at _ r c = _
      unfold Laba1.Table.at
      dsimp only
      rw [subscript_replicate _ _ r hr0 (by omega)]
      exact subscript_replicate _ _ c hc0 (by omega)
  · intro h
    exact ⟨rfl, h.length, Reload.Cell.new, rfl, Reload.deref_append_length h _, rfl⟩
  · intro h rows cols _ _
    refine ⟨rfl, ?_⟩
    intro r c hr hc
    refine ⟨h.length, Reload.Cell.new, ?_, Reload.deref_append_length h _, rfl⟩
    unfold Reload.Table.getCell Reload.Table.init
    dsimp only
    rw [if_neg (by omega), subscriptN_of_getElem? _ r _ (List.getElem?_replicate_of_lt hr)]
    exact subscriptN_of_getElem? _ c _ (List.getElem?_replicate_of_lt hc)

theorem constructed_table_is_empty_grid_witness :
    (∃ t : Laba1.Table ℚ, Laba1.Table.init 2 2 = .ok t ∧ t.rows = 2 ∧ t.columns = 2 ∧
        ∀ r c : Int, 0 ≤ r → r < 2 → 0 ≤ c → c < 2 →
          ∃ cell, t.getCell r c = .ok cell ∧ cell.getType = .EMPTY)
    ∧ (Reload.Table.init ([] : Reload.Heap ℚ) 3 2).1.getSize = (3, 2) :=
  ⟨constructed_table_is_empty_grid.2.1 2 2 (by decide) (by decide),
    (constructed_table_is_empty_grid.2.2.2 ([] : Reload.Heap ℚ) 3 2 (by decide) (by decide)).1⟩

end

/-- An exception that leaves a loop was thrown by a pass of its body. -/
theorem foldlM_error_of {σ α : Type} (P : Exn → Prop) (f : σ → α → Except Exn σ)
    (hf : ∀ s x e, f s x = .error e → P e) (l : List α) (init : σ) (e : Exn)
    (h : l.foldlM f init = .error e) : P e := by
  induction l generalizing init with
  | nil => exact absurd h (by simp [List.foldlM, pure, Except.pure])
  | cons x l ih =>
    rw [List.foldlM_cons] at h
    cases hfx : f init x with
    | error e' =>
      rw [hfx] at h
      have : e' = e := by injection h
      rw [← this]
      exact hf init x e' hfx
    | ok s =>
      rw [hfx] at h
      exact ih s h

section
variable {F : Type}

theorem Reload.Table.getCell_eq_error (t : Reload.Table) (i j : Nat) (e : Exn)
    (h : t.getCell i j = .error e) :
    e = .out_of_range "Индекс ячейки вне диапазона." ∨ e = .vector_subscript := by
  unfold Reload.Table.getCell at h
  split at h
  · left
    injection h with h
    exact h.symm
  · right
    cases hr : subscriptN t.cells i with
    | error y =>
      rw [hr] at h
      have hy : y = e := by injection h
      rw [← hy]
      exact subscriptN_eq_error _ _ _ hr
    | ok row =>
      rw [hr] at h
      exact subscriptN_eq_error row j e h

/-- The loops of `operator+` throw no `invalid_argument`. -/
theorem Reload.Table.operatorAdd_loops_error (t o : Reload.Table) (m0 : List (List Reload.Ptr))
    (e : Exn)
    (h : forLoopN t.row (fun m i =>
      forLoopN (t.column + o.column) (fun m j => do
        let p ← (if j < t.column then t.getCell i j else o.getCell i (j - t.column))
        let r ← subscriptN m i
        let _ ← subscriptN r j
        pure (m.set i (r.set j p))) m) m0 = .error e) :
    e = .out_of_range "Индекс ячейки вне диапазона." ∨ e = .vector_subscript := by
  refine foldlM_error_of
    (fun e => e = .out_of_range "Индекс ячейки вне диапазона." ∨ e = .vector_subscript)
    _ ?_ _ m0 e h
  intro m i e1 h1
  refine foldlM_error_of
    (fun e => e = .out_of_range "Индекс ячейки вне диапазона." ∨ e = .vector_subscript)
    _ ?_ _ m e1 h1
  intro m' j e2 h2
  show e2 = .out_of_range "Индекс ячейки вне диапазона." ∨ e2 = .vector_subscript
  by_cases hj : j < t.column
  · rw [if_pos hj] at h2
    cases hg : t.getCell i j with
    | error y =>
      rw [hg] at h2
      have hy : y = e2 := by injection h2
      rw [← hy]
      exact Reload.Table.getCell_eq_error t i j y hg
    | ok p =>
      rw [hg] at h2
      right
      cases hr : subscriptN m' i with
      | error y =>
        rw [hr] at h2
        have hy : y = e2 := by injection h2
        rw [← hy]
        exact subscriptN_eq_error _ _ _ hr
      | ok r =>
        rw [hr] at h2
        cases hc : subscriptN r j with
        | error y =>
          simp only [bind, Except.bind, hc] at h2
          have hy : y = e2 := by injection h2
          rw [← hy]
          exact subscriptN_eq_error _ _ _ hc
        | ok z =>
          simp only [bind, Except.bind, hc, pure, Except.pure] at h2
          exact absurd h2 (by simp)
  · rw [if_neg hj] at h2
    cases hg : o.getCell i (j - t.column) with
    | error y =>
      rw [hg] at h2
      have hy : y = e2 := by injection h2
      rw [← hy]
      exact Reload.Table.getCell_eq_error o i _ y hg
    | ok p =>
      rw [hg] at h2
      right
      cases hr : subscriptN m' i with
      | error y =>
        rw [hr] at h2
        have hy : y = e2 := by injection h2
        rw [← hy]
        exact subscriptN_eq_error _ _ _ hr
      | ok r =>
        rw [hr] at h2
        cases hc : subscriptN r j with
        | error y =>
          simp only [bind, Except.bind, hc] at h2
          have hy : y = e2 := by injection h2
          rw [← hy]
          exact subscriptN_eq_error _ _ _ hc
        | ok z =>
          simp only [bind, Except.bind, hc, pure, Except.pure] at h2
          exact absurd h2 (by simp)

/-- The loop of `operator+=` throws no exception of the source. -/
theorem Reload.Table.operatorAddAssign_loop_error (t o : Reload.Table)
    (m0 : List (List Reload.Ptr)) (e : Exn)
    (h : forLoopN t.row (fun m i => do
        let r ← subscriptN m i
        let x ← subscriptN o.cells i
        pure (m.set i (r ++ x))) m0 = .error e) :
    e = .vector_subscript := by
  refine foldlM_error_of (fun e => e = .vector_subscript) _ ?_ _ m0 e h
  intro m i e1 h1
  show e1 = .vector_subscript
  cases hr : subscriptN m i with
  | error y =>
    rw [hr] at h1
    have hy : y = e1 := by injection h1
    rw [← hy]
    exact subscriptN_eq_error _ _ _ hr
  | ok r =>
    rw [hr] at h1
    cases hc : subscriptN o.cells i with
    | error y =>
      simp only [bind, Except.bind, hc] at h1
      have hy : y = e1 := by injection h1
      rw [← hy]
      exact subscriptN_eq_error _ _ _ hc
    | ok z =>
      simp only [bind, Except.bind, hc, pure, Except.pure] at h1
      exact absurd h1 (by simp)

end

section
variable {F : Type}

/-- The pointer at row `r`, column `j` of the concatenated matrix. -/
theorem Reload.Table.getCell_zipWith (a b : Reload.Table) (hwa : a.WF) (hwb : b.WF)
    (hrow : a.row = b.row) (r j : Nat) (hr : r < a.row) (hj : j < a.column + b.column) :
    ∃ p, Reload.Table.getCell
        { cells := List.zipWith (fun x y => x ++ y) a.cells b.cells, row := a.row,
          column := a.column + b.column } r j = .ok p ∧
      (if j < a.column then a.getCell r j else b.getCell r (j - a.column)) = .ok p := by
  obtain ⟨ar, har, hal⟩ := Reload.Table.row_of_lt a hwa r hr
  obtain ⟨br, hbr, hbl⟩ := Reload.Table.row_of_lt b hwb r (by omega)
  have hz : (List.zipWith (fun x y => x ++ y) a.cells b.cells)[r]? = some (ar ++ br) :=
    List.getElem?_zipWith_eq_some.2 ⟨ar, br, har, hbr, rfl⟩
  have hlen : j < (ar ++ br).length := by rw [List.length_append, hal, hbl]; exact hj
  have hy : (ar ++ br)[j]? = some (ar ++ br)[j] := List.getElem?_eq_getElem hlen
  refine ⟨(ar ++ br)[j], ?_, ?_⟩
  · exact Reload.Table.getCell_of_row _ r j (ar ++ br) _ hr hj hz hy
  · rw [List.getElem?_append, hal] at hy
    by_cases hja : j < a.column
    · rw [if_pos hja] at hy ⊢
      exact Reload.Table.getCell_of_row a r j ar _ hr hja har hy
    · rw [if_neg hja] at hy ⊢
      exact Reload.Table.getCell_of_row b r (j - a.column) br _ (by omega) (by omega) hbr hy

/-- C17: in laba_1_reload.cpp, for all tables `a` and `b` with the same row
count, each with a cell matrix matching its dimensions, `a + b` returns a table
of size `(a.row, a.column + b.column)` whose cell at `(r,j)`, for `r < a.row`
and `j < a.column + b.column`, is the shared pointer `a.getCell(r,j)` when
`j < a.column` and `b.getCell(r, j - a.column)` otherwise. The operands are
`const`; the call only allocates one new cell, so every cell that existed
before is unchanged. -/
theorem concatenation_cells [Zero F] (a b : Reload.Table) (h : Reload.Heap F) (hwa : a.WF)
    (hwb : b.WF) (hrow : a.row = b.row) :
    ∃ t, (a.operatorAdd h b).1 = .ok t ∧ t.getSize = (a.row, a.column + b.column) ∧
      (∀ r j : Nat, r < a.row → j < a.column + b.column →
        (∃ p, t.getCell r j = .ok p) ∧
        t.getCell r j = if j < a.column then a.getCell r j else b.getCell r (j - a.column)) ∧
      (∀ p : Reload.Ptr, p < h.length →
        Reload.deref (a.operatorAdd h b).2 p = Reload.deref h p) := by
  rw [Reload.Table.operatorAdd_eq a h b hwa hwb hrow]
  refine ⟨_, rfl, rfl, ?_, ?_⟩
  · intro r j hr hj
    obtain ⟨p, hp1, hp2⟩ := Reload.Table.getCell_zipWith a b hwa hwb hrow r j hr hj
    exact ⟨⟨p, hp1⟩, by rw [hp1, hp2]⟩
  · intro p hp
    show (h ++ [Reload.Cell.new]).get? p = h.get? p
    rw [List.get?_eq_getElem?, List.get?_eq_getElem?, List.getElem?_append_left hp]

theorem concatenation_cells_witness :
    ∃ t, ((Reload.Table.init ([] : Reload.Heap ℚ) 3 2).1.operatorAdd
            (Reload.Table.init ([] : Reload.Heap ℚ) 3 2).2
            (Reload.Table.init ([] : Reload.Heap ℚ) 3 1).1).1 = .ok t ∧
      t.getSize = (3, 2 + 1) :=
  (concatenation_cells (Reload.Table.init ([] : Reload.Heap ℚ) 3 2).1
    (Reload.Table.init ([] : Reload.Heap ℚ) 3 1).1 (Reload.Table.init ([] : Reload.Heap ℚ) 3 2).2
    (by decide) (by decide) (by decide)).imp fun _ ht => ⟨ht.1, ht.2.1⟩

/-- C18: in laba_1_reload.cpp `operator+` and `operator+=` throw the
row-mismatch `invalid_argument` exactly when the row counts of the two tables
differ, whatever the column counts (and `a += a` never throws it); when
`operator+=` throws it, the left operand and the store are what they were
before the call. -/
theorem concatenation_fails_iff_rows_differ [Zero F] (a b : Reload.Table) (h : Reload.Heap F) :
    ((a.operatorAdd h b).1
        = .error (.invalid_argument "Конкатенация невозможна в силу разного кол-во объектов") ↔
      a.row ≠ b.row)
    ∧ ((a.operatorAddAssign h (some b)).1
        = .error (.invalid_argument "Конкатенация невозможна в силу разного кол-во объектов") ↔
      a.row ≠ b.row)
    ∧ a.operatorAddAssign h none = (.ok (), a, h)
    ∧ (a.row ≠ b.row →
        a.operatorAddAssign h (some b)
          = (.error (.invalid_argument "Конкатенация невозможна в силу разного кол-во объектов"),
             a, h)) := by
  have hne1 : Exn.out_of_range "Индекс ячейки вне диапазона."
      ≠ .invalid_argument "Конкатенация невозможна в силу разного кол-во объектов" := by
    intro hc
    cases hc
  have hne2 : Exn.vector_subscript
      ≠ .invalid_argument "Конкатенация невозможна в силу разного кол-во объектов" := by
    intro hc
    cases hc
  refine ⟨⟨?_, ?_⟩, ⟨?_, ?_⟩, ?_, ?_⟩
  · intro herr hrow
    unfold Reload.Table.operatorAdd at herr
    rw [if_neg (not_not.2 hrow)] at herr
    dsimp only at herr
    split at herr
    · rename_i e hfilled
      have he := Reload.Table.operatorAdd_loops_error a b _ e hfilled
      have hee : e = .invalid_argument "Конкатенация невозможна в силу разного кол-во объектов" := by
        injection herr
      rcases he with he | he
      · exact hne1 (he.symm.trans hee)
      · exact hne2 (he.symm.trans hee)
    · exact absurd herr (by simp)
  · intro hrow
    unfold Reload.Table.operatorAdd
    rw [if_pos hrow]
  · intro herr hrow
    unfold Reload.Table.operatorAddAssign at herr
    rw [if_neg (by simpa using hrow)] at herr
    dsimp only at herr
    split at herr
    · rename_i e hfilled
      have he := Reload.Table.operatorAddAssign_loop_error a b _ e hfilled
      have hee : e = .invalid_argument "Конкатенация невозможна в силу разного кол-во объектов" := by
        injection herr
      exact hne2 (he.symm.trans hee)
    · exact absurd herr (by simp)
  · intro hrow
    unfold Reload.Table.operatorAddAssign
    rw [if_pos (by simpa using hrow)]
  · unfold Reload.Table.operatorAddAssign
    rw [if_neg (by simp)]
  · intro hrow
    unfold Reload.Table.operatorAddAssign
    rw [if_pos (by simpa using hrow)]

theorem concatenation_fails_iff_rows_differ_witness :
    (Reload.Table.init ([] : Reload.Heap ℚ) 3 2).1.operatorAddAssign
        (Reload.Table.init ([] : Reload.Heap ℚ) 3 2).2
        (some (Reload.Table.init ([] : Reload.Heap ℚ) 2 2).1)
      = (.error (.invalid_argument "Конкатенация невозможна в силу разного кол-во объектов"),
         (Reload.Table.init ([] : Reload.Heap ℚ) 3 2).1,
         (Reload.Table.init ([] : Reload.Heap ℚ) 3 2).2) :=
  (concatenation_fails_iff_rows_differ (Reload.Table.init ([] : Reload.Heap ℚ) 3 2).1
    (Reload.Table.init ([] : Reload.Heap ℚ) 2 2).1
    (Reload.Table.init ([] : Reload.Heap ℚ) 3 2).2).2.2.2 (by decide)

end

section
variable {F : Type}

/-- The cell behind the pointer that `getCell` returns. -/
theorem Reload.Table.cellAt_of_getCell (t : Reload.Table) (h : Reload.Heap F) (i j : Nat)
    (p : Reload.Ptr) (hg : t.getCell i j = .ok p) : t.cellAt h i j = Reload.derefE h p := by
  unfold Reload.Table.getCell at hg
  split at hg
  · exact absurd hg (by simp)
  · unfold Reload.Table.cellAt
    cases hr : subscriptN t.cells i with
    | error e => rw [hr] at hg; exact absurd hg (by simp [bind, Except.bind])
    | ok row =>
      rw [hr] at hg
      have hp : subscriptN row j = .ok p := hg
      simp only [bind, Except.bind, hp]

/-- A cell that can be read stays readable, and the same, when cells are
allocated. -/
theorem Reload.derefE_append (h l : Reload.Heap F) (p : Reload.Ptr) (c : Reload.Cell F)
    (hc : Reload.derefE h p = .ok c) : Reload.derefE (h ++ l) p = .ok c := by
  unfold Reload.derefE Reload.deref at hc ⊢
  rw [List.get?_eq_getElem?] at hc ⊢
  cases hp : h[p]? with
  | none => rw [hp] at hc; exact absurd hc (by simp)
  | some x =>
    rw [hp] at hc
    have hlt : p < h.length := (List.getElem?_eq_some.1 hp).1
    rw [List.getElem?_append_left hlt, hp]
    exact hc

/-- A cell agrees with itself as soon as its number, if it is a Number,
compares equal to itself. -/
theorem Reload.cellsAgree_self [BEq F] (c : Reload.Cell F)
    (h : c.type = .NUMBER → (c.number == c.number) = true) : Reload.cellsAgree c c = true := by
  rcases c with ⟨ty, tx, nv⟩
  cases ty
  · simp [Reload.cellsAgree]
  · simp [Reload.cellsAgree]
  · simpa [Reload.cellsAgree] using h

/-- The outcome of `t == t` on a table all of whose cells agree with
themselves. -/
theorem Reload.Table.operatorEq_self [BEq F] (t : Reload.Table) (h : Reload.Heap F)
    (hcell : ∀ i j : Nat, i < t.row → j < t.column →
      ∃ c, t.cellAt h i j = .ok c ∧ Reload.cellsAgree c c = true) :
    t.operatorEq h t = .ok true := by
  unfold Reload.Table.operatorEq
  rw [if_neg (not_not.2 rfl)]
  unfold forLoopN
  rw [Reload.Table.operatorEq_outer]
  · congr 1
    simp only [Bool.true_and, List.all_eq_true, List.mem_range]
    intro i hi j hj
    obtain ⟨c, hc, hagree⟩ := hcell i j hi hj
    simp only [Reload.Table.agreeAt, hc]
    exact hagree
  · intro i hi j hj
    rw [List.mem_range] at hi hj
    obtain ⟨c, hc, -⟩ := hcell i j hi hj
    exact ⟨c, c, hc, hc⟩

/-- C19 (as the code has it): in laba_1_reload.cpp, for all tables `a` and `b`
with equal row counts, cell matrices matching their dimensions and pointers
that all point to cells, where `b` is another object than `a`: `a += b`
returns, `a` then has the same row count, a column count equal to the sum of
both column counts and the cell matrix of `a_before + b`, and
`a == (a_before + b)` is true provided every Number cell of `a` and `b` holds a
value that compares equal to itself (no NaN). When `b` is `a` itself, `a += b`
returns and leaves `a` as it was. -/
theorem concat_assign_agrees_for_other_object [Zero F] [BEq F] (a b : Reload.Table)
    (h : Reload.Heap F) (hwa : a.WF) (hwb : b.WF) (hpa : a.PtrsValid h) (hpb : b.PtrsValid h)
    (hrow : a.row = b.row) :
    ((a.operatorAddAssign h (some b)).1 = .ok () ∧
      (a.operatorAddAssign h (some b)).2.1.row = a.row ∧
      (a.operatorAddAssign h (some b)).2.1.column = a.column + b.column ∧
      ∃ t, (a.operatorAdd (a.operatorAddAssign h (some b)).2.2 b).1 = .ok t ∧
        (a.operatorAddAssign h (some b)).2.1 = t)
    ∧ ((∀ (i j : Nat) (c : Reload.Cell F), (a.cellAt h i j = .ok c ∨ b.cellAt h i j = .ok c) →
          c.type = .NUMBER → (c.number == c.number) = true) →
        a.concatTest h (some b) = .ok true)
    ∧ a.operatorAddAssign h none = (.ok (), a, h) := by
  have hassign := Reload.Table.operatorAddAssign_eq a h b hwa hwb hrow
  have hadd := Reload.Table.operatorAdd_eq a (h ++ [Reload.Cell.new]) b hwa hwb hrow
  refine ⟨?_, ?_, ?_⟩
  · rw [hassign]
    dsimp only
    rw [hadd]
    exact ⟨rfl, rfl, rfl, _, rfl, rfl⟩
  · intro hrefl
    unfold Reload.Table.concatTest
    dsimp only
    rw [hassign]
    dsimp only [Option.getD]
    rw [hadd]
    dsimp only
    apply Reload.Table.operatorEq_self
    intro i j hi hj
    have hi : i < a.row := hi
    have hj : j < a.column + b.column := hj
    obtain ⟨p, hp1, hp2⟩ := Reload.Table.getCell_zipWith a b hwa hwb hrow i j hi hj
    rw [Reload.Table.cellAt_of_getCell _ _ i j p hp1]
    by_cases hja : j < a.column
    · rw [if_pos hja] at hp2
      obtain ⟨c, hc⟩ := Reload.Table.cellAt_of_lt a h hwa hpa i j hi hja
      have hd : Reload.derefE h p = .ok c := by
        rw [← Reload.Table.cellAt_of_getCell a h i j p hp2]
        exact hc
      refine ⟨c, ?_, Reload.cellsAgree_self c (hrefl i j c (Or.inl hc))⟩
      rw [List.append_assoc]
      exact Reload.derefE_append h _ p c hd
    · rw [if_neg hja] at hp2
      obtain ⟨c, hc⟩ := Reload.Table.cellAt_of_lt b h hwb hpb i (j - a.column) (by omega)
        (by omega)
      have hd : Reload.derefE h p = .ok c := by
        rw [← Reload.Table.cellAt_of_getCell b h i (j - a.column) p hp2]
        exact hc
      refine ⟨c, ?_, Reload.cellsAgree_self c (hrefl i (j - a.column) c (Or.inr hc))⟩
      rw [List.append_assoc]
      exact Reload.derefE_append h _ p c hd
  · unfold Reload.Table.operatorAddAssign
    rw [if_neg (by simp)]

theorem concat_assign_agrees_for_other_object_witness :
    Reload.testTableLast.1.concatTest Reload.testTableLast.2 (some Reload.testTableLast.1)
      = .ok true :=
  (concat_assign_agrees_for_other_object Reload.testTableLast.1 Reload.testTableLast.1
    Reload.testTableLast.2 (by decide) (by decide) (by decide) (by decide) rfl).2.1
    (fun _ _ c _ _ => by
      show decide (c.number = c.number) = true
      exact decide_eq_true rfl)

/-- In-place concatenation against the self-assignment test and NaN: when `b`
is `a` itself, `a += b` returns at the self-assignment test, so the 3x2 table
of `testTable` keeps 2 columns instead of 4 and `a == (a_before + b)` is false;
and for two distinct 1x1 tables holding NaN `a == (a_before + b)` is false. -/
theorem concat_assign_counterexample :
    (Reload.testTableLast.1.operatorAddAssign Reload.testTableLast.2 none).2.1.column
        ≠ Reload.testTableLast.1.column + Reload.testTableLast.1.column
    ∧ Reload.testTableLast.1.concatTest Reload.testTableLast.2 none = .ok false
    ∧ Reload.nanTable.1.concatTest Reload.nanTable.2 (some Reload.nanTable.1) = .ok false := by
  refine ⟨by decide!, by decide!, by decide⟩

end

section
variable {F : Type}

/-- What `cellsAgree` says, in words of the kinds and payloads. -/
theorem Reload.cellsAgree_iff [BEq F] (a b : Reload.Cell F) :
    Reload.cellsAgree a b = true ↔
      a.getType = b.getType ∧ (a.getType = .TEXT → a.text = b.text) ∧
        (a.getType = .NUMBER → (a.number == b.number) = true) := by
  rcases a with ⟨ta, xa, na⟩
  rcases b with ⟨tb, xb, nb⟩
  cases ta <;> cases tb <;> simp [Reload.cellsAgree, Reload.Cell.getType]

/-- C20: in laba_1_reload.cpp, for all tables `a` and `b` whose cell matrices
match their dimensions (and whose pointers all point to cells), `a == b`
returns, and it returns true exactly when `a.getSize()` equals `b.getSize()`
and at every `(i,j)` with `i < row`, `j < column` the two cells have the same
kind, equal texts when that kind is Text and numbers that compare equal with
`==` when it is Number. So one position where the cells do not agree, wherever
it lies, makes the result false: a later agreeing cell never sets `flag` back. -/
theorem table_equality_iff [BEq F] (a b : Reload.Table) (h : Reload.Heap F) (hwa : a.WF)
    (hwb : b.WF) (hpa : a.PtrsValid h) (hpb : b.PtrsValid h) :
    ∃ r, a.operatorEq h b = .ok r ∧
      (r = true ↔
        a.getSize = b.getSize ∧
        ∀ i j : Nat, i < a.row → j < a.column →
          ∃ ca cb, a.cellAt h i j = .ok ca ∧ b.cellAt h i j = .ok cb ∧
            ca.getType = cb.getType ∧ (ca.getType = .TEXT → ca.text = cb.text) ∧
            (ca.getType = .NUMBER → (ca.number == cb.number) = true)) ∧
      ((∃ i j : Nat, i < a.row ∧ j < a.column ∧ a.agreeAt h b i j = false) → r = false) := by
  refine ⟨_, Reload.Table.operatorEq_eq a b h hwa hwb hpa hpb, ?_, ?_⟩
  · simp only [Bool.and_eq_true, decide_eq_true_eq, List.all_eq_true, List.mem_range]
    constructor
    · rintro ⟨hsize, hall⟩
      refine ⟨hsize, ?_⟩
      intro i j hi hj
      have hrc : a.row = b.row ∧ a.column = b.column := Prod.mk.inj hsize
      obtain ⟨ca, hca⟩ := Reload.Table.cellAt_of_lt a h hwa hpa i j hi hj
      obtain ⟨cb, hcb⟩ := Reload.Table.cellAt_of_lt b h hwb hpb i j (by omega) (by omega)
      have hag := hall i hi j hj
      simp only [Reload.Table.agreeAt, hca, hcb] at hag
      exact ⟨ca, cb, hca, hcb, (Reload.cellsAgree_iff ca cb).1 hag⟩
    · rintro ⟨hsize, hall⟩
      refine ⟨hsize, ?_⟩
      intro i hi j hj
      obtain ⟨ca, cb, hca, hcb, hrest⟩ := hall i j hi hj
      simp only [Reload.Table.agreeAt, hca, hcb]
      exact (Reload.cellsAgree_iff ca cb).2 hrest
  · rintro ⟨i, j, hi, hj, hbad⟩
    rw [Bool.and_eq_false_iff]
    right
    rw [List.all_eq_false]
    refine ⟨i, List.mem_range.2 hi, ?_⟩
    rw [Bool.not_eq_true, List.all_eq_false]
    exact ⟨j, List.mem_range.2 hj, by rw [hbad]; decide⟩

theorem table_equality_iff_witness :
    Reload.testTableLast.1.operatorEq Reload.testTableLastChanged.2 Reload.testTableLastChanged.1
      = .ok false := by
  obtain ⟨r, hr, -, hfalse⟩ := table_equality_iff Reload.testTableLast.1
    Reload.testTableLastChanged.1 Reload.testTableLastChanged.2 (by decide) (by decide)
    (by decide) (by decide)
  rw [hr, hfalse ⟨0, 0, by decide, by decide, by decide!⟩]

end

/-! ## Equality of tables: reflexivity, symmetry, sensitivity (laba_1_reload.cpp) -/

section
variable {F : Type}

/-- C21 (as the code has it): in laba_1_reload.cpp, for every table `t` (cell
matrix matching its dimensions, no null pointer): if none of its Number cells
holds a value that compares unequal to itself, that is NaN, then `t == t` is
true and `t == c` is true for a copy `c` of `t`; and if some Number cell of
the grid holds a value that compares unequal to itself, then `t == t` and
`t == c` return false. -/
theorem equality_reflexive_without_nan [BEq F] (t : Reload.Table) (h : Reload.Heap F)
    (hwf : t.WF) (hp : t.PtrsValid h) :
    ((∀ (i j : Nat) (c : Reload.Cell F), t.cellAt h i j = .ok c → c.type = .NUMBER →
        (c.number == c.number) = true) →
      t.operatorEq h t = .ok true ∧ t.operatorEq h t.copy = .ok true)
    ∧ ((∃ (i j : Nat) (c : Reload.Cell F), i < t.row ∧ j < t.column ∧ t.cellAt h i j = .ok c ∧
          c.type = .NUMBER ∧ (c.number == c.number) = false) →
      t.operatorEq h t = .ok false ∧ t.operatorEq h t.copy = .ok false) := by
  constructor
  · intro hrefl
    have hself : t.operatorEq h t = .ok true := by
      apply Reload.Table.operatorEq_self
      intro i j hi hj
      obtain ⟨c, hc⟩ := Reload.Table.cellAt_of_lt t h hwf hp i j hi hj
      exact ⟨c, hc, Reload.cellsAgree_self c (hrefl i j c hc)⟩
    exact ⟨hself, hself⟩
  · rintro ⟨i, j, c, hi, hj, hc, hnum, hnan⟩
    have hself : t.operatorEq h t = .ok false := by
      rw [Reload.Table.operatorEq_eq t t h hwf hwf hp hp]
      congr 1
      rw [Bool.and_eq_false_iff]
      right
      rw [List.all_eq_false]
      refine ⟨i, List.mem_range.2 hi, ?_⟩
      rw [Bool.not_eq_true, List.all_eq_false]
      refine ⟨j, List.mem_range.2 hj, ?_⟩
      simp [Reload.Table.agreeAt, hc, Reload.cellsAgree, hnum, hnan]
    exact ⟨hself, hself⟩

theorem equality_reflexive_without_nan_witness :
    (Reload.testTableLast.1.operatorEq Reload.testTableLast.2 Reload.testTableLast.1 = .ok true
      ∧ Reload.testTableLast.1.operatorEq Reload.testTableLast.2 Reload.testTableLast.1.copy
          = .ok true)
    ∧ (Reload.nanTable.1.operatorEq Reload.nanTable.2 Reload.nanTable.1 = .ok false
      ∧ Reload.nanTable.1.operatorEq Reload.nanTable.2 Reload.nanTable.1.copy = .ok false) :=
  ⟨(equality_reflexive_without_nan Reload.testTableLast.1 Reload.testTableLast.2 (by decide)
      (by decide)).1 (fun _ _ c _ _ => by
        show decide (c.number = c.number) = true
        exact decide_eq_true rfl),
    (equality_reflexive_without_nan Reload.nanTable.1 Reload.nanTable.2 (by decide)
      (by decide)).2 ⟨0, 0, ⟨.NUMBER, "", Dbl.nan⟩, by decide, by decide, by decide, rfl, rfl⟩⟩

/-- Equality against NaN: the 1x1 table whose cell was set to NaN is not equal
to itself, nor to its copy. -/
theorem equality_reflexive_counterexample :
    Reload.nanTable.1.operatorEq Reload.nanTable.2 Reload.nanTable.1 = .ok false
    ∧ Reload.nanTable.1.operatorEq Reload.nanTable.2 Reload.nanTable.1.copy = .ok false := by
  refine ⟨by decide, by decide⟩

/-- When `==` on numbers is symmetric, so is the agreement of two cells. -/
theorem Reload.cellsAgree_comm [BEq F] (hsymm : ∀ x y : F, (x == y) = (y == x))
    (a b : Reload.Cell F) : Reload.cellsAgree a b = Reload.cellsAgree b a := by
  rcases a with ⟨ta, xa, na⟩
  rcases b with ⟨tb, xb, nb⟩
  cases ta <;> cases tb <;> simp [Reload.cellsAgree, hsymm na nb, eq_comm]

theorem Reload.Table.agreeAt_comm [BEq F] (hsymm : ∀ x y : F, (x == y) = (y == x))
    (a b : Reload.Table) (h : Reload.Heap F) (i j : Nat) :
    a.agreeAt h b i j = b.agreeAt h a i j := by
  unfold Reload.Table.agreeAt
  cases ha : a.cellAt h i j <;> cases hb : b.cellAt h i j <;> simp
  exact Reload.cellsAgree_comm hsymm _ _

/-- C22: in laba_1_reload.cpp, for all tables `a` and `b` whose cell matrices
match their dimensions (no null pointer), `a == b` and `b == a` return, and
return the same boolean; the comparison `==` of two `double`s is taken to be
symmetric. -/
theorem equality_symmetric [BEq F] (a b : Reload.Table) (h : Reload.Heap F) (hwa : a.WF)
    (hwb : b.WF) (hpa : a.PtrsValid h) (hpb : b.PtrsValid h)
    (hsymm : ∀ x y : F, (x == y) = (y == x)) :
    ∃ r, a.operatorEq h b = .ok r ∧ b.operatorEq h a = .ok r := by
  refine ⟨_, Reload.Table.operatorEq_eq a b h hwa hwb hpa hpb, ?_⟩
  rw [Reload.Table.operatorEq_eq b a h hwb hwa hpb hpa]
  congr 1
  by_cases hsize : a.getSize = b.getSize
  · have hrc : a.row = b.row ∧ a.column = b.column := Prod.mk.inj hsize
    rw [← hrc.1, ← hrc.2]
    simp only [hsize, decide_True, Bool.true_and, Reload.Table.agreeAt_comm hsymm b a h]
  · have hsize' : ¬ b.getSize = a.getSize := fun hh => hsize hh.symm
    simp [hsize, hsize']

theorem equality_symmetric_witness :
    ∃ r, Reload.testTableLast.1.operatorEq Reload.testTableLastChanged.2
            Reload.testTableLastChanged.1 = .ok r ∧
         Reload.testTableLastChanged.1.operatorEq Reload.testTableLastChanged.2
            Reload.testTableLast.1 = .ok r :=
  equality_symmetric Reload.testTableLast.1 Reload.testTableLastChanged.1
    Reload.testTableLastChanged.2 (by decide) (by decide) (by decide) (by decide)
    (fun x y => by
      show decide (x = y) = decide (y = x)
      exact decide_eq_decide.2 eq_comm)

end

theorem subscriptN_set_ne {α : Type} (v : List α) (i k : Nat) (x : α) (hne : i ≠ k) :
    subscriptN (v.set k x) i = subscriptN v i := by
  unfold subscriptN
  rw [List.get?_eq_getElem?, List.get?_eq_getElem?, List.getElem?_set_ne (Ne.symm hne)]

section
variable {F : Type}

/-- The outcome of `setCell(rows, col, text)` on a table of the right shape at
valid coordinates: the slot holds the address of a new Text cell. -/
theorem Reload.Table.setCellText_valid (t : Reload.Table) (h : Reload.Heap F) (hwf : t.WF)
    (r c : Nat) (s : String) (x : F) (hr : r < t.row) (hc : c < t.column) :
    ∃ row, subscriptN t.cells r = .ok row ∧ c < row.length ∧
      t.setCellText h r c s x = (.ok (),
        { t with cells := t.cells.set r (row.set c h.length) }, h ++ [Reload.Cell.ofText s x]) := by
  obtain ⟨row, hrow, hmem⟩ := subscriptN_of_lt t.cells r (by rw [hwf.1]; exact hr)
  have hlen : c < row.length := by rw [hwf.2 row hmem]; exact hc
  obtain ⟨p, hp, -⟩ := subscriptN_of_lt row c hlen
  refine ⟨row, hrow, hlen, ?_⟩
  unfold Reload.Table.setCellText
  rw [if_neg (by omega)]
  dsimp only [Reload.make_shared]
  rw [hrow]
  dsimp only
  rw [hp]

/-- The write `cells[r][c] = p` keeps the shape of the matrix. -/
theorem Reload.Table.set_ptr_WF (t : Reload.Table) (hwf : t.WF) (r c : Nat) (row : List Reload.Ptr)
    (p : Reload.Ptr) (hrow : subscriptN t.cells r = .ok row) :
    Reload.Table.WF { t with cells := t.cells.set r (row.set c p) } := by
  have hmem : row ∈ t.cells := List.getElem?_mem (getElem?_of_subscriptN _ _ _ hrow)
  constructor
  · show (t.cells.set r (row.set c p)).length = t.row
    rw [List.length_set]
    exact hwf.1
  · intro x hx
    rcases List.mem_or_eq_of_mem_set hx with hm | hm
    · exact hwf.2 x hm
    · rw [hm, List.length_set]
      exact hwf.2 row hmem

/-- Reading the slot `(r,c)` after the write `cells[r][c] = p`. -/
theorem Reload.Table.getCell_set_self (t : Reload.Table) (r c : Nat) (row : List Reload.Ptr)
    (p : Reload.Ptr) (hrow : subscriptN t.cells r = .ok row) (hlen : c < row.length)
    (hr : r < t.row) (hc : c < t.column) :
    Reload.Table.getCell { t with cells := t.cells.set r (row.set c p) } r c = .ok p := by
  have hrlt : r < t.cells.length :=
    (List.getElem?_eq_some.1 (getElem?_of_subscriptN _ _ _ hrow)).1
  unfold Reload.Table.getCell
  dsimp only
  rw [if_neg (by omega), subscriptN_set_self t.cells r _ hrlt]
  exact subscriptN_set_self row c p hlen

/-- Reading another slot after the write `cells[r][c] = p`. -/
theorem Reload.Table.getCell_set_ne (t : Reload.Table) (r c i j : Nat) (row : List Reload.Ptr)
    (p : Reload.Ptr) (hrow : subscriptN t.cells r = .ok row) (hne : ¬ (i = r ∧ j = c)) :
    Reload.Table.getCell { t with cells := t.cells.set r (row.set c p) } i j = t.getCell i j := by
  have hrlt : r < t.cells.length :=
    (List.getElem?_eq_some.1 (getElem?_of_subscriptN _ _ _ hrow)).1
  unfold Reload.Table.getCell
  dsimp only
  by_cases hbad : i ≥ t.row ∨ j ≥ t.column
  · rw [if_pos hbad, if_pos hbad]
  · rw [if_neg hbad, if_neg hbad]
    by_cases hi : i = r
    · subst hi
      have hj : j ≠ c := fun hh => hne ⟨rfl, hh⟩
      rw [subscriptN_set_self t.cells i _ hrlt, hrow]
      exact subscriptN_set_ne row j c p hj
    · rw [subscriptN_set_ne t.cells i r _ hi]

/-- Pointers that point to cells still do after an allocation. -/
theorem Reload.Table.PtrsValid_append (t : Reload.Table) (h l : Reload.Heap F)
    (hp : t.PtrsValid h) : t.PtrsValid (h ++ l) := by
  intro row hrow p hpm
  have hlt : p < h.length := hp row hrow p hpm
  rw [List.length_append]
  exact Nat.lt_of_lt_of_le hlt (Nat.le_add_right _ _)

/-- After the write `cells[r][c] = make_shared<Cell>(...)` every pointer of the
matrix points to a cell of the extended store. -/
theorem Reload.Table.PtrsValid_set (t : Reload.Table) (h : Reload.Heap F) (x : Reload.Cell F)
    (hp : t.PtrsValid h) (r c : Nat) (row : List Reload.Ptr)
    (hrow : subscriptN t.cells r = .ok row) :
    Reload.Table.PtrsValid { t with cells := t.cells.set r (row.set c h.length) } (h ++ [x]) := by
  have hmem : row ∈ t.cells := List.getElem?_mem (getElem?_of_subscriptN _ _ _ hrow)
  intro y hy p hpm
  have hy : y ∈ t.cells.set r (row.set c h.length) := hy
  rw [List.length_append, List.length_singleton]
  rcases List.mem_or_eq_of_mem_set hy with hm | hm
  · exact Nat.lt_succ_of_lt (hp y hm p hpm)
  · rw [hm] at hpm
    rcases List.mem_or_eq_of_mem_set hpm with hq | hq
    · exact Nat.lt_succ_of_lt (hp row hmem p hq)
    · rw [hq]
      exact Nat.lt_succ_self _

/-- A cell that could be read is read the same after an allocation. -/
theorem Reload.Table.cellAt_append (t : Reload.Table) (h l : Reload.Heap F) (i j : Nat)
    (c : Reload.Cell F) (hc : t.cellAt h i j = .ok c) : t.cellAt (h ++ l) i j = .ok c := by
  unfold Reload.Table.cellAt at hc ⊢
  cases hr : subscriptN t.cells i with
  | error e => rw [hr] at hc; exact absurd hc (by simp [bind, Except.bind])
  | ok row =>
    rw [hr] at hc
    cases hq : subscriptN row j with
    | error e =>
      simp only [bind, Except.bind, hq] at hc
      exact absurd hc (by simp)
    | ok p =>
      simp only [bind, Except.bind, hq] at hc ⊢
      exact Reload.derefE_append h l p c hc

/-- The cell at `(r,c)` after the write `cells[r][c] = make_shared<Cell>(x)`. -/
theorem Reload.Table.cellAt_set_self (t : Reload.Table) (h : Reload.Heap F) (x : Reload.Cell F)
    (r c : Nat) (row : List Reload.Ptr) (hrow : subscriptN t.cells r = .ok row)
    (hlen : c < row.length) (hr : r < t.row) (hc : c < t.column) :
    Reload.Table.cellAt { t with cells := t.cells.set r (row.set c h.length) } (h ++ [x]) r c
      = .ok x := by
  rw [Reload.Table.cellAt_of_getCell _ _ r c h.length
    (Reload.Table.getCell_set_self t r c row h.length hrow hlen hr hc)]
  unfold Reload.derefE
  rw [Reload.deref_append_length]

end

section
variable {F : Type}

/-- A table and the table obtained from it by pointing the slot `(r,c)` to a
new cell that does not agree with the old one are not equal, in either order. -/
theorem Reload.Table.operatorEq_set_false [BEq F] (t : Reload.Table) (h : Reload.Heap F)
    (hwf : t.WF) (hp : t.PtrsValid h) (r c : Nat) (hr : r < t.row) (hc : c < t.column)
    (row : List Reload.Ptr) (hrow : subscriptN t.cells r = .ok row) (hlen : c < row.length)
    (old new : Reload.Cell F) (hold : t.cellAt h r c = .ok old)
    (h1 : Reload.cellsAgree old new = false) (h2 : Reload.cellsAgree new old = false) :
    t.operatorEq (h ++ [new]) { t with cells := t.cells.set r (row.set c h.length) } = .ok false
    ∧ Reload.Table.operatorEq { t with cells := t.cells.set r (row.set c h.length) }
        (h ++ [new]) t = .ok false := by
  have hwf' := Reload.Table.set_ptr_WF t hwf r c row h.length hrow
  have hp1 := Reload.Table.PtrsValid_append t h [new] hp
  have hp2 := Reload.Table.PtrsValid_set t h new hp r c row hrow
  have hold' := Reload.Table.cellAt_append t h [new] r c old hold
  have hnew := Reload.Table.cellAt_set_self t h new r c row hrow hlen hr hc
  constructor
  · rw [Reload.Table.operatorEq_eq t _ _ hwf hwf' hp1 hp2]
    congr 1
    rw [Bool.and_eq_false_iff]
    right
    rw [List.all_eq_false]
    refine ⟨r, List.mem_range.2 hr, ?_⟩
    rw [Bool.not_eq_true, List.all_eq_false]
    refine ⟨c, List.mem_range.2 hc, ?_⟩
    simp only [Reload.Table.agreeAt, hold', hnew, h1]
    decide
  · rw [Reload.Table.operatorEq_eq _ t _ hwf' hwf hp2 hp1]
    congr 1
    rw [Bool.and_eq_false_iff]
    right
    rw [List.all_eq_false]
    refine ⟨r, List.mem_range.2 hr, ?_⟩
    rw [Bool.not_eq_true, List.all_eq_false]
    refine ⟨c, List.mem_range.2 hc, ?_⟩
    simp only [Reload.Table.agreeAt, hold', hnew, h2]
    decide

/-- C23: in laba_1_reload.cpp, for every table `t` (cell matrix matching its
dimensions, no null pointer), every valid coordinate `(r,c)`, holding the cell
`old`, and every new value that differs from `old` in kind or in payload (a
number `v` when `old` is not a Number or `old.number == v` is false; a text `s`
when `old` is not a Text or its text is not `s`), the table obtained by copying
`t` and calling `setCell(r,c,value)` on the copy is not equal to `t`:
`t == copy` and `copy == t` both return false. The comparison `==` of two
`double`s is taken to be symmetric. -/
theorem equality_detects_changed_cell [BEq F] (t : Reload.Table) (h : Reload.Heap F)
    (hwf : t.WF) (hp : t.PtrsValid h) (r c : Nat) (hr : r < t.row) (hc : c < t.column)
    (old : Reload.Cell F) (hold : t.cellAt h r c = .ok old)
    (hsymm : ∀ x y : F, (x == y) = (y == x)) :
    (∀ v : F, (old.type ≠ .NUMBER ∨ (old.number == v) = false) →
        (t.copy.setCellNumber h r c v).1 = .ok () ∧
        t.operatorEq (t.copy.setCellNumber h r c v).2.2 (t.copy.setCellNumber h r c v).2.1
          = .ok false ∧
        (t.copy.setCellNumber h r c v).2.1.operatorEq (t.copy.setCellNumber h r c v).2.2 t
          = .ok false)
    ∧ (∀ (s : String) (x : F), (old.type ≠ .TEXT ∨ old.text ≠ s) →
        (t.copy.setCellText h r c s x).1 = .ok () ∧
        t.operatorEq (t.copy.setCellText h r c s x).2.2 (t.copy.setCellText h r c s x).2.1
          = .ok false ∧
        (t.copy.setCellText h r c s x).2.1.operatorEq (t.copy.setCellText h r c s x).2.2 t
          = .ok false) := by
  have hcopy : t.copy = t := rfl
  rw [hcopy]
  constructor
  · intro v hdiff
    obtain ⟨row, hrow, hlen, hset⟩ := Reload.Table.setCellNumber_valid t h hwf r c v hr hc
    rw [hset]
    have h1 : Reload.cellsAgree old (Reload.Cell.ofNumber v) = false := by
      rcases old with ⟨ty, tx, nv⟩
      cases ty <;> simp [Reload.cellsAgree, Reload.Cell.ofNumber] at hdiff ⊢
      exact hdiff
    have h2 : Reload.cellsAgree (Reload.Cell.ofNumber v) old = false := by
      rw [Reload.cellsAgree_comm hsymm]
      exact h1
    exact ⟨rfl, Reload.Table.operatorEq_set_false t h hwf hp r c hr hc row hrow hlen old _ hold
      h1 h2⟩
  · intro s x hdiff
    obtain ⟨row, hrow, hlen, hset⟩ := Reload.Table.setCellText_valid t h hwf r c s x hr hc
    rw [hset]
    have h1 : Reload.cellsAgree old (Reload.Cell.ofText s x) = false := by
      rcases old with ⟨ty, tx, nv⟩
      cases ty <;> simp [Reload.cellsAgree, Reload.Cell.ofText] at hdiff ⊢
      exact hdiff
    have h2 : Reload.cellsAgree (Reload.Cell.ofText s x) old = false := by
      rw [Reload.cellsAgree_comm hsymm]
      exact h1
    exact ⟨rfl, Reload.Table.operatorEq_set_false t h hwf hp r c hr hc row hrow hlen old _ hold
      h1 h2⟩

theorem equality_detects_changed_cell_witness :
    Reload.testTableLast.1.operatorEq
        (Reload.testTableLast.1.copy.setCellNumber Reload.testTableLast.2 1 0 7).2.2
        (Reload.testTableLast.1.copy.setCellNumber Reload.testTableLast.2 1 0 7).2.1 = .ok false
    ∧ (Reload.testTableLast.1.copy.setCellText Reload.testTableLast.2 0 0 "Z" 0).2.1.operatorEq
        (Reload.testTableLast.1.copy.setCellText Reload.testTableLast.2 0 0 "Z" 0).2.2
        Reload.testTableLast.1 = .ok false :=
  ⟨((equality_detects_changed_cell Reload.testTableLast.1 Reload.testTableLast.2 (by decide)
      (by decide) 1 0 (by decide) (by decide) (Reload.Cell.ofNumber 2.5) (by decide!)
      (fun x y => by
        show decide (x = y) = decide (y = x)
        exact decide_eq_decide.2 eq_comm)).1 7 (Or.inr (by decide!))).2.1,
    ((equality_detects_changed_cell Reload.testTableLast.1 Reload.testTableLast.2 (by decide)
      (by decide) 0 0 (by decide) (by decide) (Reload.Cell.ofText "A" 0) (by decide!)
      (fun x y => by
        show decide (x = y) = decide (y = x)
        exact decide_eq_decide.2 eq_comm)).2 "Z" 0 (Or.inr (by decide))).2.2⟩

end

/-! ## Empty text, frame of the setters and shared cells -/

section
variable {F : Type}

/-- C24 (as the code has it): laba_1_reload.cpp has no empty-text check.
`Cell("")` and `Cell::setText("")` yield a cell of kind Text whose `getText`
returns the empty string, and `Table::setCell(r,c,"")` at valid coordinates (of
a table whose cell matrix matches its dimensions) returns and leaves such a
cell at `(r,c)`; `setCell` throws only `out_of_range`, for coordinates that are
not valid. -/
theorem empty_text_is_accepted :
    (∀ x : F, (Reload.Cell.ofText "" x).getType = .TEXT ∧
        (Reload.Cell.ofText "" x).getText = .ok "")
    ∧ (∀ c : Reload.Cell F, (c.setText "").getType = .TEXT ∧ (c.setText "").getText = .ok "")
    ∧ (∀ (t : Reload.Table) (h : Reload.Heap F) (r c : Nat) (x : F), t.WF → r < t.row →
        c < t.column →
        (t.setCellText h r c "" x).1 = .ok () ∧
        ∃ cell, (t.setCellText h r c "" x).2.1.cellAt (t.setCellText h r c "" x).2.2 r c
            = .ok cell ∧ cell.getType = .TEXT ∧ cell.getText = .ok "")
    ∧ (∀ (t : Reload.Table) (h : Reload.Heap F) (r c : Nat) (x : F),
        (r ≥ t.row ∨ c ≥ t.column) →
        t.setCellText h r c "" x = (.error (.out_of_range "Индекс ячейки вне диапазона."), t, h)) := by
  refine ⟨fun _ => ⟨rfl, rfl⟩, fun _ => ⟨rfl, rfl⟩, ?_, ?_⟩
  · intro t h r c x hwf hr hc
    obtain ⟨row, hrow, hlen, hset⟩ := Reload.Table.setCellText_valid t h hwf r c "" x hr hc
    rw [hset]
    exact ⟨rfl, Reload.Cell.ofText "" x,
      Reload.Table.cellAt_set_self t h _ r c row hrow hlen hr hc, rfl, rfl⟩
  · intro t h r c x hbad
    unfold Reload.Table.setCellText
    rw [if_pos hbad]

theorem empty_text_is_accepted_witness :
    ((Reload.Table.init ([] : Reload.Heap ℚ) 1 1).1.setCellText
        (Reload.Table.init ([] : Reload.Heap ℚ) 1 1).2 0 0 "" 0).1 = .ok () :=
  (empty_text_is_accepted.2.2.1 (Reload.Table.init ([] : Reload.Heap ℚ) 1 1).1
    (Reload.Table.init ([] : Reload.Heap ℚ) 1 1).2 0 0 0 (by decide) (by decide) (by decide)).1

/-- The empty string is not rejected in laba_1_reload.cpp: on a fresh 1x1 table
`setCell(0, 0, "")` returns and the cell read at (0,0) afterwards is a Text
cell holding the empty string; `Cell("")` and `setText("")` on an Empty cell
give such a cell too. -/
theorem empty_text_counterexample :
    ((Reload.Table.init ([] : Reload.Heap ℚ) 1 1).1.setCellText
        (Reload.Table.init ([] : Reload.Heap ℚ) 1 1).2 0 0 "" 0).1 = .ok ()
    ∧ ((Reload.Table.init ([] : Reload.Heap ℚ) 1 1).1.setCellText
        (Reload.Table.init ([] : Reload.Heap ℚ) 1 1).2 0 0 "" 0).2.1.cellAt
        ((Reload.Table.init ([] : Reload.Heap ℚ) 1 1).1.setCellText
          (Reload.Table.init ([] : Reload.Heap ℚ) 1 1).2 0 0 "" 0).2.2 0 0
        = .ok ⟨.TEXT, "", 0⟩
    ∧ (Reload.Cell.ofText "" 0 : Reload.Cell ℚ) = ⟨.TEXT, "", 0⟩
    ∧ (Reload.Cell.new : Reload.Cell ℚ).setText "" = ⟨.TEXT, "", 0⟩ := by
  refine ⟨by decide, by decide, rfl, rfl⟩

end

section
variable {F : Type}

/-- What a successful `setNumber` did. -/
theorem Laba1.Table.setNumber_ok (t : Laba1.Table F) (r c : Int) (v : F)
    (h : (t.setNumber r c v).1 = .ok ()) :
    ∃ row cell, subscript t.cells r = .ok row ∧ subscript row c = .ok cell ∧
      t.setNumber r c v = (.ok (),
        { t with cells := t.cells.set r.toNat (row.set c.toNat (cell.setNumber v)) }) := by
  unfold Laba1.Table.setNumber at h ⊢
  cases hvc : t.validateCoordinates r c with
  | error e => rw [hvc] at h; exact absurd h (by simp)
  | ok u =>
    rw [hvc] at h
    dsimp only at h ⊢
    cases hrow : subscript t.cells r with
    | error e => rw [hrow] at h; exact absurd h (by simp)
    | ok row =>
      rw [hrow] at h
      dsimp only at h ⊢
      cases hcell : subscript row c with
      | error e => rw [hcell] at h; exact absurd h (by simp)
      | ok cell => exact ⟨row, cell, rfl, hcell, rfl⟩

/-- What a successful `setText` did. -/
theorem Laba1.Table.setText_ok (t : Laba1.Table F) (r c : Int) (s : String)
    (h : (t.setText r c s).1 = .ok ()) :
    ∃ row cell, subscript t.cells r = .ok row ∧ subscript row c = .ok cell ∧
      t.setText r c s = (.ok (),
        { t with cells := t.cells.set r.toNat (row.set c.toNat (cell.setText s).2) }) := by
  unfold Laba1.Table.setText at h ⊢
  cases hvc : t.validateCoordinates r c with
  | error e => rw [hvc] at h; exact absurd h (by simp)
  | ok u =>
    rw [hvc] at h
    dsimp only at h ⊢
    cases hrow : subscript t.cells r with
    | error e => rw [hrow] at h; exact absurd h (by simp)
    | ok row =>
      rw [hrow] at h
      dsimp only at h ⊢
      cases hcell : subscript row c with
      | error e => rw [hcell] at h; exact absurd h (by simp)
      | ok cell =>
        rw [hcell] at h
        dsimp only at h
        refine ⟨row, cell, rfl, hcell, ?_⟩
        dsimp only
        rw [h]

/-- Reading another coordinate through `getCell` after the write
`cells[r][c] = x`. -/
theorem Laba1.Table.getCell_at_other (t : Laba1.Table F) (r c i j : Int)
    (row : List (Laba1.Cell F)) (cell x : Laba1.Cell F) (hrow : subscript t.cells r = .ok row)
    (hcell : subscript row c = .ok cell) (hne : ¬ (i = r ∧ j = c)) :
    Laba1.Table.getCell { t with cells := t.cells.set r.toNat (row.set c.toNat x) } i j
      = t.getCell i j := by
  unfold Laba1.Table.getCell
  rw [Laba1.Table.at_set_ne t r c i j row cell x hrow hcell hne]
  rfl

/-- What a successful `setCell(rows, col, value)` did. -/
theorem Reload.Table.setCellNumber_ok (t : Reload.Table) (h : Reload.Heap F) (r c : Nat) (v : F)
    (hok : (t.setCellNumber h r c v).1 = .ok ()) :
    ∃ row, subscriptN t.cells r = .ok row ∧
      t.setCellNumber h r c v = (.ok (),
        { t with cells := t.cells.set r (row.set c h.length) }, h ++ [Reload.Cell.ofNumber v]) := by
  unfold Reload.Table.setCellNumber at hok ⊢
  by_cases hbad : r ≥ t.row ∨ c ≥ t.column
  · rw [if_pos hbad] at hok
    exact absurd hok (by simp)
  · rw [if_neg hbad] at hok ⊢
    dsimp only [Reload.make_shared] at hok ⊢
    cases hrow : subscriptN t.cells r with
    | error e => rw [hrow] at hok; exact absurd hok (by simp)
    | ok row =>
      rw [hrow] at hok
      dsimp only at hok ⊢
      cases hq : subscriptN row c with
      | error e => rw [hq] at hok; exact absurd hok (by simp)
      | ok p => exact ⟨row, rfl, rfl⟩

/-- What a successful `setCell(rows, col, text)` did. -/
theorem Reload.Table.setCellText_ok (t : Reload.Table) (h : Reload.Heap F) (r c : Nat)
    (s : String) (x : F) (hok : (t.setCellText h r c s x).1 = .ok ()) :
    ∃ row, subscriptN t.cells r = .ok row ∧
      t.setCellText h r c s x = (.ok (),
        { t with cells := t.cells.set r (row.set c h.length) }, h ++ [Reload.Cell.ofText s x]) := by
  unfold Reload.Table.setCellText at hok ⊢
  by_cases hbad : r ≥ t.row ∨ c ≥ t.column
  · rw [if_pos hbad] at hok
    exact absurd hok (by simp)
  · rw [if_neg hbad] at hok ⊢
    dsimp only [Reload.make_shared] at hok ⊢
    cases hrow : subscriptN t.cells r with
    | error e => rw [hrow] at hok; exact absurd hok (by simp)
    | ok row =>
      rw [hrow] at hok
      dsimp only at hok ⊢
      cases hq : subscriptN row c with
      | error e => rw [hq] at hok; exact absurd hok (by simp)
      | ok p => exact ⟨row, rfl, rfl⟩

/-- Reading a cell at another coordinate after the write
`cells[r][c] = make_shared<Cell>(x)`. -/
theorem Reload.Table.cellAt_set_ne (t : Reload.Table) (h : Reload.Heap F) (x : Reload.Cell F)
    (r c i j : Nat) (row : List Reload.Ptr) (hrow : subscriptN t.cells r = .ok row)
    (hne : ¬ (i = r ∧ j = c)) (cell : Reload.Cell F) (hcell : t.cellAt h i j = .ok cell) :
    Reload.Table.cellAt { t with cells := t.cells.set r (row.set c h.length) } (h ++ [x]) i j
      = .ok cell := by
  have happ := Reload.Table.cellAt_append t h [x] i j cell hcell
  have hrlt : r < t.cells.length :=
    (List.getElem?_eq_some.1 (getElem?_of_subscriptN _ _ _ hrow)).1
  unfold Reload.Table.cellAt at happ ⊢
  dsimp only
  by_cases hi : i = r
  · subst hi
    have hj : j ≠ c := fun hh => hne ⟨rfl, hh⟩
    rw [hrow] at happ
    rw [subscriptN_set_self t.cells i _ hrlt]
    have hsub : subscriptN (row.set c h.length) j = subscriptN row j :=
      subscriptN_set_ne row j c _ hj
    simp only [bind, Except.bind, hsub] at happ ⊢
    exact happ
  · rw [subscriptN_set_ne t.cells i r _ hi]
    exact happ

/-- C29: a successful setter changes only the cell it is called for. In
laba_1.cpp, after a `setNumber(r,c,v)` or `setText(r,c,s)` that returned, the
dimensions are the same and `getCell` at every other coordinate yields the cell
it yielded before; in laba_1_reload.cpp, after a `setCell(r,c,value)` (either
overload) that returned, `getSize` is the same and at every other coordinate
`getCell` returns the same shared pointer and the cell read there, kind and
payload, is the one read before. -/
theorem setter_changes_only_its_cell :
    (∀ (t : Laba1.Table F) (r c : Int) (v : F), (t.setNumber r c v).1 = .ok () →
        (t.setNumber r c v).2.rows = t.rows ∧ (t.setNumber r c v).2.columns = t.columns ∧
        ∀ r' c' : Int, ¬ (r' = r ∧ c' = c) →
          (t.setNumber r c v).2.getCell r' c' = t.getCell r' c')
    ∧ (∀ (t : Laba1.Table F) (r c : Int) (s : String), (t.setText r c s).1 = .ok () →
        (t.setText r c s).2.rows = t.rows ∧ (t.setText r c s).2.columns = t.columns ∧
        ∀ r' c' : Int, ¬ (r' = r ∧ c' = c) →
          (t.setText r c s).2.getCell r' c' = t.getCell r' c')
    ∧ (∀ (t : Reload.Table) (h : Reload.Heap F) (r c : Nat) (v : F),
        (t.setCellNumber h r c v).1 = .ok () →
        (t.setCellNumber h r c v).2.1.getSize = t.getSize ∧
        ∀ r' c' : Nat, ¬ (r' = r ∧ c' = c) →
          (t.setCellNumber h r c v).2.1.getCell r' c' = t.getCell r' c' ∧
          ∀ cell, t.cellAt h r' c' = .ok cell →
            (t.setCellNumber h r c v).2.1.cellAt (t.setCellNumber h r c v).2.2 r' c' = .ok cell)
    ∧ (∀ (t : Reload.Table) (h : Reload.Heap F) (r c : Nat) (s : String) (x : F),
        (t.setCellText h r c s x).1 = .ok () →
        (t.setCellText h r c s x).2.1.getSize = t.getSize ∧
        ∀ r' c' : Nat, ¬ (r' = r ∧ c' = c) →
          (t.setCellText h r c s x).2.1.getCell r' c' = t.getCell r' c' ∧
          ∀ cell, t.cellAt h r' c' = .ok cell →
            (t.setCellText h r c s x).2.1.cellAt (t.setCellText h r c s x).2.2 r' c'
              = .ok cell) := by
  refine ⟨?_, ?_, ?_, ?_⟩
  · intro t r c v hok
    obtain ⟨row, cell, hrow, hcell, hset⟩ := Laba1.Table.setNumber_ok t r c v hok
    rw [hset]
    exact ⟨rfl, rfl, fun r' c' hne => Laba1.Table.getCell_at_other t r c r' c' row cell _ hrow
      hcell hne⟩
  · intro t r c s hok
    obtain ⟨row, cell, hrow, hcell, hset⟩ := Laba1.Table.setText_ok t r c s hok
    rw [hset]
    exact ⟨rfl, rfl, fun r' c' hne => Laba1.Table.getCell_at_other t r c r' c' row cell _ hrow
      hcell hne⟩
  · intro t h r c v hok
    obtain ⟨row, hrow, hset⟩ := Reload.Table.setCellNumber_ok t h r c v hok
    rw [hset]
    exact ⟨rfl, fun r' c' hne => ⟨Reload.Table.getCell_set_ne t r c r' c' row _ hrow hne,
      fun cell hcell => Reload.Table.cellAt_set_ne t h _ r c r' c' row hrow hne cell hcell⟩⟩
  · intro t h r c s x hok
    obtain ⟨row, hrow, hset⟩ := Reload.Table.setCellText_ok t h r c s x hok
    rw [hset]
    exact ⟨rfl, fun r' c' hne => ⟨Reload.Table.getCell_set_ne t r c r' c' row _ hrow hne,
      fun cell hcell => Reload.Table.cellAt_set_ne t h _ r c r' c' row hrow hne cell hcell⟩⟩

theorem setter_changes_only_its_cell_witness :
    (Laba1.testTableCopy.setNumber 0 1 30.5).2.getCell 0 0 = Laba1.testTableCopy.getCell 0 0
    ∧ (Reload.testTableLast.1.setCellText Reload.testTableLast.2 0 0 "Z" 0).2.1.getCell 2 1
        = Reload.testTableLast.1.getCell 2 1 :=
  ⟨((setter_changes_only_its_cell.1 Laba1.testTableCopy 0 1 30.5 (by decide)).2.2 0 0
      (by decide)),
    ((setter_changes_only_its_cell.2.2.2 Reload.testTableLast.1 Reload.testTableLast.2 0 0 "Z" 0
      (by decide)).2 2 1 (by decide)).1⟩

end

theorem subscriptN_replicate {α : Type} (n : Nat) (x : α) (i : Nat) (h : i < n) :
    subscriptN (List.replicate n x) i = .ok x := by
  obtain ⟨y, hy, hmem⟩ := subscriptN_of_lt (List.replicate n x) i
    (by rw [List.length_replicate]; exact h)
  rw [hy, List.eq_of_mem_replicate hmem]

/-- Every slot of the matrix built by `Table(rows, cols)` holds the address of
the one cell the constructor allocated. -/
theorem Reload.Table.getCell_init {F : Type} [Zero F] (h : Reload.Heap F) (rows cols i j : Nat)
    (hi : i < rows) (hj : j < cols) :
    (Reload.Table.init h rows cols).1.getCell i j = .ok h.length := by
  unfold Reload.Table.getCell Reload.Table.init Reload.make_shared
  dsimp only
  rw [if_neg (by omega), subscriptN_replicate rows _ i hi]
  exact subscriptN_replicate cols _ j hj

theorem Reload.Table.cellAt_init {F : Type} [Zero F] (h h' : Reload.Heap F)
    (rows cols i j : Nat) (hi : i < rows) (hj : j < cols) :
    (Reload.Table.init h rows cols).1.cellAt h' i j = Reload.derefE h' h.length := by
  unfold Reload.Table.cellAt Reload.Table.init Reload.make_shared
  dsimp only
  rw [subscriptN_replicate rows _ i hi]
  simp only [bind, Except.bind]
  rw [subscriptN_replicate cols _ j hj]

/-- C30: the cells of a table built by `Table(rows, cols)` are one shared cell.
For valid coordinates `(r,c)` and `(r2,c2)`, the call
`getCell(r,c)->setNumber(v)` returns, every coordinate read Empty before it, and
after it the cell read at `(r2,c2)` is a Number holding `v`, also when
`(r2,c2)` differs from `(r,c)`. -/
theorem constructor_cells_are_shared {F : Type} [Zero F] (h : Reload.Heap F)
    (rows cols r c r2 c2 : Nat) (v : F) (hr : r < rows) (hc : c < cols) (hr2 : r2 < rows)
    (hc2 : c2 < cols) :
    (Reload.Table.init h rows cols).1.cellAt (Reload.Table.init h rows cols).2 r2 c2
        = .ok Reload.Cell.new
    ∧ ((Reload.Table.init h rows cols).1.setNumberThrough (Reload.Table.init h rows cols).2
        r c v).1 = .ok ()
    ∧ (Reload.Table.init h rows cols).1.cellAt
        ((Reload.Table.init h rows cols).1.setNumberThrough (Reload.Table.init h rows cols).2
          r c v).2 r2 c2 = .ok { type := .NUMBER, text := "", number := v } := by
  have hderef : Reload.deref (h ++ [(Reload.Cell.new : Reload.Cell F)]) h.length
      = some Reload.Cell.new := by
    unfold Reload.deref
    rw [List.get?_eq_getElem?, List.getElem?_append_right (Nat.le_refl _)]
    simp
  have hheap : (Reload.Table.init h rows cols).2 = h ++ [(Reload.Cell.new : Reload.Cell F)] :=
    rfl
  have hset : (Reload.Table.init h rows cols).1.setNumberThrough
      (Reload.Table.init h rows cols).2 r c v
      = (.ok (), (h ++ [(Reload.Cell.new : Reload.Cell F)]).set h.length
          ((Reload.Cell.new : Reload.Cell F).setNumber v)) := by
    unfold Reload.Table.setNumberThrough
    rw [Reload.Table.getCell_init h rows cols r c hr hc, hheap]
    dsimp only
    rw [hderef]
  refine ⟨?_, ?_, ?_⟩
  · rw [Reload.Table.cellAt_init h _ rows cols r2 c2 hr2 hc2, hheap]
    unfold Reload.derefE
    rw [hderef]
  · rw [hset]
  · rw [hset, Reload.Table.cellAt_init h _ rows cols r2 c2 hr2 hc2]
    unfold Reload.derefE Reload.deref
    dsimp only
    rw [List.get?_eq_getElem?, List.getElem?_set_self (by simp)]
    rfl

theorem constructor_cells_are_shared_witness :
    (Reload.Table.init ([] : Reload.Heap ℚ) 1 2).1.cellAt
        ((Reload.Table.init ([] : Reload.Heap ℚ) 1 2).1.setNumberThrough
          (Reload.Table.init ([] : Reload.Heap ℚ) 1 2).2 0 0 5).2 0 1
      = .ok { type := .NUMBER, text := "", number := 5 } :=
  (constructor_cells_are_shared ([] : Reload.Heap ℚ) 1 2 0 0 0 1 5 (by decide) (by decide)
    (by decide) (by decide)).2.2

/-! ## The formula cell and `calculateFormula` -/

theorem mem_natRange (a b i : Nat) : i ∈ natRange a b ↔ a ≤ i ∧ i ≤ b := by
  unfold natRange
  simp only [List.mem_map, List.mem_range]
  constructor
  · rintro ⟨k, hk, rfl⟩
    omega
  · rintro ⟨h1, h2⟩
    exact ⟨i - a, by omega, by omega⟩

theorem length_natRange (a b : Nat) : (natRange a b).length = b + 1 - a := by
  simp [natRange]

theorem natRange_eq_nil (a b : Nat) (h : b < a) : natRange a b = [] := by
  unfold natRange
  rw [show b + 1 - a = 0 by omega]
  rfl

/-- A loop that returns has had every pass return. -/
theorem foldlM_ok_mem {σ α : Type} (f : σ → α → Except Exn σ) (l : List α) (init s : σ)
    (h : l.foldlM f init = .ok s) : ∀ x ∈ l, ∃ s1 s2, f s1 x = .ok s2 := by
  induction l generalizing init with
  | nil => intro x hx; exact absurd hx (List.not_mem_nil _)
  | cons y l ih =>
    rw [List.foldlM_cons] at h
    cases hfy : f init y with
    | error e => rw [hfy] at h; exact absurd h (by simp [bind, Except.bind])
    | ok s1 =>
      rw [hfy] at h
      intro x hx
      rcases List.mem_cons.1 hx with rfl | hx
      · exact ⟨init, s1, hfy⟩
      · exact ih s1 h x hx

/-- The exception that leaves a loop was thrown by one of its passes. -/
theorem foldlM_error_mem {σ α : Type} (f : σ → α → Except Exn σ) (l : List α) (init : σ)
    (e : Exn) (h : l.foldlM f init = .error e) : ∃ s, ∃ x ∈ l, f s x = .error e := by
  induction l generalizing init with
  | nil => exact absurd h (by simp [List.foldlM, pure, Except.pure])
  | cons y l ih =>
    rw [List.foldlM_cons] at h
    cases hfy : f init y with
    | error e2 =>
      rw [hfy] at h
      have he : e2 = e := by injection h
      exact ⟨init, y, List.mem_cons_self _ _, by rw [hfy, he]⟩
    | ok s1 =>
      rw [hfy] at h
      obtain ⟨s, x, hx, hs⟩ := ih s1 h
      exact ⟨s, x, List.mem_cons_of_mem _ hx, hs⟩

namespace Reload

section
variable {F : Type}

theorem Table.pushCell_eq_ok (t : Table) (i j : Nat) (range s : List Ptr)
    (h : t.pushCell i range j = .ok s) : ∃ p, t.getCell i j = .ok p := by
  unfold Table.pushCell at h
  cases hg : t.getCell i j with
  | error e => rw [hg] at h; exact absurd h (by simp [bind, Except.bind])
  | ok p => exact ⟨p, rfl⟩

theorem Table.pushCell_eq_error (t : Table) (i j : Nat) (range : List Ptr) (e : Exn)
    (h : t.pushCell i range j = .error e) : t.getCell i j = .error e := by
  unfold Table.pushCell at h
  cases hg : t.getCell i j with
  | error e2 =>
    rw [hg] at h
    have he : e2 = e := by injection h
    rw [he]
  | ok p => rw [hg] at h; exact absurd h (by simp [bind, Except.bind, pure, Except.pure])

/-- The inner loop of `calculateFormula` on a row whose cells `getCell`
returns. -/
theorem Table.push_inner (t : Table) (i : Nat) (js : List Nat)
    (h : ∀ j ∈ js, ∃ p, t.getCell i j = .ok p) (range : List Ptr) :
    js.foldlM (fun range j => t.pushCell i range j) range
      = .ok (range ++ js.filterMap (fun j => (t.getCell i j).toOption)) := by
  induction js generalizing range with
  | nil => simp [List.foldlM, pure, Except.pure]
  | cons j js ih =>
    obtain ⟨p, hp⟩ := h j (List.mem_cons_self _ _)
    have ih2 := fun x => ih (fun k hk => h k (List.mem_cons_of_mem _ hk)) x
    have hpush : t.pushCell i range j = .ok (range ++ [p]) := by
      unfold Table.pushCell
      rw [hp]
      rfl
    rw [List.foldlM_cons, hpush]
    show List.foldlM _ _ js = _
    rw [ih2]
    simp [List.filterMap_cons, Except.toOption, hp]

/-- The two loops of `calculateFormula` on a rectangle whose cells `getCell`
returns. -/
theorem Table.push_outer (t : Table) (is js : List Nat)
    (h : ∀ i ∈ is, ∀ j ∈ js, ∃ p, t.getCell i j = .ok p) (range : List Ptr) :
    is.foldlM (fun range i => js.foldlM (fun range j => t.pushCell i range j) range) range
      = .ok (range ++ is.flatMap (fun i => js.filterMap (fun j => (t.getCell i j).toOption)))
      := by
  induction is generalizing range with
  | nil => simp [List.foldlM, pure, Except.pure]
  | cons i is ih =>
    have ih2 := fun x => ih (fun k hk => h k (List.mem_cons_of_mem _ hk)) x
    rw [List.foldlM_cons, Table.push_inner t i js (h i (List.mem_cons_self _ _))]
    show List.foldlM _ _ is = _
    rw [ih2, List.flatMap_cons, List.append_assoc]

/-- On a rectangle whose cells `getCell` returns, `calculateFormula` is
`compute` on the pointers of the rectangle in row-major order. -/
theorem Table.calculateFormula_eq [Zero F] [One F] [Add F] [Mul F] [Div F] (t : Table)
    (h : Heap F) (rowFrom colFrom rowTo colTo : Nat) (op : Operation)
    (hg : ∀ i ∈ natRange rowFrom rowTo, ∀ j ∈ natRange colFrom colTo,
      ∃ p, t.getCell i j = .ok p) :
    t.calculateFormula h rowFrom colFrom rowTo colTo op
      = (FormulaCell.ofRange (t.ptrsInRange rowFrom colFrom rowTo colTo) op :
          FormulaCell F).compute h := by
  unfold Table.calculateFormula forLoopTo
  rw [Table.push_outer t _ _ hg []]
  rfl

/-- The cells behind the pointers of a rectangle are the cells of the
rectangle. -/
theorem Table.deref_ptrs (t : Table) (h : Heap F) (is js : List Nat)
    (hg : ∀ i ∈ is, ∀ j ∈ js, ∃ p, t.getCell i j = .ok p) :
    (is.flatMap (fun i => js.filterMap (fun j => (t.getCell i j).toOption))).filterMap
        (fun p => (derefE h p).toOption)
      = is.flatMap (fun i => js.filterMap (fun j => (t.cellAt h i j).toOption)) := by
  induction is with
  | nil => rfl
  | cons i is ih =>
    rw [List.flatMap_cons, List.flatMap_cons, List.filterMap_append,
      ih (fun k hk => hg k (List.mem_cons_of_mem _ hk)), List.filterMap_filterMap]
    congr 1
    apply List.filterMap_congr
    intro j hj
    obtain ⟨p, hp⟩ := hg i (List.mem_cons_self _ _) j hj
    rw [Reload.Table.cellAt_of_getCell t h i j p hp, hp]
    rfl

/-- A pass of a loop of `compute` over a Number cell. -/
theorem FormulaCell.onCell_number {σ : Type} (h : Heap F) (g : σ → F → σ) (what : String)
    (acc : σ) (p : Ptr) (c : Cell F) (hc : derefE h p = .ok c) (hn : c.type = .NUMBER) :
    FormulaCell.onCell h g what acc p = .ok (g acc c.number) := by
  unfold FormulaCell.onCell
  simp [hc, hn, bind, Except.bind, Cell.getType, Cell.getNumber, pure, Except.pure]

/-- A pass of a loop of `compute` over a cell that is not a Number. -/
theorem FormulaCell.onCell_other {σ : Type} (h : Heap F) (g : σ → F → σ) (what : String)
    (acc : σ) (p : Ptr) (c : Cell F) (hc : derefE h p = .ok c) (hn : c.type ≠ .NUMBER) :
    FormulaCell.onCell h g what acc p = .error (.runtime_error what) := by
  unfold FormulaCell.onCell
  simp [hc, hn, bind, Except.bind, Cell.getType, throw, throwThe, MonadExceptOf.throw]

/-- A loop of `compute` over Number cells folds the update over their values. -/
theorem FormulaCell.fold_numbers {σ : Type} (h : Heap F) (g : σ → F → σ) (what : String)
    (ps : List Ptr) (hps : ∀ p ∈ ps, ∃ c, derefE h p = .ok c ∧ c.type = .NUMBER) (init : σ) :
    ps.foldlM (FormulaCell.onCell h g what) init
      = .ok (((ps.filterMap (fun p => (derefE h p).toOption)).map
          (fun c => c.number)).foldl g init) := by
  induction ps generalizing init with
  | nil => rfl
  | cons p ps ih =>
    obtain ⟨c, hc, hn⟩ := hps p (List.mem_cons_self _ _)
    have ih2 := fun x => ih (fun k hk => hps k (List.mem_cons_of_mem _ hk)) x
    rw [List.foldlM_cons, FormulaCell.onCell_number h g what init p c hc hn]
    show List.foldlM _ _ ps = _
    rw [ih2]
    simp [List.filterMap_cons, Except.toOption, hc]

/-- A loop of `compute` over cells one of which is not a Number throws the
exception of its `else` branch. -/
theorem FormulaCell.fold_other {σ : Type} (h : Heap F) (g : σ → F → σ) (what : String)
    (ps : List Ptr) (hps : ∀ p ∈ ps, ∃ c, derefE h p = .ok c)
    (hbad : ∃ p ∈ ps, ∃ c, derefE h p = .ok c ∧ c.type ≠ .NUMBER) (init : σ) :
    ps.foldlM (FormulaCell.onCell h g what) init = .error (.runtime_error what) := by
  cases hf : ps.foldlM (FormulaCell.onCell h g what) init with
  | ok s =>
    obtain ⟨p, hp, c, hc, hn⟩ := hbad
    obtain ⟨s1, s2, hs⟩ := foldlM_ok_mem _ ps init s hf p hp
    rw [FormulaCell.onCell_other h g what s1 p c hc hn] at hs
    exact absurd hs (by simp)
  | error e =>
    obtain ⟨s, p, hp, hs⟩ := foldlM_error_mem _ ps init e hf
    obtain ⟨c, hc⟩ := hps p hp
    by_cases hn : c.type = .NUMBER
    · rw [FormulaCell.onCell_number h g what s p c hc hn] at hs
      exact absurd hs (by simp)
    · rw [FormulaCell.onCell_other h g what s p c hc hn] at hs
      rw [← hs]

end

end Reload

namespace Reload

section
variable {F : Type}

/-- The three operations of `compute` on a range of Number cells. -/
theorem FormulaCell.compute_numbers [Zero F] [One F] [Add F] [Mul F] [Div F] (h : Heap F)
    (ps : List Ptr) (hps : ∀ p ∈ ps, ∃ c, derefE h p = .ok c ∧ c.type = .NUMBER) :
    (FormulaCell.ofRange ps .SUM : FormulaCell F).compute h
        = .ok (((ps.filterMap (fun p => (derefE h p).toOption)).map
            (fun c => c.number)).foldl (fun x v => x + v) 0)
    ∧ (FormulaCell.ofRange ps .PRODUCT : FormulaCell F).compute h
        = .ok (((ps.filterMap (fun p => (derefE h p).toOption)).map
            (fun c => c.number)).foldl (fun x v => x * v) 1)
    ∧ (FormulaCell.ofRange ps .AVERAGE : FormulaCell F).compute h
        = if (ps.filterMap (fun p => (derefE h p).toOption)).length = 0 then
            .error (.runtime_error "Не найдено числовых ячеек для операции среднего.")
          else
            .ok (((ps.filterMap (fun p => (derefE h p).toOption)).map
              (fun c => c.number)).foldl (fun x v => x + v) 0
                / doubleOfCount (ps.filterMap (fun p => (derefE h p).toOption)).length) := by
  refine ⟨?_, ?_, ?_⟩
  · exact FormulaCell.fold_numbers h _ _ ps hps 0
  · exact FormulaCell.fold_numbers h _ _ ps hps 1
  · show (do
        let acc ← ps.foldlM (FormulaCell.onCell h (fun (a : F × Int) v => (a.1 + v, a.2 + 1))
          "Все ячейки должны быть числовыми для операции среднего.") ((0 : F), (0 : Int))
        if acc.2 = 0 then
          throw (Exn.runtime_error "Не найдено числовых ячеек для операции среднего.")
        else
          pure (acc.1 / intToDouble acc.2)) = _
    rw [FormulaCell.fold_numbers h _ _ ps hps,
      foldl_pair (fun (x : F) v => x + v) (fun c : Int => c + 1), Laba1.iterate_succ_int]
    simp only [bind, Except.bind, List.length_map, intToDouble, Int.toNat_ofNat]
    by_cases hz : (ps.filterMap (fun p => (derefE h p).toOption)).length = 0
    · simp [hz, throw, throwThe, MonadExceptOf.throw]
    · have hz2 : ¬ (((ps.filterMap (fun p => (derefE h p).toOption)).length : Int) = 0) := by
        omega
      rw [if_neg hz, if_neg hz2]
      rfl

/-- The three operations of `compute` on a range with a cell that is not a
Number. -/
theorem FormulaCell.compute_other [Zero F] [One F] [Add F] [Mul F] [Div F] (h : Heap F)
    (ps : List Ptr) (hps : ∀ p ∈ ps, ∃ c, derefE h p = .ok c)
    (hbad : ∃ p ∈ ps, ∃ c, derefE h p = .ok c ∧ c.type ≠ .NUMBER) :
    (FormulaCell.ofRange ps .SUM : FormulaCell F).compute h
        = .error (.runtime_error "Все ячейки должны быть числовыми для операции суммы.")
    ∧ (FormulaCell.ofRange ps .PRODUCT : FormulaCell F).compute h
        = .error (.runtime_error "Все ячейки должны быть числовыми для операции произведения.")
    ∧ (FormulaCell.ofRange ps .AVERAGE : FormulaCell F).compute h
        = .error (.runtime_error "Все ячейки должны быть числовыми для операции среднего.") := by
  refine ⟨?_, ?_, ?_⟩
  · exact FormulaCell.fold_other h _ _ ps hps hbad 0
  · exact FormulaCell.fold_other h _ _ ps hps hbad 1
  · show (do
        let acc ← ps.foldlM (FormulaCell.onCell h (fun (a : F × Int) v => (a.1 + v, a.2 + 1))
          "Все ячейки должны быть числовыми для операции среднего.") ((0 : F), (0 : Int))
        if acc.2 = 0 then
          throw (Exn.runtime_error "Не найдено числовых ячеек для операции среднего.")
        else
          pure (acc.1 / intToDouble acc.2)) = _
    rw [FormulaCell.fold_other h _ _ ps hps hbad]
    rfl

/-- The three operations of `compute` on the empty range. -/
theorem FormulaCell.compute_nil [Zero F] [One F] [Add F] [Mul F] [Div F] (h : Heap F) :
    (FormulaCell.ofRange [] .SUM : FormulaCell F).compute h = .ok 0
    ∧ (FormulaCell.ofRange [] .PRODUCT : FormulaCell F).compute h = .ok 1
    ∧ (FormulaCell.ofRange [] .AVERAGE : FormulaCell F).compute h
        = .error (.runtime_error "Не найдено числовых ячеек для операции среднего.") :=
  ⟨rfl, rfl, rfl⟩

theorem Table.getCell_of_cellAt (t : Table) (h : Heap F) (i j : Nat) (c : Cell F)
    (hi : i < t.row) (hj : j < t.column) (hc : t.cellAt h i j = .ok c) :
    ∃ p, t.getCell i j = .ok p ∧ derefE h p = .ok c := by
  unfold Table.cellAt at hc
  unfold Table.getCell
  rw [if_neg (by omega)]
  cases hr : subscriptN t.cells i with
  | error e => rw [hr] at hc; exact absurd hc (by simp [bind, Except.bind])
  | ok row =>
    rw [hr] at hc
    cases hq : subscriptN row j with
    | error e =>
      simp only [bind, Except.bind, hq] at hc
      exact absurd hc (by simp)
    | ok p =>
      simp only [bind, Except.bind, hq] at hc
      exact ⟨p, by simp only [bind, Except.bind, hq], hc⟩

/-- On a well-formed table `getCell` returns exactly at the coordinates of the
grid and throws `out_of_range` at the others. -/
theorem Table.getCell_WF (t : Table) (hwf : t.WF) (i j : Nat) :
    (i < t.row ∧ j < t.column → ∃ p, t.getCell i j = .ok p)
    ∧ (¬ (i < t.row ∧ j < t.column) →
        t.getCell i j = .error (.out_of_range "Индекс ячейки вне диапазона.")) := by
  constructor
  · rintro ⟨hi, hj⟩
    obtain ⟨ri, hri, hlen⟩ := Table.row_of_lt t hwf i hi
    have hjlt : j < ri.length := by rw [hlen]; exact hj
    exact ⟨ri[j], Table.getCell_of_row t i j ri _ hi hj hri (List.getElem?_eq_getElem hjlt)⟩
  · intro hn
    unfold Table.getCell
    rw [if_pos (by omega)]

theorem Table.mem_ptrsInRange (t : Table) (rowFrom colFrom rowTo colTo : Nat) (p : Ptr) :
    p ∈ t.ptrsInRange rowFrom colFrom rowTo colTo ↔
      ∃ i j, rowFrom ≤ i ∧ i ≤ rowTo ∧ colFrom ≤ j ∧ j ≤ colTo ∧ t.getCell i j = .ok p := by
  unfold Table.ptrsInRange
  simp only [List.mem_flatMap, List.mem_filterMap, mem_natRange]
  constructor
  · rintro ⟨i, ⟨hi1, hi2⟩, j, ⟨hj1, hj2⟩, hp⟩
    refine ⟨i, j, hi1, hi2, hj1, hj2, ?_⟩
    cases hg : t.getCell i j with
    | error e => rw [hg] at hp; exact absurd hp (by simp [Except.toOption])
    | ok q =>
      rw [hg] at hp
      simp only [Except.toOption, Option.some.injEq] at hp
      rw [hp]
  · rintro ⟨i, j, hi1, hi2, hj1, hj2, hp⟩
    exact ⟨i, ⟨hi1, hi2⟩, j, ⟨hj1, hj2⟩, by rw [hp]; rfl⟩

end

end Reload

section
variable {F : Type}

/-- C27: in laba_1_reload.cpp, on a range inside the table with
`rowFrom <= rowTo` and `colFrom <= colTo` all of whose cells are Numbers,
`calculateFormula` is `FormulaCell::compute` on the pointers of the rectangle
in row-major order, these point to the `(rowTo - rowFrom + 1) * (colTo -
colFrom + 1)` cells of the rectangle, and the result is: for SUM the left fold
of `+` from `0.0` over their values, for PRODUCT the left fold of `*` from
`1.0`, for AVERAGE that sum divided by the number of cells. -/
theorem formula_on_number_cells [Zero F] [One F] [Add F] [Mul F] [Div F] (t : Reload.Table)
    (h : Reload.Heap F) (rowFrom colFrom rowTo colTo : Nat) (hrow : rowFrom ≤ rowTo)
    (hrowTo : rowTo < t.row) (hcol : colFrom ≤ colTo) (hcolTo : colTo < t.column)
    (hnum : ∀ i j, rowFrom ≤ i → i ≤ rowTo → colFrom ≤ j → j ≤ colTo →
      ∃ c, t.cellAt h i j = .ok c ∧ c.getType = .NUMBER) :
    (∀ op, t.calculateFormula h rowFrom colFrom rowTo colTo op
        = (Reload.FormulaCell.ofRange (t.ptrsInRange rowFrom colFrom rowTo colTo) op :
            Reload.FormulaCell F).compute h)
    ∧ (t.ptrsInRange rowFrom colFrom rowTo colTo).filterMap
          (fun p => (Reload.derefE h p).toOption)
        = t.cellsInRange h rowFrom colFrom rowTo colTo
    ∧ (t.cellsInRange h rowFrom colFrom rowTo colTo).length
        = (rowTo - rowFrom + 1) * (colTo - colFrom + 1)
    ∧ t.calculateFormula h rowFrom colFrom rowTo colTo .SUM
        = .ok (((t.cellsInRange h rowFrom colFrom rowTo colTo).map
            (fun c => c.number)).foldl (fun x v => x + v) 0)
    ∧ t.calculateFormula h rowFrom colFrom rowTo colTo .PRODUCT
        = .ok (((t.cellsInRange h rowFrom colFrom rowTo colTo).map
            (fun c => c.number)).foldl (fun x v => x * v) 1)
    ∧ t.calculateFormula h rowFrom colFrom rowTo colTo .AVERAGE
        = .ok (((t.cellsInRange h rowFrom colFrom rowTo colTo).map
            (fun c => c.number)).foldl (fun x v => x + v) 0
              / Reload.intToDouble (((rowTo - rowFrom + 1) * (colTo - colFrom + 1) : Nat) : Int))
    := by
  have hg : ∀ i ∈ natRange rowFrom rowTo, ∀ j ∈ natRange colFrom colTo,
      ∃ p, t.getCell i j = .ok p := by
    intro i hi j hj
    rw [mem_natRange] at hi hj
    obtain ⟨c, hc, -⟩ := hnum i j hi.1 hi.2 hj.1 hj.2
    obtain ⟨p, hp, -⟩ := Reload.Table.getCell_of_cellAt t h i j c (by omega) (by omega) hc
    exact ⟨p, hp⟩
  have hps : ∀ p ∈ t.ptrsInRange rowFrom colFrom rowTo colTo,
      ∃ c, Reload.derefE h p = .ok c ∧ c.type = .NUMBER := by
    intro p hp
    rw [Reload.Table.mem_ptrsInRange] at hp
    obtain ⟨i, j, hi1, hi2, hj1, hj2, hgp⟩ := hp
    obtain ⟨c, hc, hn⟩ := hnum i j hi1 hi2 hj1 hj2
    rw [Reload.Table.cellAt_of_getCell t h i j p hgp] at hc
    exact ⟨c, hc, hn⟩
  have hcells : (t.ptrsInRange rowFrom colFrom rowTo colTo).filterMap
      (fun p => (Reload.derefE h p).toOption) = t.cellsInRange h rowFrom colFrom rowTo colTo :=
    Reload.Table.deref_ptrs t h _ _ hg
  have hlen : (t.cellsInRange h rowFrom colFrom rowTo colTo).length
      = (rowTo - rowFrom + 1) * (colTo - colFrom + 1) := by
    unfold Reload.Table.cellsInRange
    rw [length_flatMap_of_length _ _ (colTo - colFrom + 1), length_natRange]
    · congr 1
      omega
    · intro i hi
      rw [length_filterMap_of_isSome, length_natRange]
      · omega
      · intro j hj
        rw [mem_natRange] at hi hj
        obtain ⟨c, hc, -⟩ := hnum i j hi.1 hi.2 hj.1 hj.2
        rw [hc]
        rfl
  have heq := fun op => Reload.Table.calculateFormula_eq t h rowFrom colFrom rowTo colTo op hg
  obtain ⟨hs, hpr, hav⟩ := Reload.FormulaCell.compute_numbers h _ hps
  rw [hcells] at hs hpr hav
  refine ⟨heq, hcells, hlen, ?_, ?_, ?_⟩
  · rw [heq, hs]
  · rw [heq, hpr]
  · rw [heq, hav, hlen, if_neg (by positivity)]
    unfold Reload.intToDouble
    rw [Int.toNat_ofNat]

theorem formula_on_number_cells_witness :
    Reload.testTableLast.1.calculateFormula Reload.testTableLast.2 1 0 2 1 .SUM = .ok 31
    ∧ Reload.testTableLast.1.calculateFormula Reload.testTableLast.2 1 0 2 1 .PRODUCT
        = .ok (2.5 * 3.5 * 15 * 10)
    ∧ Reload.testTableLast.1.calculateFormula Reload.testTableLast.2 1 0 2 1 .AVERAGE
        = .ok (31 / 4)
    ∧ (Reload.FormulaCell.ofRange [0, 1, 2] .SUM : Reload.FormulaCell ℚ).compute
        Reload.testFormulaHeap = .ok 7
    ∧ (Reload.FormulaCell.ofRange [0, 1, 2] .PRODUCT : Reload.FormulaCell ℚ).compute
        Reload.testFormulaHeap = .ok 12 := by
  have hnum : ∀ i j, 1 ≤ i → i ≤ 2 → 0 ≤ j → j ≤ 1 →
      ∃ c, Reload.testTableLast.1.cellAt Reload.testTableLast.2 i j = .ok c
        ∧ c.getType = .NUMBER := by
    intro i j h1 h2 _ h4
    have hi : i = 1 ∨ i = 2 := by omega
    have hj : j = 0 ∨ j = 1 := by omega
    rcases hi with rfl | rfl <;> rcases hj with rfl | rfl <;> exact ⟨_, rfl, rfl⟩
  have hthm := formula_on_number_cells Reload.testTableLast.1 Reload.testTableLast.2 1 0 2 1
    (by decide) (by decide) (by decide) (by decide) hnum
  exact ⟨hthm.2.2.2.1.trans (by decide!), hthm.2.2.2.2.1.trans (by decide!),
    hthm.2.2.2.2.2.trans (by decide!), by decide!, by decide!⟩

end

section
variable {F : Type}

/-- C25 (amended): in laba_1_reload.cpp, `calculateFormula` does not skip
cells that are not Numbers. On a well-formed table without null pointers and a
range whose bottom-right corner is inside the table, if some cell of the range
is not a Number then `calculateFormula` throws `runtime_error` with the
all-cells-must-be-numeric message of the operation, whatever the other cells of
the range hold. -/
theorem formula_rejects_non_number_cells [Zero F] [One F] [Add F] [Mul F] [Div F]
    (t : Reload.Table) (h : Reload.Heap F) (hwf : t.WF) (hpv : t.PtrsValid h)
    (rowFrom colFrom rowTo colTo : Nat) (hrowTo : rowTo < t.row) (hcolTo : colTo < t.column)
    (i j : Nat) (hi1 : rowFrom ≤ i) (hi2 : i ≤ rowTo) (hj1 : colFrom ≤ j) (hj2 : j ≤ colTo)
    (c : Reload.Cell F) (hc : t.cellAt h i j = .ok c) (hn : c.getType ≠ .NUMBER) :
    t.calculateFormula h rowFrom colFrom rowTo colTo .SUM
        = .error (.runtime_error "Все ячейки должны быть числовыми для операции суммы.")
    ∧ t.calculateFormula h rowFrom colFrom rowTo colTo .PRODUCT
        = .error (.runtime_error "Все ячейки должны быть числовыми для операции произведения.")
    ∧ t.calculateFormula h rowFrom colFrom rowTo colTo .AVERAGE
        = .error (.runtime_error "Все ячейки должны быть числовыми для операции среднего.")
    := by
  have hg : ∀ i ∈ natRange rowFrom rowTo, ∀ j ∈ natRange colFrom colTo,
      ∃ p, t.getCell i j = .ok p := by
    intro i hi j hj
    rw [mem_natRange] at hi hj
    exact (Reload.Table.getCell_WF t hwf i j).1 ⟨by omega, by omega⟩
  have hps : ∀ p ∈ t.ptrsInRange rowFrom colFrom rowTo colTo,
      ∃ c, Reload.derefE h p = .ok c := by
    intro p hp
    rw [Reload.Table.mem_ptrsInRange] at hp
    obtain ⟨a, b, -, ha2, -, hb2, hgp⟩ := hp
    obtain ⟨x, hx⟩ := Reload.Table.cellAt_of_lt t h hwf hpv a b (by omega) (by omega)
    rw [Reload.Table.cellAt_of_getCell t h a b p hgp] at hx
    exact ⟨x, hx⟩
  have hbad : ∃ p ∈ t.ptrsInRange rowFrom colFrom rowTo colTo,
      ∃ c, Reload.derefE h p = .ok c ∧ c.type ≠ .NUMBER := by
    obtain ⟨p, hp, hd⟩ := Reload.Table.getCell_of_cellAt t h i j c (by omega) (by omega) hc
    exact ⟨p, (Reload.Table.mem_ptrsInRange t _ _ _ _ p).2 ⟨i, j, hi1, hi2, hj1, hj2, hp⟩,
      c, hd, hn⟩
  have heq := fun op => Reload.Table.calculateFormula_eq t h rowFrom colFrom rowTo colTo op hg
  obtain ⟨hs, hpr, hav⟩ := Reload.FormulaCell.compute_other h _ hps hbad
  exact ⟨by rw [heq, hs], by rw [heq, hpr], by rw [heq, hav]⟩

theorem formula_rejects_non_number_cells_witness :
    Reload.testTableLast.1.calculateFormula Reload.testTableLast.2 0 0 2 1 .AVERAGE
      = .error (.runtime_error "Все ячейки должны быть числовыми для операции среднего.") :=
  (formula_rejects_non_number_cells Reload.testTableLast.1 Reload.testTableLast.2 (by decide)
    (by decide) 0 0 2 1 (by decide) (by decide) 0 1 (by decide) (by decide) (by decide)
    (by decide) { type := .TEXT, text := "B", number := 0 } (by decide!) (by decide)).2.2

/-- The range from `(0,0)` to `(2,1)` of the table of the last test is inside
the table and holds two Text cells and four Number cells, yet
`calculateFormula` with SUM throws instead of returning the sum 31 of the
Numbers. -/
theorem formula_skips_counterexample :
    Reload.testTableLast.1.getSize = (3, 2)
    ∧ (Reload.testTableLast.1.cellsInRange Reload.testTableLast.2 0 0 2 1).map
        (fun c => c.getType) = [.TEXT, .TEXT, .NUMBER, .NUMBER, .NUMBER, .NUMBER]
    ∧ Reload.testTableLast.1.calculateFormula Reload.testTableLast.2 0 0 2 1 .SUM
        = .error (.runtime_error "Все ячейки должны быть числовыми для операции суммы.")
    ∧ Reload.testTableLast.1.calculateFormula Reload.testTableLast.2 0 0 2 1 .SUM
        ≠ .ok 31 := by
  decide!

/-- C26 (amended): in laba_1_reload.cpp, `calculateFormula` has no check of
the range; only `getCell` checks each coordinate it is asked for. On a
well-formed table a range with `rowFrom <= rowTo` and `colFrom <= colTo` whose
bottom-right corner is outside the table makes it throw `out_of_range`. A range
with `rowFrom > rowTo`, or with `colFrom > colTo` and `rowTo` below `SIZE_MAX`,
visits no cell and is aggregated as the empty range: SUM returns `0.0`,
PRODUCT returns `1.0`, and AVERAGE throws the no-numeric-cells
`runtime_error`. -/
theorem formula_range_is_not_validated [Zero F] [One F] [Add F] [Mul F] [Div F]
    (t : Reload.Table) (h : Reload.Heap F) (rowFrom colFrom rowTo colTo : Nat) :
    (t.WF → rowFrom ≤ rowTo → colFrom ≤ colTo → (rowTo ≥ t.row ∨ colTo ≥ t.column) →
        ∀ op, t.calculateFormula h rowFrom colFrom rowTo colTo op
          = .error (.out_of_range "Индекс ячейки вне диапазона."))
    ∧ (rowFrom > rowTo ∨ (colFrom > colTo ∧ rowTo < SIZE_MAX) →
        t.calculateFormula h rowFrom colFrom rowTo colTo .SUM = .ok 0
        ∧ t.calculateFormula h rowFrom colFrom rowTo colTo .PRODUCT = .ok 1
        ∧ t.calculateFormula h rowFrom colFrom rowTo colTo .AVERAGE
            = .error (.runtime_error "Не найдено числовых ячеек для операции среднего.")) := by
  constructor
  · intro hwf hrow hcol hout op
    have hloops : forLoopTo rowFrom rowTo (fun range i =>
        forLoopTo colFrom colTo (fun range j => t.pushCell i range j) range) []
        = .error (.out_of_range "Индекс ячейки вне диапазона.") := by
      unfold forLoopTo
      cases hf : (natRange rowFrom rowTo).foldlM (fun range i =>
          (natRange colFrom colTo).foldlM (fun range j => t.pushCell i range j) range) [] with
      | ok s =>
        obtain ⟨s1, s2, hs⟩ := foldlM_ok_mem _ _ _ s hf rowTo
          ((mem_natRange _ _ _).2 ⟨hrow, Nat.le_refl _⟩)
        obtain ⟨s3, s4, hs2⟩ := foldlM_ok_mem _ _ _ s2 hs colTo
          ((mem_natRange _ _ _).2 ⟨hcol, Nat.le_refl _⟩)
        obtain ⟨p, hp⟩ := Reload.Table.pushCell_eq_ok t rowTo colTo s3 s4 hs2
        rw [(Reload.Table.getCell_WF t hwf rowTo colTo).2 (by omega)] at hp
        exact absurd hp (by simp)
      | error e =>
        obtain ⟨s1, i, -, hs⟩ := foldlM_error_mem _ _ _ e hf
        obtain ⟨s2, j, -, hs2⟩ := foldlM_error_mem _ _ _ e hs
        have hge := Reload.Table.pushCell_eq_error t i j s2 e hs2
        by_cases hin : i < t.row ∧ j < t.column
        · obtain ⟨p, hp⟩ := (Reload.Table.getCell_WF t hwf i j).1 hin
          rw [hp] at hge
          exact absurd hge (by simp)
        · rw [(Reload.Table.getCell_WF t hwf i j).2 hin] at hge
          have he : Exn.out_of_range "Индекс ячейки вне диапазона." = e := by injection hge
          rw [he]
    unfold Reload.Table.calculateFormula
    rw [hloops]
    rfl
  · intro hinv
    have hloops : forLoopTo rowFrom rowTo (fun range i =>
        forLoopTo colFrom colTo (fun range j => t.pushCell i range j) range) [] = .ok [] := by
      unfold forLoopTo
      rcases hinv with hr | ⟨hc, -⟩
      · rw [natRange_eq_nil rowFrom rowTo hr]
        rfl
      · rw [natRange_eq_nil colFrom colTo hc]
        generalize natRange rowFrom rowTo = l
        induction l with
        | nil => rfl
        | cons a l ih =>
          rw [List.foldlM_cons]
          exact ih
    have heq : ∀ op, t.calculateFormula h rowFrom colFrom rowTo colTo op
        = (Reload.FormulaCell.ofRange [] op : Reload.FormulaCell F).compute h := by
      intro op
      unfold Reload.Table.calculateFormula
      rw [hloops]
      rfl
    obtain ⟨hs, hpr, hav⟩ := Reload.FormulaCell.compute_nil (F := F) h
    exact ⟨by rw [heq, hs], by rw [heq, hpr], by rw [heq, hav]⟩

theorem formula_range_is_not_validated_witness :
    Reload.testTableLast.1.calculateFormula Reload.testTableLast.2 1 0 3 1 .SUM
        = .error (.out_of_range "Индекс ячейки вне диапазона.")
    ∧ Reload.testTableLast.1.calculateFormula Reload.testTableLast.2 1 1 2 0 .PRODUCT
        = .ok 1 :=
  ⟨(formula_range_is_not_validated Reload.testTableLast.1 Reload.testTableLast.2 1 0 3 1).1
      (by decide) (by decide) (by decide) (by decide) .SUM,
    ((formula_range_is_not_validated Reload.testTableLast.1 Reload.testTableLast.2 1 1 2 0).2
      (by decide)).2.1⟩

/-- On the table of the last test, which has 3 rows and 2 columns, the range
from `(2,0)` to `(1,1)` has its top-left corner below its bottom-right corner,
and `calculateFormula` returns a value for it: `0` for SUM and `1` for
PRODUCT. -/
theorem formula_range_counterexample :
    Reload.testTableLast.1.getSize = (3, 2)
    ∧ Reload.testTableLast.1.calculateFormula Reload.testTableLast.2 2 0 1 1 .SUM = .ok 0
    ∧ Reload.testTableLast.1.calculateFormula Reload.testTableLast.2 2 0 1 1 .PRODUCT = .ok 1
    := by
  decide!

end

/-! ## The index pairs visited by the aggregates of laba_1.cpp -/

namespace Laba1

section
variable {F : Type}

theorem mem_visitsInRange (s e ij : Int × Int) :
    ij ∈ visitsInRange s e ↔ (s.1 ≤ ij.1 ∧ ij.1 ≤ e.1) ∧ (s.2 ≤ ij.2 ∧ ij.2 ≤ e.2) := by
  unfold visitsInRange
  simp only [List.mem_flatMap, List.mem_map, mem_intRange]
  constructor
  · rintro ⟨i, hi, j, hj, rfl⟩
    exact ⟨hi, hj⟩
  · rintro ⟨hi, hj⟩
    exact ⟨ij.1, hi, ij.2, hj, rfl⟩

theorem length_visitsInRange (s e : Int × Int) :
    (visitsInRange s e).length = (e.1 + 1 - s.1).toNat * (e.2 + 1 - s.2).toNat := by
  unfold visitsInRange
  rw [length_flatMap_of_length _ _ (e.2 + 1 - s.2).toNat, length_intRange]
  intro i _
  rw [List.length_map, length_intRange]

/-- The inner loop with the ghost list, on a row whose cells can be read. -/
theorem Table.inner_loop_traced {σ : Type} (t : Table F) (i : Int) (g : σ → F → σ)
    (l : List Int) (h : ∀ j ∈ l, ∃ c, t.at i j = .ok c) (init : σ) (v : List (Int × Int)) :
    l.foldlM (fun acc j => t.onNumberTraced i j g acc) (init, v)
      = (l.foldlM (fun acc j => t.onNumber i j g acc) init).map
          (fun s => (s, v ++ l.map (fun j => (i, j)))) := by
  induction l generalizing init v with
  | nil => simp [List.foldlM, pure, Except.pure, Except.map]
  | cons j l ih =>
    obtain ⟨c, hc⟩ := h j (List.mem_cons_self _ _)
    have ih2 := fun x y => ih (fun k hk => h k (List.mem_cons_of_mem _ hk)) x y
    have hstep : t.onNumberTraced i j g (init, v)
        = .ok (if c.type = .NUMBER then g init c.numberValue else init, v ++ [(i, j)]) := by
      unfold Table.onNumberTraced
      rw [Table.onNumber_of_at t i j g init c hc]
      rfl
    rw [List.foldlM_cons, List.foldlM_cons, hstep, Table.onNumber_of_at t i j g init c hc]
    show List.foldlM _ _ l = Except.map _ (List.foldlM _ _ l)
    rw [ih2]
    simp

/-- The two loops with the ghost list, on a rectangle whose cells can be
read. -/
theorem Table.outer_loop_traced {σ : Type} (t : Table F) (g : σ → F → σ) (rs cs : List Int)
    (h : ∀ i ∈ rs, ∀ j ∈ cs, ∃ c, t.at i j = .ok c) (init : σ) (v : List (Int × Int)) :
    rs.foldlM (fun acc i => cs.foldlM (fun acc j => t.onNumberTraced i j g acc) acc) (init, v)
      = (rs.foldlM (fun acc i => cs.foldlM (fun acc j => t.onNumber i j g acc) acc) init).map
          (fun s => (s, v ++ rs.flatMap (fun i => cs.map (fun j => (i, j))))) := by
  induction rs generalizing init v with
  | nil => simp [List.foldlM, pure, Except.pure, Except.map]
  | cons i rs ih =>
    have ih2 := fun x y => ih (fun k hk => h k (List.mem_cons_of_mem _ hk)) x y
    have hi := h i (List.mem_cons_self _ _)
    rw [List.foldlM_cons, List.foldlM_cons, Table.inner_loop_traced t i g cs hi,
      Table.inner_loop t i g cs hi]
    show List.foldlM _ _ rs = Except.map _ (List.foldlM _ _ rs)
    rw [ih2]
    simp

/-- On a well-formed table and a valid range the loops with the ghost list
return the state the loops return and the list of all index pairs of the
range. -/
theorem Table.loopsTraced_eq {σ : Type} (t : Table F) (hwf : t.WF) (s e : Int × Int)
    (hv : t.validateRange s e = .ok ()) (g : σ → F → σ) (init : σ) :
    t.loopsTraced s e g init = .ok ((t.numbersInRange s e).foldl g init, visitsInRange s e) := by
  have hread : ∀ i ∈ intRange s.1 e.1, ∀ j ∈ intRange s.2 e.2, ∃ c, t.at i j = .ok c := by
    have hv2 := (Table.validateRange_eq_ok t s e).1 hv
    intro i hi j hj
    rw [mem_intRange] at hi hj
    exact Table.at_of_lt t hwf i j (by omega) (by omega) (by omega) (by omega)
  have hplain := Table.loops_eq t hwf s e hv g init
  unfold forLoop at hplain
  unfold Table.loopsTraced forLoop
  rw [Table.outer_loop_traced t g _ _ hread init [], hplain]
  rfl

end

end Laba1

section
variable {F : Type}

/-- C28: in laba_1.cpp, on a table whose matrix has `rows` rows of `columns`
cells and a range accepted by `validateRange`, the two nested loops shared by
`calculateSum`, `calculateProd`, `calculateMean` and `calculateOperation`
return after one pass for every index pair of the range and no other, that is
after `(end.first - start.first + 1) * (end.second - start.second + 1)` passes;
every pair `(i, j)` of a pass has `0 <= i < rows` and `0 <= j < columns` and
`cells[i][j]` is read inside the matrix; the guarded `getNumber` returns; and
the only exceptions the four methods can throw are their own no-numbers and
invalid-operation ones, never the type-mismatch one of `getNumber`. -/
theorem aggregate_loops_stay_in_bounds [Zero F] [One F] [Add F] [Mul F] [Div F] [BEq F]
    (t : Laba1.Table F) (hwf : t.WF) (s e : Int × Int) (hv : t.validateRange s e = .ok ()) :
    (∀ (σ : Type) (g : σ → F → σ) (init : σ),
        t.loopsTraced s e g init
            = .ok ((t.numbersInRange s e).foldl g init, Laba1.visitsInRange s e)
        ∧ forLoop s.1 e.1 (fun acc i =>
              forLoop s.2 e.2 (fun acc j => t.onNumber i j g acc) acc) init
            = .ok ((t.numbersInRange s e).foldl g init))
    ∧ ((Laba1.visitsInRange s e).length : Int) = (e.1 - s.1 + 1) * (e.2 - s.2 + 1)
    ∧ (∀ ij ∈ Laba1.visitsInRange s e,
        (0 ≤ ij.1 ∧ ij.1 < t.rows) ∧ (0 ≤ ij.2 ∧ ij.2 < t.columns)
        ∧ ∃ c, t.at ij.1 ij.2 = .ok c
            ∧ (c.getType = .NUMBER → c.getNumber = .ok c.numberValue))
    ∧ (∀ x, t.calculateSum s e = .error x →
        x = .runtime_error "No numbers in range to calculate sum")
    ∧ (∀ x, t.calculateProd s e = .error x →
        x = .runtime_error "No numbers in range to calculate prod")
    ∧ (∀ x, t.calculateMean s e = .error x →
        x = .runtime_error "No numbers in range to calculate mean")
    ∧ (∀ op x, t.calculateOperation op s e = .error x →
        x = .invalid_argument "Invalid operation"
        ∨ x = .runtime_error "No members in range to calculate mean") := by
  have hv2 := (Laba1.Table.validateRange_eq_ok t s e).1 hv
  refine ⟨?_, ?_, ?_, ?_, ?_, ?_, ?_⟩
  · intro σ g init
    exact ⟨Laba1.Table.loopsTraced_eq t hwf s e hv g init, Laba1.Table.loops_eq t hwf s e hv g init⟩
  · rw [Laba1.length_visitsInRange]
    push_cast
    rw [Int.toNat_of_nonneg (by omega), Int.toNat_of_nonneg (by omega)]
    ring
  · intro ij hij
    rw [Laba1.mem_visitsInRange] at hij
    have h1 : 0 ≤ ij.1 ∧ ij.1 < t.rows := by omega
    have h2 : 0 ≤ ij.2 ∧ ij.2 < t.columns := by omega
    obtain ⟨c, hc⟩ := Laba1.Table.at_of_lt t hwf ij.1 ij.2 h1.1 h1.2 h2.1 h2.2
    refine ⟨h1, h2, c, hc, ?_⟩
    intro hn
    unfold Laba1.Cell.getNumber
    exact if_pos hn
  · intro x hx
    unfold Laba1.Table.calculateSum at hx
    rw [hv, Laba1.Table.loops_eq t hwf s e hv] at hx
    simp only [bind, Except.bind] at hx
    split at hx
    · injection hx with hx
      exact hx.symm
    · exact absurd hx (by simp [pure, Except.pure])
  · intro x hx
    unfold Laba1.Table.calculateProd at hx
    rw [hv, Laba1.Table.loops_eq t hwf s e hv] at hx
    simp only [bind, Except.bind] at hx
    split at hx
    · injection hx with hx
      exact hx.symm
    · exact absurd hx (by simp [pure, Except.pure])
  · intro x hx
    unfold Laba1.Table.calculateMean at hx
    rw [hv, Laba1.Table.loops_eq t hwf s e hv] at hx
    simp only [bind, Except.bind] at hx
    split at hx
    · injection hx with hx
      exact hx.symm
    · exact absurd hx (by simp [pure, Except.pure])
  · intro op x hx
    by_cases hop : op = "Sum" ∨ op = "Mean" ∨ op = "Prod"
    · right
      unfold Laba1.Table.calculateOperation at hx
      have hvo : t.validateOperation op = .ok () := by
        unfold Laba1.Table.validateOperation
        rw [if_neg (not_not.2 hop)]
      rw [hv, hvo, Laba1.Table.loops_eq t hwf s e hv] at hx
      simp only [bind, Except.bind] at hx
      split at hx
      · split at hx
        · exact absurd hx (by simp [pure, Except.pure])
        · split at hx
          · injection hx with hx
            exact hx.symm
          · exact absurd hx (by simp [pure, Except.pure])
      · exact absurd hx (by simp [pure, Except.pure])
    · left
      rw [Laba1.Table.calculateOperation_invalid t op s e hv hop] at hx
      injection hx with hx
      exact hx.symm

theorem aggregate_loops_stay_in_bounds_witness :
    Laba1.testTableOriginal.loopsTraced (0, 0) (1, 1) (fun (a : ℚ) v => a + v) 0
        = .ok (((Laba1.testTableOriginal.numbersInRange (0, 0) (1, 1)).foldl
            (fun (a : ℚ) v => a + v) 0), [(0, 0), (0, 1), (1, 0), (1, 1)])
    ∧ ((Laba1.visitsInRange (0, 0) (1, 1)).length : Int) = (1 - 0 + 1) * (1 - 0 + 1) :=
  ⟨((aggregate_loops_stay_in_bounds Laba1.testTableOriginal (by decide) (0, 0) (1, 1)
      (by decide)).1 ℚ (fun (a : ℚ) v => a + v) 0).1,
    (aggregate_loops_stay_in_bounds Laba1.testTableOriginal (by decide) (0, 0) (1, 1)
      (by decide)).2.1⟩

end

/-! ## Splitting a range by rows (laba_1.cpp) -/

theorem intRange_append (a b c : Int) (hab : a ≤ b + 1) (hbc : b ≤ c) :
    intRange a c = intRange a b ++ intRange (b + 1) c := by
  unfold intRange
  have h1 : (c + 1 - a).toNat = (b + 1 - a).toNat + (c + 1 - (b + 1)).toNat := by omega
  rw [h1, List.range_add, List.map_append, List.map_map]
  congr 1
  apply List.map_congr_left
  intro k _
  simp only [Function.comp]
  push_cast
  omega

/-- A left fold of an associative operation started at `op x y`. -/
theorem foldl_op_shift {F : Type} (op : F → F → F)
    (hassoc : ∀ x y z, op (op x y) z = op x (op y z)) (l : List F) (x y : F) :
    l.foldl op (op x y) = op x (l.foldl op y) := by
  induction l generalizing y with
  | nil => rfl
  | cons v l ih => rw [List.foldl_cons, hassoc, ih, List.foldl_cons]

/-- A left fold of an associative operation with right-neutral start over a
concatenation. -/
theorem foldl_op_append {F : Type} (op : F → F → F) (e : F)
    (hassoc : ∀ x y z, op (op x y) z = op x (op y z)) (hid : ∀ x, op x e = x)
    (a b : List F) : (a ++ b).foldl op e = op (a.foldl op e) (b.foldl op e) := by
  rw [List.foldl_append, ← foldl_op_shift op hassoc b (a.foldl op e) e, hid]

section
variable {F : Type}

/-- The Number values of a range split after row `r1` are those of the upper
part followed by those of the lower part. -/
theorem Laba1.Table.numbersInRange_split (t : Laba1.Table F) (r0 c0 r1 r2 c1 : Int)
    (h01 : r0 ≤ r1 + 1) (h12 : r1 ≤ r2) :
    t.numbersInRange (r0, c0) (r2, c1)
      = t.numbersInRange (r0, c0) (r1, c1) ++ t.numbersInRange (r1 + 1, c0) (r2, c1) := by
  unfold Laba1.Table.numbersInRange Laba1.Table.cellsInRange
  dsimp only
  rw [intRange_append r0 r1 r2 h01 h12, List.flatMap_append, List.filter_append,
    List.map_append]

/-- C31: in laba_1.cpp, with numbers whose `+` and `*` are associative and
have `0` and `1` as neutral elements (exact rational or real values; the
arithmetic of `double` is not associative), on a table whose matrix matches its
dimensions, for every valid range from `(r0,c0)` to `(r2,c1)` and every `r1`
with `r0 <= r1 < r2` such that the upper part, up to row `r1`, and the lower
part, from row `r1 + 1`, each hold a Number cell: `calculateSum` and
`calculateProd` return on the two parts and on the whole range, the sum of the
whole range is the sum of the upper part plus the sum of the lower part, and the
product of the whole range is the product of the two products. -/
theorem sum_and_prod_split_by_rows [Zero F] [One F] [Add F] [Mul F] [BEq F] [CountLaw F]
    (hadd : ∀ x y z : F, x + y + z = x + (y + z)) (hzero : ∀ x : F, x + 0 = x)
    (hmul : ∀ x y z : F, x * y * z = x * (y * z)) (hone : ∀ x : F, x * 1 = x)
    (t : Laba1.Table F) (hwf : t.WF) (r0 c0 r1 r2 c1 : Int)
    (hv : t.validateRange (r0, c0) (r2, c1) = .ok ()) (h01 : r0 ≤ r1) (h12 : r1 < r2)
    (hup : ∃ c ∈ t.cellsInRange (r0, c0) (r1, c1), c.type = .NUMBER)
    (hlow : ∃ c ∈ t.cellsInRange (r1 + 1, c0) (r2, c1), c.type = .NUMBER) :
    (∃ a b, t.calculateSum (r0, c0) (r1, c1) = .ok a
        ∧ t.calculateSum (r1 + 1, c0) (r2, c1) = .ok b
        ∧ t.calculateSum (r0, c0) (r2, c1) = .ok (a + b))
    ∧ (∃ a b, t.calculateProd (r0, c0) (r1, c1) = .ok a
        ∧ t.calculateProd (r1 + 1, c0) (r2, c1) = .ok b
        ∧ t.calculateProd (r0, c0) (r2, c1) = .ok (a * b)) := by
  have hv2 := (Laba1.Table.validateRange_eq_ok t (r0, c0) (r2, c1)).1 hv
  dsimp only at hv2
  have hvu : t.validateRange (r0, c0) (r1, c1) = .ok () :=
    (Laba1.Table.validateRange_eq_ok t (r0, c0) (r1, c1)).2 ⟨by dsimp only; omega, hv2.2⟩
  have hvl : t.validateRange (r1 + 1, c0) (r2, c1) = .ok () :=
    (Laba1.Table.validateRange_eq_ok t (r1 + 1, c0) (r2, c1)).2 ⟨by dsimp only; omega, hv2.2⟩
  have hnu := (Laba1.Table.exists_number_iff t (r0, c0) (r1, c1)).1 hup
  have hnl := (Laba1.Table.exists_number_iff t (r1 + 1, c0) (r2, c1)).1 hlow
  have hsplit := Laba1.Table.numbersInRange_split t r0 c0 r1 r2 c1 (by omega) (by omega)
  have hnw : (t.numbersInRange (r0, c0) (r2, c1)).length ≠ 0 := by
    rw [hsplit, List.length_append]
    omega
  constructor
  · refine ⟨(t.numbersInRange (r0, c0) (r1, c1)).foldl (fun x v => x + v) 0,
      (t.numbersInRange (r1 + 1, c0) (r2, c1)).foldl (fun x v => x + v) 0, ?_, ?_, ?_⟩
    · rw [Laba1.Table.calculateSum_eq t hwf _ _ hvu, if_neg hnu]
    · rw [Laba1.Table.calculateSum_eq t hwf _ _ hvl, if_neg hnl]
    · rw [Laba1.Table.calculateSum_eq t hwf _ _ hv, if_neg hnw, hsplit]
      exact congrArg Except.ok (foldl_op_append (fun x v => x + v) 0 hadd hzero _ _)
  · refine ⟨(t.numbersInRange (r0, c0) (r1, c1)).foldl (fun x v => x * v) 1,
      (t.numbersInRange (r1 + 1, c0) (r2, c1)).foldl (fun x v => x * v) 1, ?_, ?_, ?_⟩
    · rw [Laba1.Table.calculateProd_eq t hwf _ _ hvu, if_neg hnu]
    · rw [Laba1.Table.calculateProd_eq t hwf _ _ hvl, if_neg hnl]
    · rw [Laba1.Table.calculateProd_eq t hwf _ _ hv, if_neg hnw, hsplit]
      exact congrArg Except.ok (foldl_op_append (fun x v => x * v) 1 hmul hone _ _)

theorem sum_and_prod_split_by_rows_witness :
    (∃ a b, (Laba1.testTableMean.setNumber 1 1 2).2.calculateSum (0, 0) (0, 1) = .ok a
        ∧ (Laba1.testTableMean.setNumber 1 1 2).2.calculateSum (0 + 1, 0) (1, 1) = .ok b
        ∧ (Laba1.testTableMean.setNumber 1 1 2).2.calculateSum (0, 0) (1, 1) = .ok (a + b))
    ∧ (∃ a b, (Laba1.testTableMean.setNumber 1 1 2).2.calculateProd (0, 0) (0, 1) = .ok a
        ∧ (Laba1.testTableMean.setNumber 1 1 2).2.calculateProd (0 + 1, 0) (1, 1) = .ok b
        ∧ (Laba1.testTableMean.setNumber 1 1 2).2.calculateProd (0, 0) (1, 1) = .ok (a * b))
    ∧ (Laba1.testTableMean.setNumber 1 1 2).2.calculateSum (0, 0) (0, 1) = .ok 51
    ∧ (Laba1.testTableMean.setNumber 1 1 2).2.calculateSum (1, 0) (1, 1) = .ok 2
    ∧ (Laba1.testTableMean.setNumber 1 1 2).2.calculateSum (0, 0) (1, 1) = .ok 53 := by
  have hthm := sum_and_prod_split_by_rows add_assoc add_zero mul_assoc mul_one
    (Laba1.testTableMean.setNumber 1 1 2).2 (by decide) 0 0 0 1 1 (by decide) (by decide)
    (by decide) ⟨{ type := .NUMBER, textValue := "", numberValue := 41 / 2 }, by decide!, rfl⟩
    ⟨{ type := .NUMBER, textValue := "", numberValue := 2 }, by decide!, rfl⟩
  exact ⟨hthm.1, hthm.2, by decide!, by decide!, by decide!⟩

end


/-! ## The copy constructor of laba_1.cpp, on objects in memory -/

/-- Two lists related element by element have related elements, or none, at
every index. -/
theorem forall₂_get? {α β : Type} (R : α → β → Prop) (l1 : List α) (l2 : List β)
    (h : List.Forall₂ R l1 l2) (n : Nat) :
    (∃ x y, l1.get? n = some x ∧ l2.get? n = some y ∧ R x y)
    ∨ (l1.get? n = none ∧ l2.get? n = none) := by
  induction h generalizing n with
  | nil => right; exact ⟨rfl, rfl⟩
  | cons hr _ ih =>
    cases n with
    | zero => left; exact ⟨_, _, rfl, rfl, hr⟩
    | succ k => exact ih k

/-- Two vectors related element by element give related elements, or are both
left, by `v[i]`. -/
theorem subscript_forall₂ {α β : Type} (R : α → β → Prop) (l1 : List α) (l2 : List β)
    (h : List.Forall₂ R l1 l2) (i : Int) :
    (∃ x y, subscript l1 i = .ok x ∧ subscript l2 i = .ok y ∧ R x y)
    ∨ (subscript l1 i = .error .vector_subscript ∧ subscript l2 i = .error .vector_subscript)
    := by
  unfold subscript
  by_cases hi : i < 0
  · right
    rw [if_pos hi, if_pos hi]
    exact ⟨rfl, rfl⟩
  · rw [if_neg hi, if_neg hi]
    rcases forall₂_get? R l1 l2 h i.toNat with ⟨x, y, hx, hy, hr⟩ | ⟨hx, hy⟩
    · left
      rw [hx, hy]
      exact ⟨x, y, rfl, rfl, hr⟩
    · right
      rw [hx, hy]
      exact ⟨rfl, rfl⟩

theorem forall₂_mem_left {α β : Type} (R : α → β → Prop) (l1 : List α) (l2 : List β)
    (h : List.Forall₂ R l1 l2) (x : α) (hx : x ∈ l1) : ∃ y ∈ l2, R x y := by
  induction h with
  | nil => exact absurd hx (List.not_mem_nil _)
  | cons hr _ ih =>
    rcases List.mem_cons.1 hx with rfl | hx
    · exact ⟨_, List.mem_cons_self _ _, hr⟩
    · obtain ⟨y, hy, hxy⟩ := ih hx
      exact ⟨y, List.mem_cons_of_mem _ hy, hxy⟩

namespace Laba1

section
variable {F : Type}

theorem readCell_congr (m m2 : Mem F) (a a2 : Nat) (h : m2.get? a2 = m.get? a) :
    readCell m2 a2 = readCell m a := by
  unfold readCell
  rw [h]

theorem get?_append_of_lt (m ext : Mem F) (a : Nat) (h : a < m.length) :
    (m ++ ext).get? a = m.get? a := by
  rw [List.get?_eq_getElem?, List.get?_eq_getElem?, List.getElem?_append_left h]

/-- A copy stays a copy when the memory grows and the bound is lowered. -/
theorem IsCopyAt.mono (m0 m1 ext : Mem F) (lo lo2 a2 a : Nat) (h : IsCopyAt m0 lo m1 a2 a)
    (hlo : lo2 ≤ lo) : IsCopyAt m0 lo2 (m1 ++ ext) a2 a := by
  obtain ⟨h1, h2, h3⟩ := h
  refine ⟨Nat.le_trans hlo h1, ?_, ?_⟩
  · rw [List.length_append]
    exact Nat.lt_of_lt_of_le h2 (Nat.le_add_right _ _)
  · rw [get?_append_of_lt m1 ext a2 h2, h3]

/-- The copy of a row vector: every element is copied to a new address. -/
theorem copyCells_spec (m0 : Mem F) (row : List Nat) (hrow : ∀ a ∈ row, a < m0.length)
    (acc : List Nat) (ext : Mem F) :
    ∃ new ext2, row.foldlM copyCell (acc, m0 ++ ext) = .ok (acc ++ new, m0 ++ ext ++ ext2)
      ∧ List.Forall₂ (IsCopyAt m0 (m0 ++ ext).length (m0 ++ ext ++ ext2)) new row := by
  induction row generalizing acc ext with
  | nil => exact ⟨[], [], by simp [List.foldlM, pure, Except.pure], List.Forall₂.nil⟩
  | cons a row ih =>
    have ha : a < m0.length := hrow a (List.mem_cons_self _ _)
    have hget : (m0 ++ ext).get? a = some (m0.get ⟨a, ha⟩) := by
      rw [get?_append_of_lt m0 ext a ha, List.get?_eq_get ha]
    have hstep : copyCell (acc, m0 ++ ext) a
        = .ok (acc ++ [(m0 ++ ext).length], m0 ++ (ext ++ [m0.get ⟨a, ha⟩])) := by
      unfold copyCell readCell
      dsimp only
      rw [hget]
      simp only [bind, Except.bind, pure, Except.pure, List.append_assoc]
    obtain ⟨new2, ext3, hfold, hrel⟩ := ih (fun b hb => hrow b (List.mem_cons_of_mem _ hb))
      (acc ++ [(m0 ++ ext).length]) (ext ++ [m0.get ⟨a, ha⟩])
    refine ⟨(m0 ++ ext).length :: new2, [m0.get ⟨a, ha⟩] ++ ext3, ?_, ?_⟩
    · rw [List.foldlM_cons, hstep]
      show List.foldlM _ _ row = _
      rw [hfold]
      simp [List.append_assoc]
    · have hmem : m0 ++ ext ++ ([m0.get ⟨a, ha⟩] ++ ext3)
          = m0 ++ (ext ++ [m0.get ⟨a, ha⟩]) ++ ext3 := by
        simp [List.append_assoc]
      rw [hmem]
      refine List.Forall₂.cons ⟨Nat.le_refl _, ?_, ?_⟩ ?_
      · simp only [List.length_append, List.length_cons, List.length_nil]
        omega
      · rw [get?_append_of_lt _ ext3 _ (by simp), ← List.append_assoc, List.get?_eq_getElem?,
          List.getElem?_append_right (Nat.le_refl _), Nat.sub_self, List.get?_eq_get ha]
        rfl
      · refine hrel.imp ?_
        intro a2 b hab
        exact ⟨Nat.le_trans (by simp) hab.1, hab.2.1, hab.2.2⟩

/-- The copy of the vector of rows: every row is copied to new addresses. -/
theorem copyRows_spec (m0 : Mem F) (rows : List (List Nat))
    (hrows : ∀ row ∈ rows, ∀ a ∈ row, a < m0.length) (acc : List (List Nat)) (ext : Mem F) :
    ∃ new ext2, rows.foldlM copyRow (acc, m0 ++ ext) = .ok (acc ++ new, m0 ++ ext ++ ext2)
      ∧ List.Forall₂ (List.Forall₂ (IsCopyAt m0 (m0 ++ ext).length (m0 ++ ext ++ ext2)))
          new rows := by
  induction rows generalizing acc ext with
  | nil => exact ⟨[], [], by simp [List.foldlM, pure, Except.pure], List.Forall₂.nil⟩
  | cons row rows ih =>
    obtain ⟨newr, e1, hrowfold, hrowrel⟩ := copyCells_spec m0 row
      (hrows row (List.mem_cons_self _ _)) [] ext
    have hstep : copyRow (acc, m0 ++ ext) row = .ok (acc ++ [newr], m0 ++ (ext ++ e1)) := by
      unfold copyRow
      dsimp only
      rw [hrowfold]
      simp only [bind, Except.bind, pure, Except.pure, List.append_assoc, List.nil_append]
    obtain ⟨new2, e2, hfold, hrel⟩ := ih (fun r hr => hrows r (List.mem_cons_of_mem _ hr))
      (acc ++ [newr]) (ext ++ e1)
    refine ⟨newr :: new2, e1 ++ e2, ?_, ?_⟩
    · rw [List.foldlM_cons, hstep]
      show List.foldlM _ _ rows = _
      rw [hfold]
      simp [List.append_assoc]
    · have hmem : m0 ++ ext ++ (e1 ++ e2) = m0 ++ (ext ++ e1) ++ e2 := by
        simp [List.append_assoc]
      refine List.Forall₂.cons ?_ ?_
      · refine hrowrel.imp ?_
        intro a2 b hab
        have := IsCopyAt.mono m0 _ e2 _ (m0 ++ ext).length a2 b hab (Nat.le_refl _)
        rw [List.append_assoc] at this
        exact this
      · rw [hmem]
        refine hrel.imp ?_
        intro r2 r hr
        refine hr.imp ?_
        intro a2 b hab
        exact ⟨Nat.le_trans (by simp) hab.1, hab.2.1, hab.2.2⟩

end

end Laba1

namespace Laba1

section
variable {F : Type}

/-- What the copy constructor returns on an object whose addresses are valid:
an object of the same dimensions whose matrix has, position by position, a new
address holding the cell of the original, in a memory that extends the old
one. -/
theorem TableObj.copy_spec (t : TableObj) (m : Mem F) (hvalid : t.Valid m) :
    ∃ cells ext, t.copy m
        = .ok ({ cells := cells, rows := t.rows, columns := t.columns }, m ++ ext)
      ∧ List.Forall₂ (List.Forall₂ (IsCopyAt m m.length (m ++ ext))) cells t.cells := by
  obtain ⟨new, ext2, hfold, hrel⟩ := copyRows_spec m t.cells hvalid [] []
  rw [List.append_nil] at hfold hrel
  refine ⟨new, ext2, ?_, hrel⟩
  unfold TableObj.copy
  rw [hfold]
  rfl

/-- A read `cells[i][j]` depends on the memory at the addresses of the object
only. -/
theorem TableObj.at_congr (t : TableObj) (m m2 : Mem F)
    (h : ∀ row ∈ t.cells, ∀ a ∈ row, m2.get? a = m.get? a) (i j : Int) :
    t.at m2 i j = t.at m i j := by
  unfold TableObj.at
  cases hr : subscript t.cells i with
  | error e => rfl
  | ok r =>
    simp only [bind, Except.bind]
    cases ha : subscript r j with
    | error e => rfl
    | ok a =>
      exact readCell_congr m m2 a a (h r (subscript_mem _ _ _ hr) a (subscript_mem _ _ _ ha))

/-- A read `cells[i][j]` of the copy yields what the same read of the original
yields. -/
theorem TableObj.at_of_copy (t c : TableObj) (m m1 : Mem F) (lo : Nat)
    (hrel : List.Forall₂ (List.Forall₂ (IsCopyAt m lo m1)) c.cells t.cells) (i j : Int) :
    c.at m1 i j = t.at m i j := by
  unfold TableObj.at
  rcases subscript_forall₂ _ _ _ hrel i with ⟨r2, r, hr2, hr, hrow⟩ | ⟨hr2, hr⟩
  · rw [hr2, hr]
    simp only [bind, Except.bind]
    rcases subscript_forall₂ _ _ _ hrow j with ⟨a2, a, ha2, ha, hcopy⟩ | ⟨ha2, ha⟩
    · rw [ha2, ha]
      exact readCell_congr m m1 a a2 hcopy.2.2
    · rw [ha2, ha]
  · rw [hr2, hr]
    rfl

theorem get?_set_ne (m : Mem F) (a b : Nat) (x : Cell F) (h : a ≠ b) :
    (m.set a x).get? b = m.get? b := by
  rw [List.get?_eq_getElem?, List.get?_eq_getElem?, List.getElem?_set_ne h]

/-- `setNumber` writes to no address outside its object. -/
theorem TableObj.setNumber_frame (t : TableObj) (m : Mem F) (row column : Int) (number : F)
    (b : Nat) (hb : ∀ r ∈ t.cells, b ∉ r) :
    (t.setNumber m row column number).2.get? b = m.get? b := by
  unfold TableObj.setNumber
  cases t.validateCoordinates row column with
  | error e => rfl
  | ok u =>
    dsimp only
    cases hr : subscript t.cells row with
    | error e => rfl
    | ok r =>
      dsimp only
      cases ha : subscript r column with
      | error e => rfl
      | ok a =>
        dsimp only
        cases readCell m a with
        | error e => rfl
        | ok c =>
          dsimp only
          apply get?_set_ne
          intro hab
          exact hb r (subscript_mem _ _ _ hr) (hab ▸ subscript_mem _ _ _ ha)

/-- `setText` writes to no address outside its object. -/
theorem TableObj.setText_frame (t : TableObj) (m : Mem F) (row column : Int) (text : String)
    (b : Nat) (hb : ∀ r ∈ t.cells, b ∉ r) :
    (t.setText m row column text).2.get? b = m.get? b := by
  unfold TableObj.setText
  cases t.validateCoordinates row column with
  | error e => rfl
  | ok u =>
    dsimp only
    cases hr : subscript t.cells row with
    | error e => rfl
    | ok r =>
      dsimp only
      cases ha : subscript r column with
      | error e => rfl
      | ok a =>
        dsimp only
        cases readCell m a with
        | error e => rfl
        | ok c =>
          dsimp only
          apply get?_set_ne
          intro hab
          exact hb r (subscript_mem _ _ _ hr) (hab ▸ subscript_mem _ _ _ ha)

/-- A sequence of setter calls on an object writes to no address outside it. -/
theorem callsOn_frame (calls : List (Call F)) (t : TableObj) (m : Mem F) (b : Nat)
    (hb : ∀ r ∈ t.cells, b ∉ r) : (callsOn calls t m).get? b = m.get? b := by
  unfold callsOn
  induction calls generalizing m with
  | nil => rfl
  | cons k calls ih =>
    rw [List.foldl_cons, ih]
    cases k with
    | setNumber row column number => exact TableObj.setNumber_frame t m row column number b hb
    | setText row column text => exact TableObj.setText_frame t m row column text b hb

/-- The reads and the aggregates of an object depend on its dimensions and on
what `cells[i][j]` yields only. -/
theorem TableObj.methods_congr [Zero F] [One F] [Add F] [Mul F] [Div F] [BEq F]
    (t t2 : TableObj) (m m2 : Mem F) (hr : t2.rows = t.rows) (hc : t2.columns = t.columns)
    (hat : ∀ i j, t2.at m2 i j = t.at m i j) :
    (∀ r k, t2.getCell m2 r k = t.getCell m r k)
    ∧ ∀ s e, t2.calculateSum m2 s e = t.calculateSum m s e
        ∧ t2.calculateProd m2 s e = t.calculateProd m s e
        ∧ t2.calculateMean m2 s e = t.calculateMean m s e := by
  have hon : ∀ (σ : Type) (g : σ → F → σ) (i j : Int) (acc : σ),
      t2.onNumber m2 i j g acc = t.onNumber m i j g acc := by
    intro σ g i j acc
    unfold TableObj.onNumber
    rw [hat]
  have hvr : ∀ s e, t2.validateRange s e = t.validateRange s e := by
    intro s e
    unfold TableObj.validateRange
    rw [hr, hc]
  constructor
  · intro r k
    unfold TableObj.getCell TableObj.validateCoordinates
    rw [hr, hc, hat]
  · intro s e
    refine ⟨?_, ?_, ?_⟩
    · unfold TableObj.calculateSum
      simp only [hon, hvr]
    · unfold TableObj.calculateProd
      simp only [hon, hvr]
    · unfold TableObj.calculateMean
      simp only [hon, hvr]

/-- C15: in laba_1.cpp copying a `Table` is a deep copy. For every `Table`
object `t` whose cells are in memory, the copy constructor returns an object
`c` of the same dimensions all of whose cells are at new addresses, none
shared with `t` or with anything that existed before; `getCell` at every
coordinate and `calculateSum`, `calculateProd`, `calculateMean` over every
range give on `c` the outcome they give on `t`; and after any sequence of
`setNumber` / `setText` calls on `c`, `getCell` and the three aggregates give
on `t` the outcome they gave before the copy was made. -/
theorem copy_is_deep [Zero F] [One F] [Add F] [Mul F] [Div F] [BEq F] (t : TableObj)
    (m : Mem F) (hvalid : t.Valid m) :
    ∃ c m1, t.copy m = .ok (c, m1)
      ∧ (c.rows = t.rows ∧ c.columns = t.columns)
      ∧ (∀ row ∈ c.cells, ∀ a ∈ row, m.length ≤ a ∧ a < m1.length)
      ∧ (∀ r k, c.getCell m1 r k = t.getCell m r k)
      ∧ (∀ s e, c.calculateSum m1 s e = t.calculateSum m s e
          ∧ c.calculateProd m1 s e = t.calculateProd m s e
          ∧ c.calculateMean m1 s e = t.calculateMean m s e)
      ∧ ∀ calls : List (Call F),
          (∀ r k, t.getCell (callsOn calls c m1) r k = t.getCell m r k)
          ∧ (∀ s e, t.calculateSum (callsOn calls c m1) s e = t.calculateSum m s e
              ∧ t.calculateProd (callsOn calls c m1) s e = t.calculateProd m s e
              ∧ t.calculateMean (callsOn calls c m1) s e = t.calculateMean m s e) := by
  obtain ⟨cells, ext, hcopy, hrel⟩ := TableObj.copy_spec t m hvalid
  have hfresh : ∀ row ∈ cells, ∀ a ∈ row, m.length ≤ a ∧ a < (m ++ ext).length := by
    intro row hrow a ha
    obtain ⟨r, -, hr⟩ := forall₂_mem_left _ _ _ hrel row hrow
    obtain ⟨b, -, hb⟩ := forall₂_mem_left _ _ _ hr a ha
    exact ⟨hb.1, hb.2.1⟩
  have hcm := TableObj.methods_congr t { cells := cells, rows := t.rows, columns := t.columns }
    m (m ++ ext) rfl rfl (TableObj.at_of_copy t _ m (m ++ ext) m.length hrel)
  refine ⟨_, _, hcopy, ⟨rfl, rfl⟩, hfresh, hcm.1, hcm.2, ?_⟩
  intro calls
  have hmem : ∀ row ∈ t.cells, ∀ a ∈ row,
      (callsOn calls { cells := cells, rows := t.rows, columns := t.columns }
        (m ++ ext)).get? a = m.get? a := by
    intro row hrow a ha
    have hlt : a < m.length := hvalid row hrow a ha
    rw [callsOn_frame calls _ (m ++ ext) a, get?_append_of_lt m ext a hlt]
    intro r hr hmemr
    have hge := (hfresh r hr a hmemr).1
    omega
  exact TableObj.methods_congr t t m _ rfl rfl (TableObj.at_congr t m _ hmem)

end

/-- The copy of the object `table` of `runTests`, and the memory after the
copy. -/
theorem copy_is_deep_witness :
    ∃ c m1, testObjOriginal.1.copy testObjOriginal.2 = .ok (c, m1)
      ∧ c.getCell m1 0 0 = .ok ⟨.NUMBER, "", 10.5⟩
      ∧ c.getCell (callsOn [.setNumber 0 0 20.5] c m1) 0 0 = .ok ⟨.NUMBER, "", 20.5⟩
      ∧ testObjOriginal.1.getCell (callsOn [.setNumber 0 0 20.5] c m1) 0 0
          = .ok ⟨.NUMBER, "", 10.5⟩
      ∧ testObjOriginal.1.getCell
          (callsOn [.setNumber 0 0 20.5] testObjOriginal.1.alias testObjOriginal.2) 0 0
          = .ok ⟨.NUMBER, "", 20.5⟩ := by
  obtain ⟨c, m1, hcopy, -, -, hcell, -, hcalls⟩ :=
    copy_is_deep testObjOriginal.1 testObjOriginal.2 (by decide)
  refine ⟨c, m1, hcopy, ?_, ?_, ?_, by decide!⟩
  · rw [hcell]
    decide!
  · have hc : Except.ok (c, m1) = testObjOriginal.1.copy testObjOriginal.2 := hcopy.symm
    have hval : testObjOriginal.1.copy testObjOriginal.2
        = .ok (⟨[[4, 5], [6, 7]], 2, 2⟩, testObjOriginal.2 ++ testObjOriginal.2) := by decide!
    rw [hval] at hc
    injection hc with hc
    injection hc with h1 h2
    subst h1
    subst h2
    decide!
  · rw [(hcalls [.setNumber 0 0 20.5]).1]
    decide!

end Laba1
